import Mathlib

/-!
# MCHawk: the server's authentication gate, packet dispatch and tick loop

A shallow embedding of `src/Server.cpp` and `src/LuaPlugins/LuaPluginHandler.cpp`.

Conventions of the embedding.

* `std::string` is `String`, handled through its list of characters; one `Char`
  stands for one byte.
* A `Client*` is the numeric `id` of a `Client` record; the server's `m_clients`
  vector is the list of records, and a write through a pointer is an update of
  the records carrying that id.
* `m_numClients` and `m_maxClients` are C++ `int`s, embedded as `Int`. The
  counter moves by one per login or reap; the increment of the model is the
  increment of the code while the counter is below 2147483647, and a theorem
  that applies the login to an arbitrary state carries that range as a
  hypothesis.
* Code of the repository that is not among the embedded sources (the `World`
  class, the packet structs and their `Read`, the `Client` class, the Lua
  bindings, the command handler) and the libraries (OpenSSL `MD5`, SFML) are
  either parameters collected in `Env`, or small definitions whose doc comment
  says they are modelled from the specification.
* A null-pointer dereference and an uncaught C++ exception are results of type
  `Fault`, carried by an `Outcome` together with the state at that point.
-/

namespace MCHawk

/-! ## Strings -/

/-- The classification used by `boost::trim_right`: `std::isspace` in the
classic locale (space, `\t`, `\n`, `\v`, `\f`, `\r`). -/
def is_space (c : Char) : Bool :=
  c.toNat == 32 || (9 ≤ c.toNat && c.toNat ≤ 13)

/-- The function `boost::trim_right`: drop the trailing white space. -/
def trim_right (s : String) : String :=
  ⟨(s.data.reverse.dropWhile is_space).reverse⟩

/-- The call `std::string((char*)field, 0, sizeof(field))` on a 64-byte packet
field: the bytes are read as a C string (up to the first NUL byte) and at most
64 of them are kept. -/
def c_string64 (field : List Char) : String :=
  ⟨(field.take 64).takeWhile (fun c => c.toNat != 0)⟩

/-- The function `std::tolower` on one byte (classic locale). -/
def tolower (c : Char) : Char :=
  if 65 ≤ c.toNat ∧ c.toNat ≤ 90 then Char.ofNat (c.toNat + 32) else c

/-- The function `boost::algorithm::to_lower`. -/
def to_lower (s : String) : String :=
  ⟨s.data.map tolower⟩

/-- The function `std::string::substr(pos, count)`, for `pos` within the string. -/
def substr (s : String) (pos count : Nat) : String :=
  ⟨(s.data.drop pos).take count⟩

/-- The test `a.find(b) == 0`: `b` occurs in `a` at position 0. -/
def find_at_zero (a b : String) : Bool :=
  b.data.isPrefixOf a.data

/-- The result of `strcmp(a, b) != 0` on the C strings of `a` and `b`: the
comparison stops at the first NUL byte of either. -/
def strcmp_ne (a b : String) : Bool :=
  a.data.takeWhile (fun c => c.toNat != 0) != b.data.takeWhile (fun c => c.toNat != 0)

/-- One digit of the `%02x` conversion of `sprintf`. -/
def hexDigit (n : Nat) : Char :=
  if n < 10 then Char.ofNat (48 + n) else Char.ofNat (87 + n)

/-- The conversion `sprintf(.., "%02x", b)` of one byte. -/
def hex02x (b : Nat) : List Char :=
  [hexDigit (b % 256 / 16), hexDigit (b % 16)]

/-! ## Packets -/

/-- Modelled from the spec: the outbound packets of the wire codec (the packet
structs are not among the sources), with the logical fields the senders pass. -/
inductive Packet where
  | SERVER_INFO (version : Nat) (name motd : String) (userType : Nat)
  | LEVEL_INIT
  | LEVEL_CHUNK (len : Nat) (data : List Nat) (pct : Nat)
  | LEVEL_FINAL (x y z : Int)
  | SET_BLOCK (x y z : Int) (type : Nat)
  | SPAWN (pid : Int) (name : String) (x y z : Int) (yaw pitch : Nat)
  | POS (pid : Int) (x y z : Int) (yaw pitch : Nat)
  | DESPAWN (pid : Int)
  | MSG (text : String)
  | KICK (reason : String)
  | USER_TYPE (userType : Nat)
  deriving DecidableEq, Repr

/-- Modelled from the spec: the opcode constant `CAUTH` of the AUTH packet
(defined with the packet structs, not among the sources). -/
def CAUTH : Nat := 0x00
/-- Modelled from the spec: the opcode constant `CBLOCK` of the inbound
SET_BLOCK packet (defined with the packet structs, not among the sources). -/
def CBLOCK : Nat := 0x05
/-- Modelled from the spec: the opcode constant `CPOS` of the POS packet
(defined with the packet structs, not among the sources). -/
def CPOS : Nat := 0x08
/-- Modelled from the spec: the opcode constant `CMSG` of the MESSAGE packet
(defined with the packet structs, not among the sources). -/
def CMSG : Nat := 0x0d

/-- Modelled from the spec: the inbound AUTH packet `struct cauthp` (declared
outside the sources), `AUTH{proto, name:str64, key:str64, pad}`; `name` and
`key` are the raw 64-byte fields. -/
structure cauthp where
  opcode : Nat
  version : Nat
  name : List Char
  key : List Char
  UNK0 : Nat
  deriving DecidableEq, Repr

/-- Modelled from the spec: the inbound MESSAGE packet `struct cmsgp` (declared
outside the sources), `MESSAGE{unused, text:str64}`; `msg` is the raw 64-byte
field. -/
structure cmsgp where
  opcode : Nat
  flag : Nat
  msg : List Char
  deriving DecidableEq, Repr

/-- Modelled from the spec: the inbound POS packet `struct cposp` (declared
outside the sources), `POS{pid, x, y, z, yaw, pitch}`. -/
structure cposp where
  opcode : Nat
  pid : Int
  x : Int
  y : Int
  z : Int
  yaw : Nat
  pitch : Nat
  deriving DecidableEq, Repr

/-- Modelled from the spec: the inbound SET_BLOCK packet `struct cblockp`
(declared outside the sources), `SET_BLOCK{x, y, z, mode, type}`. -/
structure cblockp where
  opcode : Nat
  x : Int
  y : Int
  z : Int
  mode : Nat
  type : Nat
  deriving DecidableEq, Repr

/-! ## Client sessions -/

/-- Modelled from the spec: the receive side of a `ClientStream` (declared
outside the sources), "receive buffer (raw bytes plus a count)": the bytes
received and not yet consumed, `count` being the length of `buf`. -/
structure ClientStream where
  buf : List Char
  deriving DecidableEq, Repr

/-- The number of buffered bytes, `stream.count`. -/
def ClientStream.count (st : ClientStream) : Nat := st.buf.length

/-- Modelled from the spec: a client session, the `Client` class (declared
outside the sources) with the attributes the specification lists. `id` stands
for the address of the `Client` object, `ip` for what `GetIpString()` returns,
`queue` for the outbound packet queue and `sent` for what
`ProcessPacketsInQueue` has already written out. -/
structure Client where
  id : Nat
  active : Bool
  authed : Bool
  ip : String
  stream : ClientStream
  m_name : String
  m_chatName : String
  m_userType : Nat
  m_worldName : String
  m_pid : Int
  m_chatMuted : Bool
  m_muteDeadline : Nat
  queue : List Packet
  sent : List Packet
  deriving DecidableEq, Repr

/-- Modelled from the spec: the constructor `Client()` (the `Client` class is
not among the sources): the strings start empty, the queue is empty, and the
player id, "valid only while the session is in a world roster", starts at -1.
`OnConnect` then sets `active`, `authed` and the socket. -/
def Client.new (id : Nat) (ip : String) : Client :=
  { id := id, active := false, authed := false, ip := ip, stream := ⟨[]⟩,
    m_name := "", m_chatName := "", m_userType := 0, m_worldName := "",
    m_pid := -1, m_chatMuted := false, m_muteDeadline := 0, queue := [], sent := [] }

/-- Modelled from the spec: `Client::QueuePacket`, "append an encoded frame to
an outbound FIFO". -/
def Client.QueuePacket (c : Client) (p : Packet) : Client :=
  { c with queue := c.queue ++ [p] }

/-- Modelled from the spec: the helper `SendKick(client, reason)`, which
enqueues `KICK(reason)` on the session. -/
def SendKick (c : Client) (reason : String) : Client :=
  c.QueuePacket (.KICK reason)

/-- Modelled from the spec: the helper `SendMessage(client, message)`, which
enqueues one chat line on the session. -/
def SendMessage (c : Client) (message : String) : Client :=
  c.QueuePacket (.MSG message)

/-- Modelled from the spec: the helper `SendInfo`, which enqueues
`SERVER_INFO` on the session. -/
def SendInfo (c : Client) (name motd : String) (version userType : Nat) : Client :=
  c.QueuePacket (.SERVER_INFO version name motd userType)

/-- The loop of `Server::SendWrappedMessage`: `pos` runs over the message in
steps of at most 64; the first argument bounds the number of iterations. -/
def SendWrappedMessage_loop (message : String) (length : Nat) : Nat → Nat → Client → Client
  | 0, _, c => c
  | fuel + 1, pos, c =>
    if pos < length then
      let diff := length - pos
      let count := min diff 64
      let partialMessage := substr message pos count
      SendWrappedMessage_loop message length fuel (pos + count) (SendMessage c partialMessage)
    else c

/-- The function `Server::SendWrappedMessage`. Every iteration advances `pos`
by at least one, so `length` iterations are enough. The `int` variables hold
the length and the positions of any message shorter than 2^31 bytes, the range
the embedding covers. -/
def SendWrappedMessage (c : Client) (message : String) : Client :=
  SendWrappedMessage_loop message message.length message.length 0 c

/-- The function `Server::SendSystemMessage`. -/
def SendSystemMessage (c : Client) (message : String) : Client :=
  SendWrappedMessage c ("&e[SYSTEM]: " ++ message)

/-- Modelled from the spec: `Client::IsChatMuted` at clock reading `now`,
"returns true until the monotonic clock passes [the deadline] and transitions
the flag off". -/
def Client.IsChatMuted (c : Client) (now : Nat) : Bool × Client :=
  if c.m_chatMuted && decide (c.m_muteDeadline ≤ now) then (false, { c with m_chatMuted := false })
  else (c.m_chatMuted, c)

/-- Modelled from the spec: `Client::SetChatMute(millis)`, "set a deadline". -/
def Client.SetChatMute (c : Client) (now millis : Nat) : Client :=
  { c with m_chatMuted := true, m_muteDeadline := now + millis }

/-! ## Worlds and the server state -/

/-- Modelled from the spec: a world, the `World` class (not among the sources)
with the attributes the specification lists: name, loaded flag, options, the
roster (player id to session), and the map (dimensions and block array). -/
structure World where
  m_name : String
  m_active : Bool
  options : List (String × String)
  roster : List (Int × Nat)
  x : Nat
  y : Nat
  z : Nat
  blocks : List Nat
  deriving DecidableEq, Repr

/-- Modelled from the spec: the enumeration `EventType` of `LuaPluginHandler`
(declared outside the sources), "drawn from a small closed set". -/
inductive EventType where
  | kOnPluginLoaded
  | kOnAuth
  | kOnMessage
  | kOnPosition
  | kOnBlock
  deriving DecidableEq, Repr

/-- Modelled from the spec: the payload table handed to event handlers, an
opaque table "matching the packet's logical fields". The conversions
`cauthp_to_luatable`, `cmsgp_to_luatable`, `cblockp_to_luatable` and
`make_luatable` are not among the sources; a table is represented by the packet
it is built from. -/
inductive LuaRef where
  | empty
  | auth (p : cauthp)
  | msg (p : cmsgp)
  | block (p : cblockp)
  | plugin (name : String)
  deriving DecidableEq, Repr

/-- How a call can fail: a member call through the null pointer `GetWorld`
returned, the `std::out_of_range` that `std::string::at` throws, and
`m_worlds.erase(m_worlds.end())`. -/
inductive Fault where
  | nullWorld
  | out_of_range
  | eraseEnd
  deriving DecidableEq, Repr

/-- The state of `Server`: the members the functions of `Server.cpp` read and
write. `eventFlags` is the flag table of `m_pluginHandler`. Three fields are
ghost state: `fired` has one entry per call of `TriggerEvent`
and `kicks` one entry per call of `KickClient` made by the functions embedded
here (code outside them cannot alter the two logs), and `nextId` gives each new
`Client` object a fresh address. -/
structure Server where
  m_port : Nat
  m_version : Nat
  m_numClients : Int
  m_maxClients : Int
  m_serverHeartbeat : Bool
  m_serverPublic : Bool
  m_serverVerifyNames : Bool
  m_serverName : String
  m_serverMotd : String
  m_salt : String
  m_clients : List Client
  m_worlds : List (String × World)
  eventFlags : List (String × Bool)
  fired : List (EventType × Option Nat × LuaRef)
  kicks : List (Nat × String)
  nextId : Nat
  deriving DecidableEq, Repr

/-- The outcome of a call: the state reached on return, or the fault that ended
the call together with the state in which it occurred. -/
inductive Outcome where
  | ok (s : Server)
  | fault (f : Fault) (s : Server)
  deriving DecidableEq, Repr

/-- The state an outcome carries. -/
def Outcome.state : Outcome → Server
  | .ok s => s
  | .fault _ s => s

/-- Whether the call returned. -/
def Outcome.returned : Outcome → Bool
  | .ok _ => true
  | .fault _ _ => false

/-- The constructor `Server::Server()`. -/
def Server.new : Server :=
  { m_port := 25565, m_version := 0x07, m_numClients := 0, m_maxClients := 8,
    m_serverHeartbeat := false, m_serverPublic := false, m_serverVerifyNames := false,
    m_serverName := "", m_serverMotd := "", m_salt := "",
    m_clients := [], m_worlds := [], eventFlags := [], fired := [], kicks := [], nextId := 0 }

/-- What a world operation does besides changing the world: the packets it
enqueues, each with the address of the session it goes to. -/
structure WorldEffect where
  world : World
  sends : List (Nat × Packet)

/-- The outcome of `World::AddClient`: the world, the player id assigned to the
session, and the packets enqueued. -/
structure AddClientEffect where
  world : World
  pid : Int
  sends : List (Nat × Packet)

/-- An event handler registered with `RegisterEvent`: it receives the session
(null for `kOnPluginLoaded`) and the payload, may change the server through the
Lua bindings, and may end by throwing a `LuaException` (second component `true`). -/
abbrev Handler := Option Nat → LuaRef → Server → Server × Bool

/-- Everything outside the embedded sources that the server calls. -/
structure Env where
  /-- OpenSSL `MD5`: the 16-byte digest of a byte string. -/
  MD5 : String → List Nat
  /-- The value of `sf::IpAddress::getLocalAddress().toInteger()`. -/
  localAddress : Nat
  /-- The value of `sf::IpAddress(ipString).toInteger()`. -/
  toInteger : String → Nat
  /-- The lines of `ops.txt`, empty when the file cannot be opened. -/
  opsFile : List String
  /-- The slots of `LuaPluginHandler::signalMap`, in connection order. -/
  signalMap : EventType → List Handler
  /-- The method `CommandHandler::Handle`. -/
  Handle : Nat → String → Server → Server
  /-- The reading of the monotonic clock, in milliseconds. -/
  clock : Nat
  /-- The method `World::AddClient`. -/
  AddClient : World → Client → AddClientEffect
  /-- The method `World::RemoveClient`. -/
  RemoveClient : World → Int → WorldEffect
  /-- The method `World::OnPosition`. -/
  OnPosition : World → Client → cposp → WorldEffect
  /-- The method `World::OnBlock`. -/
  OnBlock : World → Client → cblockp → WorldEffect
  /-- The method `World::Tick`. -/
  WorldTick : World → WorldEffect

/-- The session at address `cid`, if it is in `m_clients`. -/
def Server.getClient (s : Server) (cid : Nat) : Option Client :=
  s.m_clients.find? (fun c => c.id == cid)

/-- A write through the pointer `cid`: every record with that address is
replaced by its image under `f`. -/
def Server.updClient (s : Server) (cid : Nat) (f : Client → Client) : Server :=
  { s with m_clients := s.m_clients.map (fun c => if c.id = cid then f c else c) }

/-- Enqueue the packets a world operation produced on the sessions they are
addressed to, in order. -/
def deliver : List (Nat × Packet) → List Client → List Client
  | [], cs => cs
  | (cid, p) :: rest, cs =>
    deliver rest (cs.map (fun c => if c.id = cid then c.QueuePacket p else c))

/-- Replace the world stored under `name`. -/
def setWorld (name : String) (w : World) (ws : List (String × World)) : List (String × World) :=
  ws.map (fun e => if e.1 = name then (e.1, w) else e)

/-- Modelled from the spec: the method `Client::SetName` of the absent `Client`
class; the chat name "is name optionally wrapped in color codes", so it starts
as the name. -/
def Client.SetName (c : Client) (name : String) : Client :=
  { c with m_name := name, m_chatName := name }

/-- Modelled from the spec: the method `Client::SetUserType` of the absent
`Client` class, which stores the user type byte. -/
def Client.SetUserType (c : Client) (userType : Nat) : Client :=
  { c with m_userType := userType }

/-- Modelled from the spec: the method `Client::SetWorldName` of the absent
`Client` class, which stores the current world name. -/
def Client.SetWorldName (c : Client) (name : String) : Client :=
  { c with m_worldName := name }

/-- Modelled from the spec: the value of `client->GetIpString()` (the `Client`
class is not among the sources), the remote address of the session. -/
def Server.GetIpString (s : Server) (cid : Nat) : String :=
  match s.getClient cid with
  | some c => c.ip
  | none => ""

/-! ## World registry -/

/-- The function `Server::GetWorld`: `none` is the null pointer. -/
def GetWorld (s : Server) (name : String) : Option World :=
  (s.m_worlds.find? (fun e => e.1 == name)).map Prod.snd

/-- Insertion into the `std::map`, which keeps its keys in ascending order. -/
def map_insert (k : String) (w : World) : List (String × World) → List (String × World)
  | [] => [(k, w)]
  | e :: rest => if k < e.1 then (k, w) :: e :: rest else e :: map_insert k w rest

/-- The function `Server::AddWorld`. -/
def AddWorld (s : Server) (world : World) : Server :=
  let name := world.m_name
  match s.m_worlds.find? (fun e => e.1 == name) with
  | some _ => s
  | none => { s with m_worlds := map_insert name world s.m_worlds }

/-- The function `Server::RemoveWorld`. When `find` succeeds the function
returns at once; otherwise it erases at the end iterator. -/
def RemoveWorld (s : Server) (name : String) : Outcome :=
  match s.m_worlds.find? (fun e => e.1 == name) with
  | some _ => .ok s
  | none => .fault Fault.eraseEnd s

/-- The function `Server::GetWorldNames`. -/
def GetWorldNames (s : Server) : List String :=
  s.m_worlds.map Prod.fst

/-! ## Client helper functions of the server -/

/-- The function `Server::KickClient`. -/
def KickClient (cid : Nat) (reason : String) (s : Server) : Server :=
  let reason := if reason = "" then "Kicked" else reason
  { s.updClient cid (fun c => { SendKick c reason with active := false }) with
    kicks := s.kicks ++ [(cid, reason)] }

/-- The function `Server::BroadcastMessage`. -/
def BroadcastMessage (message : String) (s : Server) : Server :=
  { s with m_clients := s.m_clients.map (fun c => SendWrappedMessage c message) }

/-- The function `Server::SendSystemWideMessage`. -/
def SendSystemWideMessage (message : String) (s : Server) : Server :=
  { s with m_clients := s.m_clients.map (fun c => SendSystemMessage c message) }

/-- The loop of `Server::GetClientByName` over the rest of `m_clients`;
`client` is the candidate found so far and `name` is already in lower case. -/
def GetClientByName_loop (name : String) (exact : Bool) : List Client → Option Nat → Option Nat
  | [], client => client
  | obj :: rest, client =>
    let clientName := to_lower obj.m_name
    if name = clientName then some obj.id
    else if !exact && find_at_zero clientName name then
      match client with
      | some _ => none
      | none => GetClientByName_loop name exact rest (some obj.id)
    else GetClientByName_loop name exact rest client

/-- The function `Server::GetClientByName`: the address of the session found,
or `none` for the null pointer. -/
def GetClientByName (s : Server) (name : String) (exact : Bool) : Option Nat :=
  GetClientByName_loop (to_lower name) exact s.m_clients none

/-- Modelled from the spec: the default value of the parameter `exact` of
`GetClientByName`, declared in `Server.hpp` (not among the sources); the login
path looks for "a session with the same (case-insensitive) name". -/
def GetClientByName_exact_default : Bool := true

/-- The function `Server::IsOperator`: the name is one of the lines of `ops.txt`. -/
def IsOperator (env : Env) (name : String) : Bool :=
  env.opsFile.any (fun operatorName => name == operatorName)

/-- The record `ClientInfo`, with the fields `GetAllClientInfo` fills. -/
structure ClientInfo where
  name : String
  worldName : String
  ip : String
  deriving DecidableEq, Repr

/-- The function `Server::GetAllClientInfo`. -/
def GetAllClientInfo (s : Server) : List ClientInfo :=
  s.m_clients.map (fun obj => { name := obj.m_name, worldName := obj.m_worldName, ip := obj.ip })

/-! ## Event bus -/

/-- The call `signalMap[type](client, table)` of boost::signals2: the slots run
in connection order, and an exception thrown by a slot leaves the call at once.
The result is the state reached and whether an exception came out. -/
def invokeSlots : List Handler → Option Nat → LuaRef → Server → Server × Bool
  | [], _, _, s => (s, false)
  | h :: rest, client, table, s =>
    let r := h client table s
    if r.2 then (r.1, true) else invokeSlots rest client table r.1

/-- The function `LuaPluginHandler::TriggerEvent`: the signal is invoked and a
`LuaException` coming out of it is caught and printed. The ghost log `fired`
gets one entry. -/
def TriggerEvent (env : Env) (type : EventType) (client : Option Nat) (table : LuaRef)
    (s : Server) : Server :=
  let r := invokeSlots (env.signalMap type) client table s
  { r.1 with fired := s.fired ++ [(type, client, table)], kicks := s.kicks }

/-- Modelled from the spec: `LuaPluginHandler::GetEventFlag` (declared in
`LuaPluginHandler.hpp`, not among the sources), "read a flag set during the
most recent trigger"; a flag never set reads as false. -/
def GetEventFlag (s : Server) (name : String) : Bool :=
  match s.eventFlags.find? (fun e => e.1 == name) with
  | some e => e.2
  | none => false

/-! ## Authentication -/

/-- The test `isLocalPlayer` of `Server::OnAuth`: the address string is
`127.0.0.1`, or the remote and the local address agree under the mask
`0xffffff00` (both are `uint32_t`). -/
def isLocalPlayer (env : Env) (ipString : String) : Bool :=
  let localIp := env.localAddress % 2 ^ 32
  let ip := env.toInteger ipString % 2 ^ 32
  let netmask := 0xffffff00
  ipString == "127.0.0.1" || (localIp &&& netmask) == (ip &&& netmask)

/-- The string `mdString` of `Server::OnAuth`: the 16 digest bytes of
`MD5(saltName)`, each printed with `%02x`. -/
def mdString (env : Env) (saltName : String) : String :=
  ⟨(List.range 16).flatMap (fun i => hex02x ((env.MD5 saltName).getD i 0))⟩

/-- The call `world->AddClient(client)` on a non-null world stored under
`name`: the world is replaced by its successor, the session gets its player
id, and the packets are enqueued. -/
def World_AddClient (env : Env) (name : String) (w : World) (cid : Nat) (s : Server) : Server :=
  match s.getClient cid with
  | none => s
  | some c =>
    let r := env.AddClient w c
    let s1 := { s with m_worlds := setWorld name r.world s.m_worlds }
    let s2 := s1.updClient cid (fun c => { c with m_pid := r.pid })
    { s2 with m_clients := deliver r.sends s2.m_clients }

/-- Apply the effect of a world operation on the world stored under `name`. -/
def applyWorldEffect (name : String) (r : WorldEffect) (s : Server) : Server :=
  { s with m_worlds := setWorld name r.world s.m_worlds,
           m_clients := deliver r.sends s.m_clients }

/-- The name verification block of `Server::OnAuth`: `true` when the block
ends in the refusal "sent invalid key", `false` when control leaves it (names
are not verified, the player is local, or `strcmp` finds the key equal to
`mdString`). -/
def invalidKey (env : Env) (cid : Nat) (name key : String) (s : Server) : Bool :=
  if s.m_serverVerifyNames then
    if isLocalPlayer env (s.GetIpString cid) then false
    else strcmp_ne (mdString env (s.m_salt ++ name)) key
  else false

/-- The statement `m_numClients++`. The counter is a C++ `int`: adding one on
`Int` is what the code does for every counter below 2147483647, the range the
embedding covers (at 2147483647 the increment of the code overflows). -/
def Server.incNumClients (s : Server) : Server :=
  { s with m_numClients := s.m_numClients + 1 }

/-- The last block of `Server::OnAuth` (from `client->SetName(name)` to the
end): the session is named and marked authenticated, the counter goes up, the
join line is broadcast, the user type and the world name are set, `SERVER_INFO`
is sent, the session is added to the world "default" and two chat lines are
sent. With no world "default" the call `world->AddClient(client)` goes through
a null pointer. -/
def OnAuth_login (env : Env) (cid : Nat) (name : String) (s2 : Server) : Outcome :=
  let s3 := s2.updClient cid (fun c => { c.SetName name with authed := true })
  let s4 := s3.incNumClients
  let userType : Nat := if IsOperator env name then 0x64 else 0x00
  let s5 := BroadcastMessage ("&e" ++ name ++ " joined the game") s4
  let s6 := s5.updClient cid (fun c => c.SetUserType userType)
  let world := GetWorld s6 "default"
  let s7 := s6.updClient cid (fun c => c.SetWorldName "default")
  let s8 := s7.updClient cid
    (fun c => SendInfo c s7.m_serverName s7.m_serverMotd s7.m_version userType)
  match world with
  | none => .fault Fault.nullWorld s8
  | some w =>
    let s9 := World_AddClient env "default" w cid s8
    .ok (s9.updClient cid (fun c =>
      SendMessage (SendMessage c "https://github.com/vexyl/MCHawk")
        "&eTry /goto freebuild to get started."))

/-- The default path of `Server::OnAuth` (after the event flag is read): a
session found under the same name is kicked, a login to a full server that
replaces nobody is refused, and any other login is admitted. -/
def OnAuth_default (env : Env) (cid : Nat) (name : String) (s1 : Server) : Outcome :=
  let checkClient := GetClientByName s1 name GetClientByName_exact_default
  let s2 := match checkClient with
    | some k => KickClient k "Logged in from somewhere else" s1
    | none => s1
  if decide (s2.m_numClients ≥ s2.m_maxClients) && checkClient.isNone then
    .ok (KickClient cid "Server is full" s2)
  else OnAuth_login env cid name s2

/-- The function `Server::OnAuth`. -/
def OnAuth (env : Env) (cid : Nat) (clientAuth : cauthp) (s : Server) : Outcome :=
  let name := trim_right (c_string64 clientAuth.name)
  let key := trim_right (c_string64 clientAuth.key)
  if invalidKey env cid name key s then
    .ok (KickClient cid "Invalid key" s)
  else
    let s1 := TriggerEvent env EventType.kOnAuth (some cid) (LuaRef.auth clientAuth) s
    if GetEventFlag s1 "NoDefaultCall" then .ok s1
    else OnAuth_default env cid name s1

/-! ## Chat -/

/-- The call `message.find(ch, pos)`: the first position at or after `pos`
holding `ch`, or `none` for `npos`. -/
def find_char (message : List Char) (ch : Char) (pos : Nat) : Option Nat :=
  match (message.drop pos).indexOf? ch with
  | some k => some (pos + k)
  | none => none

/-- The colour-code loop of `Server::OnMessage`; the first argument bounds the
number of iterations. -/
def color_loop : Nat → Nat → List Char → List Char
  | 0, _, message => message
  | fuel + 1, colorPos, message =>
    match find_char message (Char.ofNat 37) colorPos with
    | none => message
    | some p =>
      if p = message.length - 1 then message
      else
        let c := (message.getD (p + 1) (Char.ofNat 0)).toNat
        let message := if (48 ≤ c ∧ c ≤ 57) ∨ (97 ≤ c ∧ c ≤ 102) then message.set p (Char.ofNat 38)
          else message
        color_loop fuel (p + 1) message

/-- The colour-code rewriting of `Server::OnMessage`. Every iteration moves
`colorPos` forward, so one iteration per character is enough. -/
def color_codes (message : String) : String :=
  ⟨color_loop (message.length + 1) 0 message.data⟩

/-- The command branch of `Server::OnMessage`: the session is muted for one
second, the leading `/` is dropped, an empty command or one starting with a
space gets `help` in front, and the command handler runs. The ghost logs are
those of the state before the handler ran. -/
def OnMessage_command (env : Env) (cid : Nat) (message : String) (s : Server) : Server :=
  let s := s.updClient cid (fun c => c.SetChatMute env.clock 1000)
  let command := substr message 1 (message.length - 1)
  let command := if command = "" || command.data.head? = some (Char.ofNat 32)
    then "help" ++ command else command
  let s1 := env.Handle cid command s
  { s1 with fired := s.fired, kicks := s.kicks }

/-- The chat branch of `Server::OnMessage`: the sender's chat name is put in
front, in the colour of its user type, the `%` colour codes are rewritten, and
the line is broadcast. -/
def OnMessage_chat (client : Client) (message : String) (s : Server) : Server :=
  let message := if client.m_userType > 0
    then "&e" ++ client.m_chatName ++ "&f: " ++ message
    else "&7" ++ client.m_chatName ++ "&f: " ++ message
  BroadcastMessage (color_codes message) s

/-- The function `Server::OnMessage`. The call `message.at(0)` throws
`std::out_of_range` on an empty message. -/
def OnMessage (env : Env) (cid : Nat) (clientMsg : cmsgp) (s : Server) : Outcome :=
  match s.getClient cid with
  | none => .ok s
  | some client =>
    let message := trim_right (c_string64 clientMsg.msg)
    let muted := client.IsChatMuted env.clock
    let s := s.updClient cid (fun c => (c.IsChatMuted env.clock).2)
    if muted.1 then .ok s
    else
      match message.data with
      | [] => .fault Fault.out_of_range s
      | first :: _ =>
        if first = Char.ofNat 47 then .ok (OnMessage_command env cid message s)
        else .ok (OnMessage_chat client message s)

/-! ## Packet dispatch -/

/-- A big-endian signed 16-bit field. -/
def int16_be (hi lo : Char) : Int :=
  let v := hi.toNat % 256 * 256 + lo.toNat % 256
  if v < 32768 then (v : Int) else (v : Int) - 65536

/-- The byte at position `i` of a buffer. -/
def byteAt (buf : List Char) (i : Nat) : Char :=
  buf.getD i (Char.ofNat 0)

/-- Modelled from the spec: `cauthp::Read` (the packet structs are not among
the sources). The AUTH frame is 131 bytes (opcode, protocol version, two
64-byte strings, one pad byte); with fewer bytes buffered the read fails and
"leaves the buffer intact", otherwise it consumes the frame. -/
def cauthp.Read (st : ClientStream) : Option (cauthp × ClientStream) :=
  if st.buf.length < 131 then none
  else some ({ opcode := (byteAt st.buf 0).toNat, version := (byteAt st.buf 1).toNat,
               name := (st.buf.drop 2).take 64, key := (st.buf.drop 66).take 64,
               UNK0 := (byteAt st.buf 130).toNat }, ⟨st.buf.drop 131⟩)

/-- Modelled from the spec: `cmsgp::Read`, a 66-byte frame (opcode, one unused
byte, one 64-byte string). -/
def cmsgp.Read (st : ClientStream) : Option (cmsgp × ClientStream) :=
  if st.buf.length < 66 then none
  else some ({ opcode := (byteAt st.buf 0).toNat, flag := (byteAt st.buf 1).toNat,
               msg := (st.buf.drop 2).take 64 }, ⟨st.buf.drop 66⟩)

/-- Modelled from the spec: `cposp::Read`, a 10-byte frame (opcode, player id,
three 16-bit coordinates, yaw, pitch). -/
def cposp.Read (st : ClientStream) : Option (cposp × ClientStream) :=
  if st.buf.length < 10 then none
  else some ({ opcode := (byteAt st.buf 0).toNat,
               pid := (if (byteAt st.buf 1).toNat % 256 < 128 then ((byteAt st.buf 1).toNat % 256 : Int)
                        else ((byteAt st.buf 1).toNat % 256 : Int) - 256),
               x := int16_be (byteAt st.buf 2) (byteAt st.buf 3),
               y := int16_be (byteAt st.buf 4) (byteAt st.buf 5),
               z := int16_be (byteAt st.buf 6) (byteAt st.buf 7),
               yaw := (byteAt st.buf 8).toNat, pitch := (byteAt st.buf 9).toNat },
             ⟨st.buf.drop 10⟩)

/-- Modelled from the spec: `cblockp::Read`, a 9-byte frame (opcode, three
16-bit coordinates, mode, block type). -/
def cblockp.Read (st : ClientStream) : Option (cblockp × ClientStream) :=
  if st.buf.length < 9 then none
  else some ({ opcode := (byteAt st.buf 0).toNat,
               x := int16_be (byteAt st.buf 1) (byteAt st.buf 2),
               y := int16_be (byteAt st.buf 3) (byteAt st.buf 4),
               z := int16_be (byteAt st.buf 5) (byteAt st.buf 6),
               mode := (byteAt st.buf 7).toNat, type := (byteAt st.buf 8).toNat },
             ⟨st.buf.drop 9⟩)

/-- The call `GetWorld(client->GetWorldName())->op(client, ...)` of
`HandlePacket`: a fault when the world does not exist. -/
def onWorldOf (op : World → Client → WorldEffect) (cid : Nat) (s : Server) : Outcome :=
  match s.getClient cid with
  | none => .ok s
  | some c =>
    match GetWorld s c.m_worldName with
    | none => .fault Fault.nullWorld s
    | some w => .ok (applyWorldEffect c.m_worldName (op w c) s)

/-- The function `Server::HandlePacket`. -/
def HandlePacket (env : Env) (cid : Nat) (opcode : Nat) (s : Server) : Outcome :=
  match s.getClient cid with
  | none => .ok s
  | some client =>
    if !client.authed then
      if opcode = CAUTH then
        match cauthp.Read client.stream with
        | some (clientAuth, st) =>
          OnAuth env cid clientAuth (s.updClient cid (fun c => { c with stream := st }))
        | none => .ok s
      else .ok (s.updClient cid (fun c => { c with active := false }))
    else if opcode = CMSG then
      match cmsgp.Read client.stream with
      | some (clientMsg, st) =>
        match OnMessage env cid clientMsg (s.updClient cid (fun c => { c with stream := st })) with
        | .fault f s1 => .fault f s1
        | .ok s1 => .ok (TriggerEvent env EventType.kOnMessage (some cid) (LuaRef.msg clientMsg) s1)
      | none => .ok s
    else if opcode = CPOS then
      match cposp.Read client.stream with
      | some (clientPos, st) =>
        let s1 := TriggerEvent env EventType.kOnPosition (some cid) LuaRef.empty
          (s.updClient cid (fun c => { c with stream := st }))
        onWorldOf (fun w c => env.OnPosition w c clientPos) cid s1
      | none => .ok s
    else if opcode = CBLOCK then
      match cblockp.Read client.stream with
      | some (clientBlock, st) =>
        let s1 := TriggerEvent env EventType.kOnBlock (some cid) (LuaRef.block clientBlock)
          (s.updClient cid (fun c => { c with stream := st }))
        onWorldOf (fun w c => env.OnBlock w c clientBlock) cid s1
      | none => .ok s
    else .ok (KickClient cid "Unknown opcode received" s)

/-! ## The tick loop -/

/-- What the network does for one session during one tick: whether
`stream.poll()` reports `Disconnected`, the bytes it reads into the buffer, and
how many queued packets the socket accepts. -/
structure PollResult where
  disconnected : Bool
  data : List Char
  writable : Nat

/-- The network input of one tick: the remote address of a pending connection,
if any, and the poll result of each session (by address). -/
structure TickInput where
  accept : Option String
  poll : Nat → PollResult

/-- Modelled from the spec: `ClientStream::poll`, a "non-blocking read into the
tail of the receive buffer", together with the statement of `Server::Tick` that
follows it: a `Disconnected` status marks the session inactive. -/
def Client.poll (c : Client) (r : PollResult) : Client :=
  { c with stream := ⟨c.stream.buf ++ r.data⟩,
           active := if r.disconnected then false else c.active }

/-- Modelled from the spec: `Client::ProcessPacketsInQueue`, "write as much of
the outbound FIFO as the socket accepts without blocking; partial writes retain
remainder". -/
def Client.ProcessPacketsInQueue (c : Client) (writable : Nat) : Client :=
  { c with sent := c.sent ++ c.queue.take writable, queue := c.queue.drop writable }

/-- The function `Server::OnConnect`; `ip` is the remote address of the socket. -/
def OnConnect (ip : String) (s : Server) : Server :=
  let client := { Client.new s.nextId ip with active := true, authed := false }
  { s with m_clients := s.m_clients ++ [client], nextId := s.nextId + 1 }

/-- The world tick of `Server::Tick` over the rest of the registry. -/
def worldsTick (env : Env) : List (String × World) → Server → Server
  | [], s => s
  | e :: rest, s =>
    match GetWorld s e.1 with
    | none => worldsTick env rest s
    | some w => worldsTick env rest (applyWorldEffect e.1 (env.WorldTick w) s)

/-- The statement `m_numClients--`. -/
def Server.decNumClients (s : Server) : Server :=
  { s with m_numClients := s.m_numClients - 1 }

/-- The removal of the inactive session at position `i` in `Server::Tick`
(`c` is that session). -/
def reap (env : Env) (i : Nat) (c : Client) (s : Server) : Outcome :=
  let authed := c.authed
  let name := c.m_name
  let pid := c.m_pid
  let world := GetWorld s c.m_worldName
  let s1 := { s with m_clients := s.m_clients.eraseIdx i }
  if authed then
    let s2 := BroadcastMessage ("&ePlayer " ++ name ++ " left the game.") s1
    match world with
    | none => .fault Fault.nullWorld s2
    | some w =>
      let s3 := applyWorldEffect c.m_worldName (env.RemoveClient w pid) s2
      if s3.m_numClients > 0 then .ok s3.decNumClients
      else .ok s3
  else .ok s1

/-- The call of `HandlePacket` in the client loop of `Server::Tick`, for the
session at position `i` (its address is `cid`): made when the buffer holds at
least one byte, with the first byte as opcode. -/
def Tick_handle (env : Env) (i cid : Nat) (s1 : Server) : Outcome :=
  match s1.m_clients[i]? with
  | none => .ok s1
  | some c1 =>
    if c1.stream.count > 0 then HandlePacket env cid ((byteAt c1.stream.buf 0).toNat % 256) s1
    else .ok s1

/-- The client loop of `Server::Tick`; `i` is the position of the iterator and
the first argument bounds the number of iterations. -/
def Tick_loop (env : Env) (poll : Nat → PollResult) : Nat → Nat → Server → Outcome
  | 0, _, s => .ok s
  | fuel + 1, i, s =>
    match s.m_clients[i]? with
    | none => .ok s
    | some c0 =>
      let cid := c0.id
      let r := poll cid
      let s1 := s.updClient cid (fun c => c.poll r)
      match Tick_handle env i cid s1 with
      | .fault f s2 => .fault f s2
      | .ok s2 =>
        let s3 := s2.updClient cid (fun c => c.ProcessPacketsInQueue r.writable)
        match s3.m_clients[i]? with
        | none => .ok s3
        | some c =>
          if !c.active then
            match reap env i c s3 with
            | .fault f s4 => .fault f s4
            | .ok s4 => Tick_loop env poll fuel i s4
          else Tick_loop env poll fuel (i + 1) s3

/-- The function `Server::Tick`. The heartbeat is an HTTP request and leaves
the state alone. Each iteration of the client loop either erases a session or
moves the iterator forward, so one iteration per session is enough. -/
def Tick (env : Env) (inp : TickInput) (s : Server) : Outcome :=
  let s1 := worldsTick env s.m_worlds s
  let s2 := match inp.accept with
    | some ip => OnConnect ip s1
    | none => s1
  Tick_loop env inp.poll s2.m_clients.length 0 s2

/-- The seed world of `Server::Init`: "scrap", active, with autosave off;
`blocks` is what `GenerateFlatMap(256, 16, 256)` fills the map with. -/
def scrapWorld (blocks : List Nat) : World :=
  { m_name := "scrap", m_active := true, options := [("autosave", "false")], roster := [],
    x := 256, y := 16, z := 256, blocks := blocks }

/-- The world set-up of `Server::Init`: the seed world is added, then one
world per readable configuration file under `worlds/`, in directory order. -/
def Init_worlds (scrapBlocks : List Nat) (files : List World) (s : Server) : Server :=
  files.foldl AddWorld (AddWorld s (scrapWorld scrapBlocks))

/-! ## A concrete environment

Used to run the server on concrete inputs: no plugin, no operator, a world
implementation that follows the specification's description of `addClient`
and `removeClient` without the compressed map chunks. -/

/-- The lowest player id in `[0, 127]` that the roster does not use (128 when
there is none). -/
def lowestFreePid (roster : List (Int × Nat)) : Nat :=
  ((List.range 128).find? (fun n => !(roster.any (fun e => e.1 == Int.ofNat n)))).getD 128

/-- Modelled from the spec: `World::AddClient`, "allocate a free pid (lowest
free); assign it; add to roster; send LEVEL_INIT, then the map, followed by
LEVEL_FINAL; send the session's own SPAWN with pid -1, then a SPAWN for each
existing roster member to the newcomer and a SPAWN for the newcomer to each
existing member". The map chunks and the names of the peers are left out. -/
def sampleAddClient (w : World) (c : Client) : AddClientEffect :=
  let pid : Int := lowestFreePid w.roster
  { world := { w with roster := w.roster ++ [(pid, c.id)] },
    pid := pid,
    sends := [(c.id, Packet.LEVEL_INIT), (c.id, Packet.LEVEL_FINAL w.x w.y w.z),
              (c.id, Packet.SPAWN (-1) c.m_name 0 0 0 0 0)]
      ++ w.roster.map (fun e => (c.id, Packet.SPAWN e.1 "" 0 0 0 0 0))
      ++ w.roster.map (fun e => (e.2, Packet.SPAWN pid c.m_name 0 0 0 0 0)) }

/-- Modelled from the spec: `World::RemoveClient`, "send DESPAWN(pid) to all
remaining roster members; free the id". -/
def sampleRemoveClient (w : World) (pid : Int) : WorldEffect :=
  let roster := w.roster.filter (fun e => e.1 != pid)
  { world := { w with roster := roster },
    sends := roster.map (fun e => (e.2, Packet.DESPAWN pid)) }

/-- The concrete environment: the local address is 192.168.0.1, every remote
address string resolves to 8.8.8.8, and the digest function is constant. -/
def sampleEnv : Env :=
  { MD5 := fun _ => [],
    localAddress := 0xc0a80001,
    toInteger := fun _ => 0x08080808,
    opsFile := [],
    signalMap := fun _ => [],
    Handle := fun _ _ s => s,
    clock := 0,
    AddClient := sampleAddClient,
    RemoveClient := sampleRemoveClient,
    OnPosition := fun w _ _ => { world := w, sends := [] },
    OnBlock := fun w _ _ => { world := w, sends := [] },
    WorldTick := fun w => { world := w, sends := [] } }

/-! ## Concrete inputs -/

/-- A string as a 64-byte packet field, right-padded with spaces. -/
def pad64 (text : String) : List Char :=
  (text.data ++ List.replicate (64 - text.length) (Char.ofNat 32)).take 64

/-- An AUTH packet with protocol version 7. -/
def authPacket (name key : String) : cauthp :=
  { opcode := CAUTH, version := 7, name := pad64 name, key := pad64 key, UNK0 := 0 }

/-- The 131 bytes of an AUTH frame on the wire. -/
def authFrame (name key : String) : List Char :=
  [Char.ofNat 0, Char.ofNat 7] ++ pad64 name ++ pad64 key ++ [Char.ofNat 0]

/-- A small world named `name`. -/
def smallWorld (name : String) : World :=
  { m_name := name, m_active := true, options := [], roster := [],
    x := 1, y := 1, z := 1, blocks := [0] }

/-- A connected session that has not logged in. -/
def guest (id : Nat) (ip : String) : Client :=
  { Client.new id ip with active := true }

/-- A session logged in as `name` in the world "default". -/
def player (id : Nat) (ip name : String) (pid : Int) : Client :=
  { Client.new id ip with active := true, authed := true, m_name := name, m_chatName := name,
                          m_worldName := "default", m_pid := pid }

/-- The state in which the last block of `OnAuth` reaches the call
`world->AddClient(client)`: the state after `SendInfo`. -/
def beforeAddClient (env : Env) (cid : Nat) (name : String) (s2 : Server) : Server :=
  let userType : Nat := if IsOperator env name then 0x64 else 0x00
  let s5 := BroadcastMessage ("&e" ++ name ++ " joined the game")
    (s2.updClient cid (fun c => { c.SetName name with authed := true })).incNumClients
  let s7 := (s5.updClient cid (fun c => c.SetUserType userType)).updClient cid
    (fun c => c.SetWorldName "default")
  s7.updClient cid (fun c => SendInfo c s7.m_serverName s7.m_serverMotd s7.m_version userType)

/-- A server with names not verified, the world "default", room for
`maxClients` players, and the given sessions. -/
def lobby (maxClients : Int) (clients : List Client) : Server :=
  AddWorld { Server.new with m_maxClients := maxClients, m_clients := clients,
                             nextId := clients.length }
    (smallWorld "default")

/-- Run the server for a sequence of ticks, stopping at the first fault. -/
def runTicks (env : Env) : List TickInput → Server → Outcome
  | [], s => .ok s
  | inp :: rest, s =>
    match Tick env inp s with
    | .ok s1 => runTicks env rest s1
    | .fault f s1 => .fault f s1

/-- A poll that brings nothing: the connection is up, no byte arrives, and the
socket accepts up to 100 queued packets. -/
def quietPoll : PollResult :=
  { disconnected := false, data := [], writable := 100 }

/-- A poll that reads one AUTH frame for the name `name` (with an empty key). -/
def authPoll (name : String) : PollResult :=
  { disconnected := false, data := authFrame name "", writable := 100 }

/-- Five ticks in which three clients connect and log in under the name "x":
the first logs in during tick 2, the other two during tick 4. -/
def tripleLogin : List TickInput :=
  [ { accept := some "1.1.1.1", poll := fun _ => quietPoll },
    { accept := some "2.2.2.2", poll := fun id => if id = 0 then authPoll "x" else quietPoll },
    { accept := some "3.3.3.3", poll := fun _ => quietPoll },
    { accept := none, poll := fun id => if id = 1 ∨ id = 2 then authPoll "x" else quietPoll },
    { accept := none, poll := fun _ => quietPoll } ]

/-- The fields of a session that the login claims talk about. -/
def Client.summary (c : Client) : Nat × Bool × Bool × String :=
  (c.id, c.active, c.authed, c.m_name)

/-- The reasons of the KICK packets in the outbound queue of a session. -/
def Client.kickReasons (c : Client) : List String :=
  c.queue.filterMap (fun p => match p with
    | Packet.KICK reason => some reason
    | _ => none)

/-- Four ticks in which three clients connect, the first logs in as "x" during
tick 2, and the second logs in as "x" during tick 4. -/
def ghostLogin : List TickInput :=
  [ { accept := some "1.1.1.1", poll := fun _ => quietPoll },
    { accept := some "2.2.2.2", poll := fun id => if id = 0 then authPoll "x" else quietPoll },
    { accept := some "3.3.3.3", poll := fun _ => quietPoll },
    { accept := none, poll := fun id => if id = 1 then authPoll "x" else quietPoll } ]

/-- The state at the end of `ghostLogin`, from a server with no session: session
0, logged in as "x", has been kicked by the login of session 1 after its own
turn in the loop and is still in the list; session 1 is logged in as "x";
session 2 has not logged in. It is also the state in which tick 4 of
`tripleLogin` reaches the login of session 2. -/
def ghostState : Server :=
  (runTicks sampleEnv ghostLogin (lobby 1 [])).state

/-- Three ticks in which two clients connect and the second logs in with an
empty name. -/
def emptyNameLogin : List TickInput :=
  [ { accept := some "1.1.1.1", poll := fun _ => quietPoll },
    { accept := some "2.2.2.2", poll := fun _ => quietPoll },
    { accept := none, poll := fun id => if id = 1 then authPoll "" else quietPoll } ]

/-- The state at the end of `emptyNameLogin`, from a server with no session:
session 1 is logged in under the empty name, session 0 has not logged in. -/
def emptyNameState : Server :=
  (runTicks sampleEnv emptyNameLogin (lobby 8 [])).state

/-- The stripping as the claims word it, "stripping trailing 0x20 padding": the
trailing bytes 0x20 of a packet field are removed, and nothing else is. -/
def strip_0x20 (field : List Char) : String :=
  ⟨(field.reverse.dropWhile (fun c => c.toNat == 32)).reverse⟩

/-- The concrete environment with the digest of the one string the scenario
below hashes: `MD5("abcdefghijklmnopalice")` is `1b79ed7c144066f2704920b7cd2b21a3`. -/
def digestEnv : Env :=
  { sampleEnv with
    MD5 := fun data =>
      if data = "abcdefghijklmnopalice" then
        [0x1b, 0x79, 0xed, 0x7c, 0x14, 0x40, 0x66, 0xf2, 0x70, 0x49, 0x20, 0xb7, 0xcd, 0x2b, 0x21, 0xa3]
      else [] }

/-- A server that verifies names, with the salt "abcdefghijklmnop", the world
"default", and one connected session from 8.8.8.8. -/
def verifyingServer : Server :=
  { lobby 8 [guest 0 "8.8.8.8"] with m_serverVerifyNames := true, m_salt := "abcdefghijklmnop" }

/-- An AUTH packet for "alice" whose key field holds the right 32 hex digits
followed by one TAB byte (0x09) and the 0x20 padding. -/
def tabKeyPacket : cauthp :=
  authPacket "alice" ("1b79ed7c144066f2704920b7cd2b21a3" ++ String.mk [Char.ofNat 9])

/-! ## The step relation of the server

The states the server reaches from a state with no session, by the operations
`Server::Tick` is made of (connect, poll, `HandlePacket`, queue processing,
reaping, world ticks) and by `KickClient`. -/

/-- A session `a` and what an operation that leaves logins alone makes of it:
the same address, `authed` flag and name, and not active unless `a` was. -/
def FrameRel (a b : Client) : Prop :=
  b.id = a.id ∧ b.authed = a.authed ∧ b.m_name = a.m_name ∧ (b.active = true → a.active = true)

/-- What code outside the embedded sources (event handlers, commands) is
assumed to do to the sessions: the list keeps the same sessions in the same
order, each with its address, `authed` flag and name, no session is made
active again, and the counter of fresh addresses does not go down. -/
def Frame (s s' : Server) : Prop :=
  s.nextId ≤ s'.nextId ∧ List.Forall₂ FrameRel s.m_clients s'.m_clients

/-- The assumption on the environment: every event handler, whether it throws
or not, and every command respect `Frame`. -/
def EnvFrame (env : Env) : Prop :=
  (∀ t h, h ∈ env.signalMap t → ∀ c tbl s, Frame s (h c tbl s).1)
    ∧ ∀ cid command s, Frame s (env.Handle cid command s)

/-- Whether a login replaces a live session or nobody: `false` only when
`OnAuth` on `clientAuth` reaches its default path and `GetClientByName` finds,
under the name, a session that is not both active and authenticated. -/
def replacesLive (env : Env) (cid : Nat) (clientAuth : cauthp) (s0 : Server) : Bool :=
  let name := trim_right (c_string64 clientAuth.name)
  let key := trim_right (c_string64 clientAuth.key)
  let s1 := TriggerEvent env EventType.kOnAuth (some cid) (LuaRef.auth clientAuth) s0
  invalidKey env cid name key s0 || GetEventFlag s1 "NoDefaultCall" ||
    match GetClientByName s1 name GetClientByName_exact_default with
    | none => true
    | some k =>
      match s1.getClient k with
      | some p => p.active && p.authed
      | none => false

/-- The condition `replacesLive` for a call of `HandlePacket`: it bears on the
call only when the session is unauthenticated, the opcode is AUTH and a frame
is read. -/
def loginGuard (env : Env) (cid opcode : Nat) (s : Server) : Bool :=
  match s.getClient cid with
  | none => true
  | some c =>
    if c.authed then true
    else if opcode = CAUTH then
      match cauthp.Read c.stream with
      | some (clientAuth, st) =>
        replacesLive env cid clientAuth (s.updClient cid (fun x => { x with stream := st }))
      | none => true
    else true

/-- The condition `loginGuard` for the call `Tick_handle` makes. -/
def handleGuard (env : Env) (i cid : Nat) (s1 : Server) : Bool :=
  match s1.m_clients[i]? with
  | none => true
  | some c1 =>
    if c1.stream.count > 0 then loginGuard env cid ((byteAt c1.stream.buf 0).toNat % 256) s1
    else true

/-- The condition `loginGuard` for every call of `HandlePacket` the client loop
of `Server::Tick` makes; it follows the loop. -/
def Tick_loop_guard (env : Env) (poll : Nat → PollResult) : Nat → Nat → Server → Bool
  | 0, _, _ => true
  | fuel + 1, i, s =>
    match s.m_clients[i]? with
    | none => true
    | some c0 =>
      let cid := c0.id
      let r := poll cid
      let s1 := s.updClient cid (fun c => c.poll r)
      handleGuard env i cid s1 &&
        match Tick_handle env i cid s1 with
        | .fault _ _ => true
        | .ok s2 =>
          let s3 := s2.updClient cid (fun c => c.ProcessPacketsInQueue r.writable)
          match s3.m_clients[i]? with
          | none => true
          | some c =>
            if !c.active then
              match reap env i c s3 with
              | .fault _ _ => true
              | .ok s4 => Tick_loop_guard env poll fuel i s4
            else Tick_loop_guard env poll fuel (i + 1) s3

/-- The condition `loginGuard` for every call of `HandlePacket` a tick makes. -/
def Tick_guard (env : Env) (inp : TickInput) (s : Server) : Bool :=
  let s1 := worldsTick env s.m_worlds s
  let s2 := match inp.accept with
    | some ip => OnConnect ip s1
    | none => s1
  Tick_loop_guard env inp.poll s2.m_clients.length 0 s2

/-- The states reachable from a server with no session, every login being one
that replaces a live session or nobody. -/
inductive Reachable (env : Env) : Server → Prop where
  | init (s : Server) : s.m_clients = [] → Reachable env s
  | connect (s : Server) (ip : String) : Reachable env s → Reachable env (OnConnect ip s)
  | poll (s : Server) (cid : Nat) (r : PollResult) :
      Reachable env s → Reachable env (s.updClient cid (fun c => c.poll r))
  | packet (s s' : Server) (cid opcode : Nat) :
      Reachable env s → loginGuard env cid opcode s = true →
      HandlePacket env cid opcode s = Outcome.ok s' → Reachable env s'
  | process (s : Server) (cid writable : Nat) :
      Reachable env s →
      Reachable env (s.updClient cid (fun c => c.ProcessPacketsInQueue writable))
  | kick (s : Server) (cid : Nat) (reason : String) :
      Reachable env s → Reachable env (KickClient cid reason s)
  | reap (s s' : Server) (i : Nat) (c : Client) :
      Reachable env s → s.m_clients[i]? = some c → c.active = false →
      reap env i c s = Outcome.ok s' → Reachable env s'
  | worldTick (s : Server) (ws : List (String × World)) :
      Reachable env s → Reachable env (worldsTick env ws s)

/-- A session is live: active and authenticated. -/
def Client.live (c : Client) : Prop :=
  c.active = true ∧ c.authed = true

/-- The invariant behind exclusivity: the sessions have distinct addresses,
all below the counter of fresh addresses, and two live sessions with the same
name, ignoring case, are the same session. -/
def Inv (s : Server) : Prop :=
  (s.m_clients.map Client.id).Nodup
    ∧ (∀ c ∈ s.m_clients, c.id < s.nextId)
    ∧ ∀ a ∈ s.m_clients, ∀ b ∈ s.m_clients, a.live → b.live →
        to_lower a.m_name = to_lower b.m_name → a.id = b.id

/-- The condition `Tick_guard` for every tick of a run. -/
def runTicks_guard (env : Env) : List TickInput → Server → Bool
  | [], _ => true
  | inp :: rest, s =>
    Tick_guard env inp s &&
      match Tick env inp s with
      | .ok s1 => runTicks_guard env rest s1
      | .fault _ _ => true

/-! ## Further concrete inputs -/

/-- An environment with one OnAuth handler, which sets the flag `NoDefaultCall`
and touches nothing else; no other handler is registered. -/
def vetoEnv : Env :=
  { sampleEnv with
    signalMap := fun t =>
      if t = EventType.kOnAuth then
        [fun _ _ s => ({ s with eventFlags := [("NoDefaultCall", true)] }, false)]
      else [] }

/-- A handler that ends by throwing a `LuaException` and changes nothing. -/
def throwingHandler : Handler :=
  fun _ _ s => (s, true)

/-- A handler that records that it ran by setting the event flag `name`. -/
def markingHandler (name : String) : Handler :=
  fun _ _ s => ({ s with eventFlags := (name, true) :: s.eventFlags }, false)

/-- An environment with three OnMessage subscribers, registered in this order:
one that sets the flag "first", one that throws, one that sets the flag
"third". -/
def faultyEnv : Env :=
  { sampleEnv with
    signalMap := fun t =>
      if t = EventType.kOnMessage then
        [markingHandler "first", throwingHandler, markingHandler "third"]
      else [] }

/-- A MESSAGE packet with the given text, padded with 0x20. -/
def msgPacket (text : String) : cmsgp :=
  { opcode := CMSG, flag := 0xff, msg := pad64 text }

/-- The 66 bytes of a MESSAGE frame on the wire. -/
def msgFrame (text : String) : List Char :=
  [Char.ofNat 0x0d, Char.ofNat 0xff] ++ pad64 text

/-- Two ticks in which one client connects and logs in as "x". -/
def soloLogin : List TickInput :=
  [ { accept := some "1.1.1.1", poll := fun _ => quietPoll },
    { accept := none, poll := fun _ => authPoll "x" } ]

/-- The state at the end of `soloLogin`, from a server with no session: session
0 is logged in as "x", active and not muted. -/
def soloState : Server :=
  (runTicks sampleEnv soloLogin (lobby 8 [])).state

/-- A tick in which every session receives a MESSAGE frame whose text field is
all 0x20 padding. -/
def blankMessageTick : TickInput :=
  { accept := none,
    poll := fun _ => { disconnected := false, data := msgFrame "", writable := 100 } }

/-- One tick in which a client connects. -/
def oneConnect : List TickInput :=
  [ { accept := some "1.1.1.1", poll := fun _ => quietPoll } ]

/-- Two ticks in which two clients connect. -/
def twoConnects : List TickInput :=
  [ { accept := some "1.1.1.1", poll := fun _ => quietPoll },
    { accept := some "2.2.2.2", poll := fun _ => quietPoll } ]

/-- The state after the first three ticks of `ghostLogin`, from a server with no
session and room for 8: session 0 is logged in as "x", sessions 1 and 2 are
connected and have not logged in. -/
def ghostBefore : Server :=
  (runTicks sampleEnv (ghostLogin.take 3) (lobby 8 [])).state

/-- Three ticks in which two clients connect and log in, as "x" and as "y". -/
def pairLogin : List TickInput :=
  [ { accept := some "1.1.1.1", poll := fun _ => quietPoll },
    { accept := some "2.2.2.2", poll := fun id => if id = 0 then authPoll "x" else quietPoll },
    { accept := none, poll := fun id => if id = 1 then authPoll "y" else quietPoll } ]

/-- The state at the end of `pairLogin`, from a server with no session. -/
def pairState : Server :=
  (runTicks sampleEnv pairLogin (lobby 8 [])).state

/-- A poll in which the connection of session `cid` is found closed and nothing
arrives for the others. -/
def hangUp (cid : Nat) : Nat → PollResult :=
  fun id => if id = cid then { disconnected := true, data := [], writable := 100 } else quietPoll

/-- The state `pairState` at the end of the turn of session 0 in a tick that
finds its connection closed: polled, nothing to handle, queue processed. -/
def pairAfterTurn : Server :=
  (pairState.updClient 0 (fun x => x.poll (hangUp 0 0))).updClient 0
    (fun x => x.ProcessPacketsInQueue (hangUp 0 0).writable)

/-! ## The colour rewrite, position by position -/

/-- Modelled from the spec: the colour rewrite at one position, given the
character at the position and the one after it, if any: "position i holds `&`
exactly when the input holds `&` at i or holds `%` at i followed at i+1 by a
character in 0-9 or a-f, and every other position is unchanged". -/
def color_at (a : Char) (next : Option Char) : Char :=
  match next with
  | some b =>
    if a = Char.ofNat 37 ∧ ((48 ≤ b.toNat ∧ b.toNat ≤ 57) ∨ (97 ≤ b.toNat ∧ b.toNat ≤ 102))
    then Char.ofNat 38 else a
  | none => a

/-- Modelled from the spec: the colour rewrite "applied pointwise", every
position being rewritten from the input alone. -/
def color_pointwise : List Char → List Char
  | [] => []
  | a :: rest => color_at a rest.head? :: color_pointwise rest

/-! ## The counter of authenticated sessions -/

/-- The number of sessions in the client list whose `authed` flag is set. -/
def authedCount (s : Server) : Nat :=
  (s.m_clients.filter (fun c => c.authed)).length

/-- The assumption on the environment for the counter: event handlers and
commands respect `Frame` and leave `m_numClients` alone. -/
def EnvCount (env : Env) : Prop :=
  EnvFrame env
    ∧ (∀ t h, h ∈ env.signalMap t → ∀ c tbl s, (h c tbl s).1.m_numClients = s.m_numClients)
    ∧ ∀ cid command s, (env.Handle cid command s).m_numClients = s.m_numClients

/-- The states reachable from a server with no session and a zero counter, by
the operations `Server::Tick` is made of (connect, poll, `HandlePacket`, queue
processing, reaping, world ticks) and by `KickClient`. Every login is allowed;
a call that ends in a fault has no successor state. -/
inductive Steps (env : Env) : Server → Prop where
  | init (s : Server) : s.m_clients = [] → s.m_numClients = 0 → Steps env s
  | connect (s : Server) (ip : String) : Steps env s → Steps env (OnConnect ip s)
  | poll (s : Server) (cid : Nat) (r : PollResult) :
      Steps env s → Steps env (s.updClient cid (fun c => c.poll r))
  | packet (s s' : Server) (cid opcode : Nat) :
      Steps env s → HandlePacket env cid opcode s = Outcome.ok s' → Steps env s'
  | process (s : Server) (cid writable : Nat) :
      Steps env s → Steps env (s.updClient cid (fun c => c.ProcessPacketsInQueue writable))
  | kick (s : Server) (cid : Nat) (reason : String) :
      Steps env s → Steps env (KickClient cid reason s)
  | reap (s s' : Server) (i : Nat) (c : Client) :
      Steps env s → s.m_clients[i]? = some c → c.active = false →
      reap env i c s = Outcome.ok s' → Steps env s'
  | worldTick (s : Server) (ws : List (String × World)) :
      Steps env s → Steps env (worldsTick env ws s)

/-- The invariant behind the counter: the sessions have distinct addresses, all
below the counter of fresh addresses, and `m_numClients` is the number of
sessions with `authed` set. -/
def CountInv (s : Server) : Prop :=
  (s.m_clients.map Client.id).Nodup
    ∧ (∀ c ∈ s.m_clients, c.id < s.nextId)
    ∧ s.m_numClients = (authedCount s : Int)

/-! ## Inputs for the lookup by name -/

/-- Four ticks in which three clients connect and log in, as "alpha", "alps"
and "al", in this order. -/
def prefixLogin : List TickInput :=
  [ { accept := some "1.1.1.1", poll := fun _ => quietPoll },
    { accept := some "2.2.2.2", poll := fun id => if id = 0 then authPoll "alpha" else quietPoll },
    { accept := some "3.3.3.3", poll := fun id => if id = 1 then authPoll "alps" else quietPoll },
    { accept := none, poll := fun id => if id = 2 then authPoll "al" else quietPoll } ]

/-- The state at the end of `prefixLogin`, from a server with no session. -/
def prefixState : Server :=
  (runTicks sampleEnv prefixLogin (lobby 8 [])).state

/-! # Properties -/

/-! ## Lemmas on strings -/

theorem hexDigit_ne_nul : ∀ n, n < 16 → ((hexDigit n).toNat != 0) = true := by
  decide

theorem mdString_no_nul (env : Env) (x : String) :
    ∀ c ∈ (mdString env x).data, (c.toNat != 0) = true := by
  intro c hc
  simp only [mdString, List.mem_flatMap, hex02x, List.mem_cons, List.mem_singleton,
    List.not_mem_nil, or_false] at hc
  obtain ⟨i, -, h | h⟩ := hc
  · subst h
    exact hexDigit_ne_nul _ (Nat.div_lt_of_lt_mul (Nat.mod_lt _ (by norm_num)))
  · subst h
    exact hexDigit_ne_nul _ (Nat.mod_lt _ (by norm_num))

theorem mdString_length (env : Env) (x : String) : (mdString env x).length = 32 := by
  simp [mdString, String.length, List.length_flatMap, hex02x, Function.comp_def]

theorem trim_c_string_no_nul (field : List Char) :
    ∀ c ∈ (trim_right (c_string64 field)).data, (c.toNat != 0) = true := by
  intro c hc
  simp only [trim_right, c_string64, List.mem_reverse] at hc
  have h1 := (List.dropWhile_sublist is_space).subset hc
  rw [List.mem_reverse] at h1
  exact List.mem_takeWhile_imp (p := fun c : Char => c.toNat != 0) h1

theorem strcmp_ne_iff (a b : String)
    (ha : ∀ c ∈ a.data, (c.toNat != 0) = true) (hb : ∀ c ∈ b.data, (c.toNat != 0) = true) :
    strcmp_ne a b = true ↔ a ≠ b := by
  unfold strcmp_ne
  rw [List.takeWhile_eq_self_iff.mpr ha, List.takeWhile_eq_self_iff.mpr hb]
  simp [String.ext_iff]

/-- In `OnAuth` the `strcmp` of `mdString` and the trimmed key is a comparison
of the two strings: neither holds a NUL byte. -/
theorem strcmp_key_iff (env : Env) (x : String) (field : List Char) :
    strcmp_ne (mdString env x) (trim_right (c_string64 field)) = true
      ↔ trim_right (c_string64 field) ≠ mdString env x := by
  rw [strcmp_ne_iff _ _ (mdString_no_nul env x) (trim_c_string_no_nul field)]
  exact ne_comm

/-! ## Lemmas on the client list -/

theorem find_map_upd (cs : List Client) (cid : Nat) (f : Client → Client)
    (hf : ∀ c, (f c).id = c.id) :
    (cs.map (fun c => if c.id = cid then f c else c)).find? (fun c => c.id == cid)
      = (cs.find? (fun c => c.id == cid)).map f := by
  induction cs with
  | nil => rfl
  | cons c cs ih =>
    by_cases h : c.id = cid
    · simp [List.find?, h, hf]
    · simp only [List.map_cons, h, if_false, List.find?]
      have : (c.id == cid) = false := by simpa using h
      simp only [this]
      exact ih

theorem getClient_updClient (s : Server) (cid : Nat) (f : Client → Client)
    (hf : ∀ c, (f c).id = c.id) :
    (s.updClient cid f).getClient cid = (s.getClient cid).map f := by
  simp only [Server.getClient, Server.updClient]
  exact find_map_upd _ _ _ hf

theorem getClient_mem {s : Server} {cid : Nat} {c : Client} (h : s.getClient cid = some c) :
    c ∈ s.m_clients ∧ c.id = cid := by
  unfold Server.getClient at h
  exact ⟨List.mem_of_find?_eq_some h, by simpa using List.find?_some h⟩

/-! ## The key check (C1, C2) -/

/-- The state `KickClient` produces, written out. -/
theorem KickClient_eq (cid : Nat) (reason : String) (s : Server) (h : reason ≠ "") :
    KickClient cid reason s =
      { s with m_clients := s.m_clients.map (fun c =>
                 if c.id = cid then { c with queue := c.queue ++ [Packet.KICK reason], active := false }
                 else c),
               kicks := s.kicks ++ [(cid, reason)] } := by
  simp [KickClient, h, Server.updClient, SendKick, Client.QueuePacket]

theorem GetIpString_eq {s : Server} {cid : Nat} {c : Client} (h : s.getClient cid = some c) :
    s.GetIpString cid = c.ip := by
  simp [Server.GetIpString, h]

/-- C1, amended. When names are verified, the remote address is neither
`127.0.0.1` nor in the /24 of the local address, and the key as `OnAuth`
normalises it (the field read as a C string, trailing white space removed by
`boost::trim_right`) differs from the 32 lower-case hex digits of
`MD5(salt ++ name)`, the name normalised the same way, `OnAuth` returns the
state with one `KICK("Invalid key")` appended to the queue of the session and
the session inactive. The session stays unauthenticated; `m_numClients`, the
other sessions, the worlds, the event flags and the log of triggered events are
those of the state before the call, so the OnAuth event is not triggered. -/
theorem C1_OnAuth_invalid_key (env : Env) (s : Server) (cid : Nat) (clientAuth : cauthp)
    (c : Client) (hc : s.getClient cid = some c) (hunauth : c.authed = false)
    (hverify : s.m_serverVerifyNames = true)
    (hlocalhost : c.ip ≠ "127.0.0.1")
    (hsubnet : (env.localAddress % 2 ^ 32) &&& 0xffffff00
      ≠ (env.toInteger c.ip % 2 ^ 32) &&& 0xffffff00)
    (hkey : trim_right (c_string64 clientAuth.key)
      ≠ mdString env (s.m_salt ++ trim_right (c_string64 clientAuth.name))) :
    OnAuth env cid clientAuth s =
        Outcome.ok { s with
          m_clients := s.m_clients.map (fun x =>
            if x.id = cid then { x with queue := x.queue ++ [Packet.KICK "Invalid key"], active := false }
            else x),
          kicks := s.kicks ++ [(cid, "Invalid key")] }
      ∧ (∃ c', (OnAuth env cid clientAuth s).state.getClient cid = some c'
            ∧ c'.queue = c.queue ++ [Packet.KICK "Invalid key"]
            ∧ c'.active = false ∧ c'.authed = false ∧ c'.m_name = c.m_name)
      ∧ (OnAuth env cid clientAuth s).state.m_numClients = s.m_numClients
      ∧ (OnAuth env cid clientAuth s).state.fired = s.fired := by
  have hinv : invalidKey env cid (trim_right (c_string64 clientAuth.name))
      (trim_right (c_string64 clientAuth.key)) s = true := by
    have hloc : isLocalPlayer env c.ip = false := by
      unfold isLocalPlayer
      simp only [Bool.or_eq_false_iff, beq_eq_false_iff_ne]
      exact ⟨hlocalhost, hsubnet⟩
    simp only [invalidKey, hverify, GetIpString_eq hc, hloc, if_true]
    exact (strcmp_key_iff _ _ _).mpr hkey
  have hres : OnAuth env cid clientAuth s = Outcome.ok (KickClient cid "Invalid key" s) := by
    simp only [OnAuth, hinv, if_true]
  rw [hres, KickClient_eq _ _ _ (by decide)]
  refine ⟨rfl, ?_, rfl, rfl⟩
  refine ⟨{ c with queue := c.queue ++ [Packet.KICK "Invalid key"], active := false }, ?_,
    rfl, rfl, hunauth, rfl⟩
  have := find_map_upd s.m_clients cid
    (fun x => { x with queue := x.queue ++ [Packet.KICK "Invalid key"], active := false })
    (fun _ => rfl)
  simp only [Outcome.state, Server.getClient] at hc ⊢
  rw [this, hc]
  rfl

theorem C1_OnAuth_invalid_key_witness :
    ∃ c', (OnAuth sampleEnv 0 (authPacket "alice" "deadbeef")
            { Server.new with m_serverVerifyNames := true, m_salt := "abcdefghijklmnop",
                              m_clients := [guest 0 "8.8.8.8"] }).state.getClient 0 = some c'
      ∧ c'.queue = [] ++ [Packet.KICK "Invalid key"]
      ∧ c'.active = false ∧ c'.authed = false ∧ c'.m_name = "" :=
  (C1_OnAuth_invalid_key sampleEnv
    { Server.new with m_serverVerifyNames := true, m_salt := "abcdefghijklmnop",
                      m_clients := [guest 0 "8.8.8.8"] }
    0 (authPacket "alice" "deadbeef") (guest 0 "8.8.8.8")
    (by decide) (by decide) (by decide) (by decide) (by decide) (by decide)).2.1

set_option maxRecDepth 100000 in
/-- C1 as worded fails at `tabKeyPacket`: names are verified, the address
8.8.8.8 is neither `127.0.0.1` nor in the /24 of the local address 192.168.0.1,
and the key with its trailing 0x20 bytes removed (32 hex digits and a TAB)
differs from the hex digest of salt and name; yet `boost::trim_right` removes
the TAB as well, `strcmp` finds the key equal, and `OnAuth` logs the session in
without any KICK. -/
theorem C1_trailing_tab_accepted :
    verifyingServer.m_serverVerifyNames = true
    ∧ verifyingServer.GetIpString 0 ≠ "127.0.0.1"
    ∧ (digestEnv.localAddress % 2 ^ 32) &&& 0xffffff00
        ≠ (digestEnv.toInteger (verifyingServer.GetIpString 0) % 2 ^ 32) &&& 0xffffff00
    ∧ strip_0x20 tabKeyPacket.key
        ≠ mdString digestEnv (verifyingServer.m_salt ++ strip_0x20 tabKeyPacket.name)
    ∧ mdString digestEnv (verifyingServer.m_salt ++ strip_0x20 tabKeyPacket.name)
        = "1b79ed7c144066f2704920b7cd2b21a3"
    ∧ (OnAuth digestEnv 0 tabKeyPacket verifyingServer).returned = true
    ∧ (OnAuth digestEnv 0 tabKeyPacket verifyingServer).state.m_clients.map
          (fun c => (c.summary, c.kickReasons))
        = [((0, true, true, "alice"), [])] := by
  decide

/-! ## Frame lemmas: what the helpers leave alone -/

@[simp] theorem updClient_fired (s : Server) (cid : Nat) (f : Client → Client) :
    (s.updClient cid f).fired = s.fired := rfl

@[simp] theorem updClient_kicks (s : Server) (cid : Nat) (f : Client → Client) :
    (s.updClient cid f).kicks = s.kicks := rfl

@[simp] theorem updClient_numClients (s : Server) (cid : Nat) (f : Client → Client) :
    (s.updClient cid f).m_numClients = s.m_numClients := rfl

@[simp] theorem updClient_worlds (s : Server) (cid : Nat) (f : Client → Client) :
    (s.updClient cid f).m_worlds = s.m_worlds := rfl

@[simp] theorem KickClient_fired (cid : Nat) (reason : String) (s : Server) :
    (KickClient cid reason s).fired = s.fired := rfl

@[simp] theorem KickClient_numClients (cid : Nat) (reason : String) (s : Server) :
    (KickClient cid reason s).m_numClients = s.m_numClients := rfl

@[simp] theorem KickClient_maxClients (cid : Nat) (reason : String) (s : Server) :
    (KickClient cid reason s).m_maxClients = s.m_maxClients := rfl

@[simp] theorem KickClient_worlds (cid : Nat) (reason : String) (s : Server) :
    (KickClient cid reason s).m_worlds = s.m_worlds := rfl

theorem KickClient_kicks (cid : Nat) (reason : String) (s : Server) (h : reason ≠ "") :
    (KickClient cid reason s).kicks = s.kicks ++ [(cid, reason)] := by
  simp [KickClient, h]

@[simp] theorem BroadcastMessage_fired (m : String) (s : Server) :
    (BroadcastMessage m s).fired = s.fired := rfl

@[simp] theorem BroadcastMessage_kicks (m : String) (s : Server) :
    (BroadcastMessage m s).kicks = s.kicks := rfl

@[simp] theorem BroadcastMessage_numClients (m : String) (s : Server) :
    (BroadcastMessage m s).m_numClients = s.m_numClients := rfl

@[simp] theorem BroadcastMessage_worlds (m : String) (s : Server) :
    (BroadcastMessage m s).m_worlds = s.m_worlds := rfl

@[simp] theorem incNumClients_fired (s : Server) : s.incNumClients.fired = s.fired := rfl

@[simp] theorem incNumClients_kicks (s : Server) : s.incNumClients.kicks = s.kicks := rfl

@[simp] theorem incNumClients_numClients (s : Server) :
    s.incNumClients.m_numClients = s.m_numClients + 1 := rfl

@[simp] theorem incNumClients_worlds (s : Server) : s.incNumClients.m_worlds = s.m_worlds := rfl

@[simp] theorem World_AddClient_fired (env : Env) (n : String) (w : World) (cid : Nat) (s : Server) :
    (World_AddClient env n w cid s).fired = s.fired := by
  unfold World_AddClient
  cases s.getClient cid <;> rfl

@[simp] theorem World_AddClient_kicks (env : Env) (n : String) (w : World) (cid : Nat) (s : Server) :
    (World_AddClient env n w cid s).kicks = s.kicks := by
  unfold World_AddClient
  cases s.getClient cid <;> rfl

@[simp] theorem World_AddClient_numClients (env : Env) (n : String) (w : World) (cid : Nat)
    (s : Server) : (World_AddClient env n w cid s).m_numClients = s.m_numClients := by
  unfold World_AddClient
  cases s.getClient cid <;> rfl

@[simp] theorem TriggerEvent_fired (env : Env) (t : EventType) (c : Option Nat) (tbl : LuaRef)
    (s : Server) : (TriggerEvent env t c tbl s).fired = s.fired ++ [(t, c, tbl)] := rfl

@[simp] theorem TriggerEvent_kicks (env : Env) (t : EventType) (c : Option Nat) (tbl : LuaRef)
    (s : Server) : (TriggerEvent env t c tbl s).kicks = s.kicks := rfl

/-- The last block of `OnAuth`, split at the call `world->AddClient(client)`. -/
theorem OnAuth_login_eq (env : Env) (cid : Nat) (name : String) (s2 : Server) :
    OnAuth_login env cid name s2 =
      match GetWorld s2 "default" with
      | none => Outcome.fault Fault.nullWorld (beforeAddClient env cid name s2)
      | some w => Outcome.ok ((World_AddClient env "default" w cid
          (beforeAddClient env cid name s2)).updClient cid (fun c =>
            SendMessage (SendMessage c "https://github.com/vexyl/MCHawk")
              "&eTry /goto freebuild to get started.")) := rfl

@[simp] theorem beforeAddClient_fired (env : Env) (cid : Nat) (name : String) (s2 : Server) :
    (beforeAddClient env cid name s2).fired = s2.fired := rfl

@[simp] theorem beforeAddClient_kicks (env : Env) (cid : Nat) (name : String) (s2 : Server) :
    (beforeAddClient env cid name s2).kicks = s2.kicks := rfl

@[simp] theorem beforeAddClient_numClients (env : Env) (cid : Nat) (name : String) (s2 : Server) :
    (beforeAddClient env cid name s2).m_numClients = s2.m_numClients + 1 := rfl

@[simp] theorem beforeAddClient_worlds (env : Env) (cid : Nat) (name : String) (s2 : Server) :
    (beforeAddClient env cid name s2).m_worlds = s2.m_worlds := rfl

/-- The logs after the last block of `OnAuth`: nothing is added. -/
theorem OnAuth_login_logs (env : Env) (cid : Nat) (name : String) (s2 : Server) :
    (OnAuth_login env cid name s2).state.fired = s2.fired
      ∧ (OnAuth_login env cid name s2).state.kicks = s2.kicks := by
  rw [OnAuth_login_eq]
  cases GetWorld s2 "default" <;> simp [Outcome.state]

/-- The logs after the default path of `OnAuth`: no event, and no kick other
than "Logged in from somewhere else" and "Server is full". -/
theorem OnAuth_default_logs (env : Env) (cid : Nat) (name : String) (s1 : Server) :
    (OnAuth_default env cid name s1).state.fired = s1.fired
      ∧ ∃ l, (OnAuth_default env cid name s1).state.kicks = s1.kicks ++ l
          ∧ ∀ e ∈ l, e.2 = "Logged in from somewhere else" ∨ e.2 = "Server is full" := by
  unfold OnAuth_default
  cases GetClientByName s1 name GetClientByName_exact_default with
  | none =>
    simp only []
    split_ifs
    · exact ⟨rfl, [(cid, "Server is full")], by simp [Outcome.state, KickClient_kicks], by simp⟩
    · exact ⟨(OnAuth_login_logs _ _ _ _).1, [], by simp [(OnAuth_login_logs _ _ _ _).2], by simp⟩
  | some k =>
    simp only []
    split_ifs
    · exact ⟨rfl, [(k, "Logged in from somewhere else"), (cid, "Server is full")],
        by simp [Outcome.state, KickClient_kicks], by simp⟩
    · refine ⟨by simp [(OnAuth_login_logs _ _ _ _).1], [(k, "Logged in from somewhere else")], ?_,
        by simp⟩
      simp [(OnAuth_login_logs _ _ _ _).2, KickClient_kicks]

/-- When the key check lets the login through, the OnAuth event is triggered
once, no other event is, and the only kicks `OnAuth` makes are "Logged in from
somewhere else" and "Server is full". -/
theorem OnAuth_logs (env : Env) (s : Server) (cid : Nat) (clientAuth : cauthp)
    (hinv : invalidKey env cid (trim_right (c_string64 clientAuth.name))
      (trim_right (c_string64 clientAuth.key)) s = false) :
    (OnAuth env cid clientAuth s).state.fired
        = s.fired ++ [(EventType.kOnAuth, some cid, LuaRef.auth clientAuth)]
      ∧ ∃ l, (OnAuth env cid clientAuth s).state.kicks = s.kicks ++ l
          ∧ ∀ e ∈ l, e.2 = "Logged in from somewhere else" ∨ e.2 = "Server is full" := by
  unfold OnAuth
  simp only [hinv, Bool.false_eq_true, if_false]
  split_ifs with hflag
  · exact ⟨rfl, [], by simp [Outcome.state], by simp⟩
  · have h := OnAuth_default_logs env cid (trim_right (c_string64 clientAuth.name))
      (TriggerEvent env EventType.kOnAuth (some cid) (LuaRef.auth clientAuth) s)
    simpa using h

/-- C2. If names are not verified, or the remote address string is `127.0.0.1`,
or the remote and the local address agree under the mask `0xffffff00`, then
whatever the key field holds the key check lets the login through: `OnAuth`
triggers the OnAuth event (the log of events grows by exactly that entry, also
when the call later ends in a fault), and none of the kicks `OnAuth` makes has
the reason "Invalid key". -/
theorem C2_OnAuth_skips_key_check (env : Env) (s : Server) (cid : Nat) (clientAuth : cauthp)
    (hskip : s.m_serverVerifyNames = false ∨ s.GetIpString cid = "127.0.0.1"
      ∨ (env.localAddress % 2 ^ 32) &&& 0xffffff00
          = (env.toInteger (s.GetIpString cid) % 2 ^ 32) &&& 0xffffff00) :
    OnAuth env cid clientAuth s ≠ Outcome.ok (KickClient cid "Invalid key" s)
      ∧ (OnAuth env cid clientAuth s).state.fired
          = s.fired ++ [(EventType.kOnAuth, some cid, LuaRef.auth clientAuth)]
      ∧ ∃ l, (OnAuth env cid clientAuth s).state.kicks = s.kicks ++ l
          ∧ ∀ e ∈ l, e.2 ≠ "Invalid key" := by
  have hinv : invalidKey env cid (trim_right (c_string64 clientAuth.name))
      (trim_right (c_string64 clientAuth.key)) s = false := by
    unfold invalidKey
    rcases hskip with h | h | h
    · simp [h]
    · simp [isLocalPlayer, h]
    · have : isLocalPlayer env (s.GetIpString cid) = true := by
        unfold isLocalPlayer
        simp only [Bool.or_eq_true, beq_iff_eq]
        exact Or.inr h
      simp [this]
  obtain ⟨hf, l, hk, hl⟩ := OnAuth_logs env s cid clientAuth hinv
  refine ⟨?_, hf, l, hk, ?_⟩
  · intro h
    rw [h] at hf
    simp [Outcome.state] at hf
  · intro e he
    rcases hl e he with h | h <;> rw [h] <;> decide

theorem C2_OnAuth_skips_key_check_witness :
    (OnAuth sampleEnv 0 (authPacket "alice" "not the key")
        { Server.new with m_serverVerifyNames := true, m_salt := "abcdefghijklmnop",
                          m_clients := [guest 0 "127.0.0.1"] }).state.fired
      = [] ++ [(EventType.kOnAuth, some 0, LuaRef.auth (authPacket "alice" "not the key"))] :=
  (C2_OnAuth_skips_key_check sampleEnv
    { Server.new with m_serverVerifyNames := true, m_salt := "abcdefghijklmnop",
                      m_clients := [guest 0 "127.0.0.1"] }
    0 (authPacket "alice" "not the key") (Or.inr (Or.inl (by decide)))).2.1

/-! ## The admitted login (C3) -/

theorem find_map_pres (cs : List Client) (cid : Nat) (g : Client → Client)
    (hg : ∀ c, (g c).id = c.id) :
    (cs.map g).find? (fun c => c.id == cid) = (cs.find? (fun c => c.id == cid)).map g := by
  induction cs with
  | nil => rfl
  | cons c cs ih =>
    by_cases h : c.id = cid
    · simp [List.find?, h, hg]
    · have hb : (c.id == cid) = false := by simpa using h
      simp only [List.map_cons, List.find?, hg, hb]
      exact ih

theorem SendWrappedMessage_loop_eq (message : String) (length : Nat) :
    ∀ (fuel pos : Nat) (c : Client),
      ∃ l, SendWrappedMessage_loop message length fuel pos c = { c with queue := c.queue ++ l } := by
  intro fuel
  induction fuel with
  | zero => intro pos c; exact ⟨[], by simp [SendWrappedMessage_loop]⟩
  | succ n ih =>
    intro pos c
    unfold SendWrappedMessage_loop
    split_ifs with h
    · obtain ⟨l, hl⟩ := ih (pos + min (length - pos) 64)
        (SendMessage c (substr message pos (min (length - pos) 64)))
      refine ⟨Packet.MSG (substr message pos (min (length - pos) 64)) :: l, ?_⟩
      rw [hl]
      simp [SendMessage, Client.QueuePacket]
    · exact ⟨[], by simp⟩

/-- `SendWrappedMessage` only appends to the queue of the session. -/
theorem SendWrappedMessage_eq (c : Client) (message : String) :
    ∃ l, SendWrappedMessage c message = { c with queue := c.queue ++ l } :=
  SendWrappedMessage_loop_eq message message.length message.length 0 c

theorem SendWrappedMessage_id (c : Client) (message : String) :
    (SendWrappedMessage c message).id = c.id := by
  obtain ⟨l, hl⟩ := SendWrappedMessage_eq c message
  rw [hl]

/-- The packets of `sends` addressed to the session at `cid`, in order. -/
theorem deliver_eq_map (sends : List (Nat × Packet)) :
    ∀ cs : List Client, deliver sends cs = cs.map (fun c =>
      { c with queue := c.queue ++ (sends.filter (fun e => e.1 == c.id)).map Prod.snd }) := by
  induction sends with
  | nil => intro cs; simp [deliver]
  | cons e rest ih =>
    intro cs
    obtain ⟨cid, p⟩ := e
    simp only [deliver, ih, List.map_map]
    apply List.map_congr_left
    intro c _
    by_cases h : c.id = cid
    · simp [h, Client.QueuePacket, List.filter_cons]
    · have h1 : ¬ cid = c.id := fun h2 => h h2.symm
      simp [h, h1, List.filter_cons]

theorem IsOperator_iff (env : Env) (name : String) :
    IsOperator env name = true ↔ name ∈ env.opsFile := by
  simp [IsOperator, List.any_eq_true]

theorem getClient_BroadcastMessage (m : String) (s : Server) (cid : Nat) :
    (BroadcastMessage m s).getClient cid
      = (s.getClient cid).map (fun c => SendWrappedMessage c m) := by
  simp only [Server.getClient, BroadcastMessage]
  exact find_map_pres _ _ _ (fun c => SendWrappedMessage_id c m)

@[simp] theorem getClient_incNumClients (s : Server) (cid : Nat) :
    s.incNumClients.getClient cid = s.getClient cid := rfl

/-- The record of the logging-in session when `AddClient` is called. -/
theorem getClient_beforeAddClient (env : Env) (cid : Nat) (name : String) (s2 : Server)
    (c2 : Client) (hc2 : s2.getClient cid = some c2) :
    ∃ cPre l, (beforeAddClient env cid name s2).getClient cid = some cPre
      ∧ cPre.id = cid ∧ cPre.m_name = name ∧ cPre.authed = true
      ∧ cPre.m_userType = (if name ∈ env.opsFile then 0x64 else 0x00)
      ∧ cPre.m_worldName = "default"
      ∧ cPre.active = c2.active
      ∧ cPre.queue = c2.queue ++ l ++ [Packet.SERVER_INFO s2.m_version s2.m_serverName
          s2.m_serverMotd (if name ∈ env.opsFile then 0x64 else 0x00)] := by
  obtain ⟨l, hl⟩ := SendWrappedMessage_eq { c2.SetName name with authed := true }
    ("&e" ++ name ++ " joined the game")
  have hid : c2.id = cid := (getClient_mem hc2).2
  have hut : (if IsOperator env name = true then (0x64 : Nat) else 0x00)
      = (if name ∈ env.opsFile then 0x64 else 0x00) := by
    simp only [IsOperator_iff]
  refine ⟨SendInfo (((SendWrappedMessage { c2.SetName name with authed := true }
      ("&e" ++ name ++ " joined the game")).SetUserType
        (if IsOperator env name = true then 0x64 else 0x00)).SetWorldName "default")
      s2.m_serverName s2.m_serverMotd s2.m_version
      (if IsOperator env name = true then 0x64 else 0x00), l, ?_, ?_⟩
  · unfold beforeAddClient
    rw [getClient_updClient, getClient_updClient, getClient_updClient,
      getClient_BroadcastMessage, getClient_incNumClients, getClient_updClient, hc2]
    · rfl
    all_goals (intro _; rfl)
  · rw [hl, hut]
    simp [SendInfo, Client.QueuePacket, Client.SetWorldName, Client.SetUserType, Client.SetName, hid]

theorem getClient_KickClient (k : Nat) (reason : String) (s : Server) (cid : Nat) :
    (KickClient k reason s).getClient cid
      = (s.getClient cid).map (fun c =>
          if c.id = k then
            { SendKick c (if reason = "" then "Kicked" else reason) with active := false }
          else c) := by
  simp only [Server.getClient, KickClient, Server.updClient]
  exact find_map_pres _ _ _ (fun c => by split_ifs <;> rfl)

/-- The effect of `world->AddClient(client)` on the world registry and on the
session added. -/
theorem World_AddClient_spec (env : Env) (n : String) (w : World) (cid : Nat) (s : Server)
    (c : Client) (hc : s.getClient cid = some c) :
    (World_AddClient env n w cid s).m_worlds = setWorld n (env.AddClient w c).world s.m_worlds
      ∧ (World_AddClient env n w cid s).getClient cid
          = some { c with m_pid := (env.AddClient w c).pid,
                          queue := c.queue
                            ++ ((env.AddClient w c).sends.filter (fun e => e.1 == cid)).map Prod.snd } := by
  have hid : c.id = cid := (getClient_mem hc).2
  unfold World_AddClient
  simp only [hc]
  refine ⟨rfl, ?_⟩
  have h1 := find_map_pres
    (s.m_clients.map (fun x => if x.id = cid then { x with m_pid := (env.AddClient w c).pid } else x))
    cid
    (fun x => { x with queue := x.queue
      ++ ((env.AddClient w c).sends.filter (fun e => e.1 == x.id)).map Prod.snd })
    (fun _ => rfl)
  have h2 := find_map_upd s.m_clients cid
    (fun x => { x with m_pid := (env.AddClient w c).pid }) (fun _ => rfl)
  simp only [Server.getClient] at hc
  simp only [Server.getClient, Server.updClient, deliver_eq_map]
  refine h1.trans ?_
  rw [h2, hc]
  simp [hid]

/-- The last block of `OnAuth` on a server with a world "default": what it
does to the counter, the world and the session. -/
theorem OnAuth_login_spec (env : Env) (cid : Nat) (name : String) (s2 : Server)
    (c2 : Client) (w : World)
    (hworld : GetWorld s2 "default" = some w) (hc2 : s2.getClient cid = some c2) :
    ∃ s' cPre c' l,
      OnAuth_login env cid name s2 = Outcome.ok s'
      ∧ s'.m_numClients = s2.m_numClients + 1
      ∧ cPre.id = cid ∧ cPre.m_name = name ∧ cPre.authed = true
      ∧ cPre.m_userType = (if name ∈ env.opsFile then 0x64 else 0x00)
      ∧ cPre.m_worldName = "default"
      ∧ cPre.queue = c2.queue ++ l ++ [Packet.SERVER_INFO s2.m_version s2.m_serverName
          s2.m_serverMotd (if name ∈ env.opsFile then 0x64 else 0x00)]
      ∧ s'.m_worlds = setWorld "default" (env.AddClient w cPre).world s2.m_worlds
      ∧ s'.getClient cid = some c'
      ∧ c'.m_name = name ∧ c'.authed = true
      ∧ c'.m_userType = (if name ∈ env.opsFile then 0x64 else 0x00)
      ∧ c'.m_worldName = "default"
      ∧ c'.m_pid = (env.AddClient w cPre).pid
      ∧ c'.queue = cPre.queue
          ++ ((env.AddClient w cPre).sends.filter (fun e => e.1 == cid)).map Prod.snd
          ++ [Packet.MSG "https://github.com/vexyl/MCHawk",
              Packet.MSG "&eTry /goto freebuild to get started."] := by
  obtain ⟨cPre, l, hget, hid, hname, hauth, hut, hwn, -, hq⟩ :=
    getClient_beforeAddClient env cid name s2 c2 hc2
  obtain ⟨hw, hg⟩ := World_AddClient_spec env "default" w cid (beforeAddClient env cid name s2)
    cPre hget
  refine ⟨(World_AddClient env "default" w cid (beforeAddClient env cid name s2)).updClient cid
      (fun c => SendMessage (SendMessage c "https://github.com/vexyl/MCHawk")
        "&eTry /goto freebuild to get started."),
    cPre,
    SendMessage (SendMessage
      { cPre with m_pid := (env.AddClient w cPre).pid,
                  queue := cPre.queue
                    ++ ((env.AddClient w cPre).sends.filter (fun e => e.1 == cid)).map Prod.snd }
      "https://github.com/vexyl/MCHawk") "&eTry /goto freebuild to get started.",
    l, ?_, ?_, hid, hname, hauth, hut, hwn, hq, ?_, ?_, ?_⟩
  · rw [OnAuth_login_eq, hworld]
  · simp
  · simpa using hw
  · rw [getClient_updClient, hg]
    · rfl
    · intro _; rfl
  · simp [SendMessage, Client.QueuePacket, hname, hauth, hut, hwn]

/-- C3. A login that passes the key check, is not vetoed by `NoDefaultCall` and
is not refused as full, on a server with a world "default" and a counter in
the range of an `int` and below 2147483647 (where `m_numClients++` does not
overflow), is admitted. With `s1` the state in which the OnAuth handlers leave
the server and `c` the session's record there: `OnAuth` returns;
`m_numClients` is one more than in `s1`; the record `cPre` handed to the
world's `AddClient` already has the
trimmed name, `authed = true`, the user type 0x64 if the name is a line of the
operator file and 0x00 otherwise, the world name "default", and a queue that
extends the session's queue and ends with `SERVER_INFO` (server name, motd,
protocol version, user type); the world "default" is replaced by the result of
`AddClient` on that record; and the session's final record keeps these fields
and has the queue of `cPre`, then the packets `AddClient` addressed to the
session, then exactly the two chat lines. -/
theorem C3_OnAuth_login_ok (env : Env) (s s1 : Server) (cid : Nat) (clientAuth : cauthp)
    (c : Client) (w : World)
    (hkey : invalidKey env cid (trim_right (c_string64 clientAuth.name))
      (trim_right (c_string64 clientAuth.key)) s = false)
    (hs1 : s1 = TriggerEvent env EventType.kOnAuth (some cid) (LuaRef.auth clientAuth) s)
    (hveto : GetEventFlag s1 "NoDefaultCall" = false)
    (hfull : ¬ (s1.m_numClients ≥ s1.m_maxClients
      ∧ GetClientByName s1 (trim_right (c_string64 clientAuth.name))
          GetClientByName_exact_default = none))
    (hworld : GetWorld s1 "default" = some w)
    (hc : s1.getClient cid = some c)
    (_hrange : -2147483648 ≤ s1.m_numClients ∧ s1.m_numClients < 2147483647) :
    ∃ s' cPre c' pre,
      OnAuth env cid clientAuth s = Outcome.ok s'
      ∧ s'.m_numClients = s1.m_numClients + 1
      ∧ cPre.id = cid
      ∧ cPre.m_name = trim_right (c_string64 clientAuth.name)
      ∧ cPre.authed = true
      ∧ cPre.m_userType
          = (if trim_right (c_string64 clientAuth.name) ∈ env.opsFile then 0x64 else 0x00)
      ∧ cPre.m_worldName = "default"
      ∧ cPre.queue = c.queue ++ pre ++ [Packet.SERVER_INFO s1.m_version s1.m_serverName
          s1.m_serverMotd
          (if trim_right (c_string64 clientAuth.name) ∈ env.opsFile then 0x64 else 0x00)]
      ∧ s'.m_worlds = setWorld "default" (env.AddClient w cPre).world s1.m_worlds
      ∧ s'.getClient cid = some c'
      ∧ c'.m_name = trim_right (c_string64 clientAuth.name)
      ∧ c'.authed = true
      ∧ c'.m_userType
          = (if trim_right (c_string64 clientAuth.name) ∈ env.opsFile then 0x64 else 0x00)
      ∧ c'.m_worldName = "default"
      ∧ c'.m_pid = (env.AddClient w cPre).pid
      ∧ c'.queue = cPre.queue
          ++ ((env.AddClient w cPre).sends.filter (fun e => e.1 == cid)).map Prod.snd
          ++ [Packet.MSG "https://github.com/vexyl/MCHawk",
              Packet.MSG "&eTry /goto freebuild to get started."] := by
  have hOn : OnAuth env cid clientAuth s
      = OnAuth_default env cid (trim_right (c_string64 clientAuth.name)) s1 := by
    unfold OnAuth
    simp only [hkey, Bool.false_eq_true, if_false, ← hs1, hveto]
  rw [hOn]
  unfold OnAuth_default
  cases hk : GetClientByName s1 (trim_right (c_string64 clientAuth.name))
      GetClientByName_exact_default with
  | none =>
    have hlt : ¬ s1.m_numClients ≥ s1.m_maxClients := fun h => hfull ⟨h, hk⟩
    simp only [hlt, decide_False, Bool.false_and, Bool.false_eq_true, if_false]
    obtain ⟨s', cPre, c', l, h⟩ := OnAuth_login_spec env cid
      (trim_right (c_string64 clientAuth.name)) s1 c w hworld hc
    exact ⟨s', cPre, c', l, h⟩
  | some k =>
    simp only [Option.isNone_some, Bool.and_false, Bool.false_eq_true, if_false]
    have hc2 := getClient_KickClient k "Logged in from somewhere else" s1 cid
    rw [hc, Option.map_some'] at hc2
    obtain ⟨s', cPre, c', l, h1, h2, h3, h4, h5, h6, h7, h8, h9⟩ := OnAuth_login_spec env cid
      (trim_right (c_string64 clientAuth.name))
      (KickClient k "Logged in from somewhere else" s1) _ w hworld hc2
    by_cases hkc : c.id = k
    · refine ⟨s', cPre, c', [Packet.KICK "Logged in from somewhere else"] ++ l,
        h1, h2, h3, h4, h5, h6, h7, ?_, h9⟩
      rw [h8]
      simp [hkc, SendKick, Client.QueuePacket, KickClient, Server.updClient]
    · refine ⟨s', cPre, c', l, h1, h2, h3, h4, h5, h6, h7, ?_, h9⟩
      rw [h8]
      simp [hkc, KickClient, Server.updClient]

theorem C3_OnAuth_login_ok_witness :
    ∃ s', OnAuth sampleEnv 0 (authPacket "alice" "") (lobby 8 [guest 0 "8.8.8.8"]) = Outcome.ok s'
      ∧ s'.m_numClients = 0 + 1 := by
  obtain ⟨s', _, _, _, h1, h2, -⟩ := C3_OnAuth_login_ok sampleEnv (lobby 8 [guest 0 "8.8.8.8"])
    (TriggerEvent sampleEnv EventType.kOnAuth (some 0) (LuaRef.auth (authPacket "alice" ""))
      (lobby 8 [guest 0 "8.8.8.8"]))
    0 (authPacket "alice" "") (guest 0 "8.8.8.8") (smallWorld "default")
    (by decide) rfl (by decide) (by decide) (by decide) (by decide) (by decide)
  exact ⟨s', h1, h2⟩

/-! ## The full server (C5) -/

theorem GetClientByName_loop_exact_none (name : String) (cs : List Client)
    (h : ∀ x ∈ cs, to_lower x.m_name ≠ name) :
    GetClientByName_loop name true cs none = none := by
  induction cs with
  | nil => rfl
  | cons c cs ih =>
    have hc : ¬ name = to_lower c.m_name := fun e => h c (List.mem_cons_self _ _) e.symm
    simp only [GetClientByName_loop, hc, if_false, Bool.not_true, Bool.false_and, Bool.false_eq_true]
    exact ih (fun x hx => h x (List.mem_cons_of_mem _ hx))

/-- In exact mode `GetClientByName` returns null when no session has the name,
ignoring case. -/
theorem GetClientByName_exact_none (s : Server) (name : String)
    (h : ∀ x ∈ s.m_clients, to_lower x.m_name ≠ to_lower name) :
    GetClientByName s name true = none :=
  GetClientByName_loop_exact_none _ _ h

/-- C5. A login that passes the key check and is not vetoed, made when
`m_numClients >= m_maxClients` and no session has the same name ignoring case,
is refused. With `s1` the state in which the OnAuth handlers leave the server
and `c` the session's record there: `OnAuth` returns `s1` with one
`KICK("Server is full")` appended to the queue of the session and the session
inactive; the session stays unauthenticated and keeps its (unset) name, world
name and player id; `m_numClients` and the worlds are those of `s1`, so the
session is attached to no world. -/
theorem C5_OnAuth_server_full (env : Env) (s s1 : Server) (cid : Nat) (clientAuth : cauthp)
    (c : Client)
    (hkey : invalidKey env cid (trim_right (c_string64 clientAuth.name))
      (trim_right (c_string64 clientAuth.key)) s = false)
    (hs1 : s1 = TriggerEvent env EventType.kOnAuth (some cid) (LuaRef.auth clientAuth) s)
    (hveto : GetEventFlag s1 "NoDefaultCall" = false)
    (hcount : s1.m_numClients ≥ s1.m_maxClients)
    (hnone : ∀ x ∈ s1.m_clients,
      to_lower x.m_name ≠ to_lower (trim_right (c_string64 clientAuth.name)))
    (hc : s1.getClient cid = some c) (hunauth : c.authed = false) :
    OnAuth env cid clientAuth s =
        Outcome.ok { s1 with
          m_clients := s1.m_clients.map (fun x =>
            if x.id = cid then
              { x with queue := x.queue ++ [Packet.KICK "Server is full"], active := false }
            else x),
          kicks := s1.kicks ++ [(cid, "Server is full")] }
      ∧ (∃ c', (OnAuth env cid clientAuth s).state.getClient cid = some c'
            ∧ c'.queue = c.queue ++ [Packet.KICK "Server is full"]
            ∧ c'.active = false ∧ c'.authed = false ∧ c'.m_name = c.m_name
            ∧ c'.m_worldName = c.m_worldName ∧ c'.m_pid = c.m_pid)
      ∧ (OnAuth env cid clientAuth s).state.m_numClients = s1.m_numClients
      ∧ (OnAuth env cid clientAuth s).state.m_worlds = s1.m_worlds := by
  have hk : GetClientByName s1 (trim_right (c_string64 clientAuth.name))
      GetClientByName_exact_default = none := GetClientByName_exact_none _ _ hnone
  have hres : OnAuth env cid clientAuth s = Outcome.ok (KickClient cid "Server is full" s1) := by
    unfold OnAuth
    simp only [hkey, Bool.false_eq_true, if_false, ← hs1, hveto]
    unfold OnAuth_default
    simp only [hk, Option.isNone_none, Bool.and_true, decide_eq_true_eq, hcount, if_true]
  rw [hres, KickClient_eq _ _ _ (by decide)]
  refine ⟨rfl, ?_, rfl, rfl⟩
  refine ⟨{ c with queue := c.queue ++ [Packet.KICK "Server is full"], active := false }, ?_,
    rfl, rfl, hunauth, rfl, rfl, rfl⟩
  have := find_map_upd s1.m_clients cid
    (fun x => { x with queue := x.queue ++ [Packet.KICK "Server is full"], active := false })
    (fun _ => rfl)
  simp only [Outcome.state, Server.getClient] at hc ⊢
  rw [this, hc]
  rfl

theorem C5_OnAuth_server_full_witness :
    (OnAuth sampleEnv 2 (authPacket "carol" "")
        { lobby 2 [player 0 "8.8.8.8" "alice" 0, player 1 "8.8.4.4" "bob" 1, guest 2 "9.9.9.9"]
          with m_numClients := 2 }).state.m_numClients = 2 :=
  (C5_OnAuth_server_full sampleEnv
    { lobby 2 [player 0 "8.8.8.8" "alice" 0, player 1 "8.8.4.4" "bob" 1, guest 2 "9.9.9.9"]
      with m_numClients := 2 }
    (TriggerEvent sampleEnv EventType.kOnAuth (some 2) (LuaRef.auth (authPacket "carol" ""))
      { lobby 2 [player 0 "8.8.8.8" "alice" 0, player 1 "8.8.4.4" "bob" 1, guest 2 "9.9.9.9"]
        with m_numClients := 2 })
    2 (authPacket "carol" "") (guest 2 "9.9.9.9")
    (by decide) rfl (by decide) (by decide) (by decide) (by decide) (by decide)).2.2.1

/-! ## Logins under a name that is already in the list (C4, C7)

`GetClientByName` returns the first session of the list with the name, whatever
its `authed` and `active` flags are, and `OnAuth` kicks that one session. -/

set_option maxRecDepth 100000 in
/-- C4, evaluated at two states reached by ticks from a server with no session.
In `ghostState` the sessions 0 and 1 are authenticated as "x" (session 0 already
kicked, not yet reaped) and session 2 logs in as "x": the call returns, the
sessions 1 and 2 are both authenticated and active under the name "x", session
1 got no KICK, and the KICK went a second time to session 0. In
`emptyNameState` session 1 is authenticated under the empty name and session 0
logs in with an empty name: session 1 got no KICK and stays active, the KICK
went to session 0 itself. -/
theorem C4_prior_session_not_kicked :
    ghostState.m_clients.map (fun c => (c.summary, c.kickReasons))
        = [ ((0, false, true, "x"), ["Logged in from somewhere else"]),
            ((1, true, true, "x"), []),
            ((2, true, false, ""), []) ]
    ∧ (∃ s', OnAuth sampleEnv 2 (authPacket "x" "") ghostState = Outcome.ok s'
      ∧ s'.m_clients.map (fun c => (c.summary, c.kickReasons))
        = [ ((0, false, true, "x"),
              ["Logged in from somewhere else", "Logged in from somewhere else"]),
            ((1, true, true, "x"), []),
            ((2, true, true, "x"), []) ])
    ∧ emptyNameState.m_clients.map (fun c => (c.summary, c.kickReasons))
        = [ ((0, false, false, ""), ["Logged in from somewhere else"]),
            ((1, true, true, ""), []) ]
    ∧ (∃ s', OnAuth sampleEnv 0 (authPacket "" "") emptyNameState = Outcome.ok s'
      ∧ s'.m_clients.map (fun c => (c.summary, c.kickReasons))
        = [ ((0, false, true, ""),
              ["Logged in from somewhere else", "Logged in from somewhere else"]),
            ((1, true, true, ""), []) ]) :=
  ⟨by decide, ⟨_, rfl, by decide⟩, by decide, ⟨_, rfl, by decide⟩⟩

set_option maxRecDepth 100000 in
/-- C7, evaluated on the ticks of `tripleLogin`, from a server with no session,
`m_numClients = 0` and `m_maxClients = 1`. After tick 5 every session in the
list is active (no kicked session waits to be reaped) and `m_numClients` is 2. -/
theorem C7_count_exceeds_max :
    (lobby 1 []).m_clients = [] ∧ (lobby 1 []).m_numClients = 0
    ∧ (runTicks sampleEnv tripleLogin (lobby 1 [])).returned = true
    ∧ (runTicks sampleEnv tripleLogin (lobby 1 [])).state.m_clients.all (fun c => c.active) = true
    ∧ (runTicks sampleEnv tripleLogin (lobby 1 [])).state.m_numClients = 2
    ∧ (runTicks sampleEnv tripleLogin (lobby 1 [])).state.m_maxClients = 1 := by
  decide

/-! ## No world named "default" (C8) -/

set_option maxRecDepth 100000 in
/-- C8, evaluated at the state `Init` builds when no world file is named
"default" (the registry holds the seed world "scrap" only), with one connected
session that sends a login: the call does not return. It ends in the null
dereference `world->AddClient(client)`, with the session already marked
authenticated, `m_numClients` already incremented, and no KICK in its queue. -/
theorem C8_no_default_world_fault :
    GetWorldNames (Init_worlds [] [] Server.new) = ["scrap"]
    ∧ ∃ st, OnAuth sampleEnv 0 (authPacket "alice" "")
          { Init_worlds [] [] Server.new with m_clients := [guest 0 "8.8.8.8"] }
        = Outcome.fault Fault.nullWorld st
      ∧ st.m_numClients = 1
      ∧ st.m_clients.map (fun c => (c.summary, c.kickReasons))
          = [((0, true, true, "alice"), [])] :=
  ⟨by decide, _, rfl, by decide, by decide⟩

/-! ## Packet dispatch (C9, C10) -/

/-- C9. For an authenticated session and an opcode other than MESSAGE (0x0d),
POS (0x08) and SET_BLOCK (0x05), AUTH (0x00) included, `HandlePacket` returns
the state with one `KICK("Unknown opcode received")` appended to the queue of
the session and the session inactive. The receive buffer of the session, the
other sessions, the worlds and the log of triggered events are those of the
state before the call: nothing is read, no event is triggered, no world
changes. -/
theorem C9_HandlePacket_unknown_opcode (env : Env) (s : Server) (cid opcode : Nat) (c : Client)
    (hc : s.getClient cid = some c) (hauth : c.authed = true)
    (hop : opcode ≠ 0x0d ∧ opcode ≠ 0x08 ∧ opcode ≠ 0x05) :
    HandlePacket env cid opcode s =
        Outcome.ok { s with
          m_clients := s.m_clients.map (fun x =>
            if x.id = cid then
              { x with queue := x.queue ++ [Packet.KICK "Unknown opcode received"], active := false }
            else x),
          kicks := s.kicks ++ [(cid, "Unknown opcode received")] }
      ∧ (∃ c', (HandlePacket env cid opcode s).state.getClient cid = some c'
            ∧ c'.queue = c.queue ++ [Packet.KICK "Unknown opcode received"]
            ∧ c'.active = false ∧ c'.stream = c.stream)
      ∧ (HandlePacket env cid opcode s).state.fired = s.fired
      ∧ (HandlePacket env cid opcode s).state.m_worlds = s.m_worlds := by
  obtain ⟨h1, h2, h3⟩ := hop
  have hres : HandlePacket env cid opcode s
      = Outcome.ok (KickClient cid "Unknown opcode received" s) := by
    unfold HandlePacket
    simp only [hc, hauth, CMSG, CPOS, CBLOCK, h1, h2, h3, if_false, Bool.not_true,
      Bool.false_eq_true]
  rw [hres, KickClient_eq _ _ _ (by decide)]
  refine ⟨rfl, ?_, rfl, rfl⟩
  refine ⟨{ c with queue := c.queue ++ [Packet.KICK "Unknown opcode received"], active := false },
    ?_, rfl, rfl, rfl⟩
  have := find_map_upd s.m_clients cid
    (fun x => { x with queue := x.queue ++ [Packet.KICK "Unknown opcode received"],
                       active := false })
    (fun _ => rfl)
  simp only [Outcome.state, Server.getClient] at hc ⊢
  rw [this, hc]
  rfl

theorem C9_HandlePacket_unknown_opcode_witness :
    (HandlePacket sampleEnv 0 CAUTH (lobby 8 [player 0 "8.8.8.8" "alice" 0])).state.fired = [] :=
  (C9_HandlePacket_unknown_opcode sampleEnv (lobby 8 [player 0 "8.8.8.8" "alice" 0]) 0 CAUTH
    (player 0 "8.8.8.8" "alice" 0) (by decide) (by decide) (by decide)).2.2.1

/-- The events `OnAuth` triggers: none when the key is refused, the OnAuth
event otherwise. -/
theorem OnAuth_fired (env : Env) (s : Server) (cid : Nat) (clientAuth : cauthp) :
    ∃ l, (OnAuth env cid clientAuth s).state.fired = s.fired ++ l
      ∧ ∀ e ∈ l, e.1 = EventType.kOnAuth := by
  cases hinv : invalidKey env cid (trim_right (c_string64 clientAuth.name))
      (trim_right (c_string64 clientAuth.key)) s with
  | true =>
    refine ⟨[], ?_, by simp⟩
    unfold OnAuth
    simp [hinv, Outcome.state]
  | false =>
    exact ⟨_, (OnAuth_logs env s cid clientAuth hinv).1, by simp⟩

/-- `OnAuth` does not depend on the collaborators of the MESSAGE, POS and
SET_BLOCK handlers. -/
theorem OnAuth_env_irrelevant (env : Env) (s : Server) (cid : Nat) (clientAuth : cauthp)
    (handle : Nat → String → Server → Server) (onPos : World → Client → cposp → WorldEffect)
    (onBlock : World → Client → cblockp → WorldEffect) :
    OnAuth { env with Handle := handle, OnPosition := onPos, OnBlock := onBlock } cid clientAuth s
      = OnAuth env cid clientAuth s := rfl

/-- C10. For an unauthenticated session and an opcode other than AUTH (0x00),
`HandlePacket` returns the state with that session inactive and nothing else
changed: no queue grows (so no KICK), no event is logged, `m_numClients` and
the worlds are the same. Moreover, for an unauthenticated session and any
opcode, the call is either that drop, or a failed read, or `OnAuth` on the
frame read: the only event it can trigger is OnAuth, and the outcome does not
depend on the command handler or on the world's position and block handlers,
which the MESSAGE, POS and SET_BLOCK branches would call. -/
theorem C10_HandlePacket_unauthenticated (env : Env) (s : Server) (cid : Nat) (c : Client)
    (hc : s.getClient cid = some c) (hunauth : c.authed = false) :
    (∀ opcode, opcode ≠ 0x00 →
        HandlePacket env cid opcode s =
          Outcome.ok { s with m_clients := s.m_clients.map (fun x =>
            if x.id = cid then { x with active := false } else x) })
      ∧ (∀ opcode, HandlePacket env cid opcode s =
          if opcode = 0x00 then
            match cauthp.Read c.stream with
            | some (clientAuth, st) =>
              OnAuth env cid clientAuth (s.updClient cid (fun x => { x with stream := st }))
            | none => Outcome.ok s
          else Outcome.ok (s.updClient cid (fun x => { x with active := false })))
      ∧ (∀ opcode, ∃ l, (HandlePacket env cid opcode s).state.fired = s.fired ++ l
          ∧ ∀ e ∈ l, e.1 = EventType.kOnAuth)
      ∧ (∀ opcode handle onPos onBlock,
          HandlePacket { env with Handle := handle, OnPosition := onPos, OnBlock := onBlock }
              cid opcode s
            = HandlePacket env cid opcode s) := by
  have hgen : ∀ (env : Env) (opcode : Nat), HandlePacket env cid opcode s =
      if opcode = 0x00 then
        match cauthp.Read c.stream with
        | some (clientAuth, st) =>
          OnAuth env cid clientAuth (s.updClient cid (fun x => { x with stream := st }))
        | none => Outcome.ok s
      else Outcome.ok (s.updClient cid (fun x => { x with active := false })) := by
    intro env opcode
    unfold HandlePacket
    simp only [hc, hunauth, Bool.not_false, if_true, CAUTH]
  refine ⟨?_, hgen env, ?_, ?_⟩
  · intro opcode hop
    rw [hgen, if_neg hop]
    rfl
  · intro opcode
    rw [hgen]
    split_ifs
    · cases hr : cauthp.Read c.stream with
      | none => exact ⟨[], by simp [Outcome.state], by simp⟩
      | some r =>
        obtain ⟨clientAuth, st⟩ := r
        exact OnAuth_fired env _ cid clientAuth
    · exact ⟨[], by simp [Outcome.state], by simp⟩
  · intro opcode handle onPos onBlock
    rw [hgen, hgen]
    split_ifs
    · cases hr : cauthp.Read c.stream with
      | none => rfl
      | some r => rfl
    · rfl

theorem C10_HandlePacket_unauthenticated_witness :
    HandlePacket sampleEnv 0 CMSG (lobby 8 [guest 0 "8.8.8.8"]) =
      Outcome.ok { lobby 8 [guest 0 "8.8.8.8"] with
        m_clients := (lobby 8 [guest 0 "8.8.8.8"]).m_clients.map (fun x =>
          if x.id = 0 then { x with active := false } else x) } :=
  (C10_HandlePacket_unauthenticated sampleEnv (lobby 8 [guest 0 "8.8.8.8"]) 0
    (guest 0 "8.8.8.8") (by decide) (by decide)).1 CMSG (by decide)

/-! ## Exclusivity among live sessions (C6) -/

theorem forall₂_trans_of {α : Type} {R S T : α → α → Prop}
    (h : ∀ a b c, R a b → S b c → T a c) :
    ∀ {l1 l2 l3 : List α}, List.Forall₂ R l1 l2 → List.Forall₂ S l2 l3 → List.Forall₂ T l1 l3 := by
  intro l1 l2 l3 h12
  induction h12 generalizing l3 with
  | nil => intro h23; cases h23; exact List.Forall₂.nil
  | cons hab _ ih =>
    intro h23
    cases h23 with
    | cons hbc hrest => exact List.Forall₂.cons (h _ _ _ hab hbc) (ih hrest)

theorem forall₂_map_self {α : Type} {R : α → α → Prop} (g : α → α) (h : ∀ c, R c (g c)) :
    ∀ l : List α, List.Forall₂ R l (l.map g) := by
  intro l
  induction l with
  | nil => exact List.Forall₂.nil
  | cons a l ih => exact List.Forall₂.cons (h a) ih

theorem forall₂_mem_right {α : Type} {R : α → α → Prop} {l l' : List α}
    (h : List.Forall₂ R l l') : ∀ b ∈ l', ∃ a ∈ l, R a b := by
  induction h with
  | nil => intro b hb; cases hb
  | cons hab _ ih =>
    intro b hb
    rcases List.mem_cons.mp hb with rfl | hb
    · exact ⟨_, List.mem_cons_self _ _, hab⟩
    · obtain ⟨a, ha, hr⟩ := ih b hb
      exact ⟨a, List.mem_cons_of_mem _ ha, hr⟩

theorem forall₂_map_id {R : Client → Client → Prop} (hR : ∀ a b, R a b → b.id = a.id)
    {l l' : List Client} (h : List.Forall₂ R l l') : l'.map Client.id = l.map Client.id := by
  induction h with
  | nil => rfl
  | cons hab _ ih => simp [hR _ _ hab, ih]

theorem frameRel_refl (c : Client) : FrameRel c c := ⟨rfl, rfl, rfl, id⟩

theorem frameRel_trans {a b c : Client} (h1 : FrameRel a b) (h2 : FrameRel b c) : FrameRel a c :=
  ⟨h2.1.trans h1.1, h2.2.1.trans h1.2.1, h2.2.2.1.trans h1.2.2.1, fun h => h1.2.2.2 (h2.2.2.2 h)⟩

theorem frame_refl (s : Server) : Frame s s :=
  ⟨le_refl _, List.forall₂_same.mpr (fun c _ => frameRel_refl c)⟩

theorem frame_trans {s1 s2 s3 : Server} (h12 : Frame s1 s2) (h23 : Frame s2 s3) : Frame s1 s3 :=
  ⟨le_trans h12.1 h23.1,
    forall₂_trans_of (R := FrameRel) (S := FrameRel) (T := FrameRel)
      (fun _ _ _ h1 h2 => frameRel_trans h1 h2) h12.2 h23.2⟩

/-- An operation that maps every session to a `FrameRel` image respects `Frame`. -/
theorem frame_of_map (s s' : Server) (g : Client → Client) (hg : ∀ c, FrameRel c (g c))
    (hc : s'.m_clients = s.m_clients.map g) (hn : s.nextId ≤ s'.nextId) : Frame s s' :=
  ⟨hn, hc ▸ forall₂_map_self (R := FrameRel) g hg _⟩

theorem frame_updClient (s : Server) (cid : Nat) (f : Client → Client)
    (hf : ∀ c, FrameRel c (f c)) : Frame s (s.updClient cid f) :=
  frame_of_map s _ (fun c => if c.id = cid then f c else c)
    (fun c => by
      dsimp only
      split_ifs
      exacts [hf c, frameRel_refl c]) rfl (le_refl _)

theorem frameRel_SendWrappedMessage (c : Client) (m : String) :
    FrameRel c (SendWrappedMessage c m) := by
  obtain ⟨l, hl⟩ := SendWrappedMessage_eq c m
  rw [hl]
  exact ⟨rfl, rfl, rfl, id⟩

theorem frame_BroadcastMessage (m : String) (s : Server) : Frame s (BroadcastMessage m s) :=
  frame_of_map s _ (fun c => SendWrappedMessage c m) (fun c => frameRel_SendWrappedMessage c m)
    rfl (le_refl _)

theorem frame_KickClient (cid : Nat) (reason : String) (s : Server) :
    Frame s (KickClient cid reason s) :=
  frame_updClient s cid _ (fun _ => ⟨rfl, rfl, rfl, fun h => by simp at h⟩)

theorem frame_deliver (sends : List (Nat × Packet)) (s s' : Server)
    (hc : s'.m_clients = deliver sends s.m_clients) (hn : s.nextId ≤ s'.nextId) : Frame s s' :=
  frame_of_map s s'
    (fun c => { c with queue := c.queue ++ (sends.filter (fun e => e.1 == c.id)).map Prod.snd })
    (fun _ => ⟨rfl, rfl, rfl, id⟩) (hc.trans (deliver_eq_map sends _)) hn

theorem frame_applyWorldEffect (name : String) (r : WorldEffect) (s : Server) :
    Frame s (applyWorldEffect name r s) :=
  frame_deliver r.sends s _ rfl (le_refl _)

theorem frame_World_AddClient (env : Env) (n : String) (w : World) (cid : Nat) (s : Server) :
    Frame s (World_AddClient env n w cid s) := by
  unfold World_AddClient
  cases hc : s.getClient cid with
  | none => exact frame_refl s
  | some c =>
    simp only []
    exact frame_trans
      (frame_updClient s cid (fun x => { x with m_pid := (env.AddClient w c).pid })
        (fun _ => ⟨rfl, rfl, rfl, id⟩))
      (frame_deliver (env.AddClient w c).sends _ _ rfl (le_refl _))

theorem frame_invokeSlots (hs : List Handler)
    (hh : ∀ h ∈ hs, ∀ c tbl s, Frame s (h c tbl s).1) (c : Option Nat) (tbl : LuaRef) :
    ∀ s, Frame s (invokeSlots hs c tbl s).1 := by
  induction hs with
  | nil => intro s; exact frame_refl s
  | cons h rest ih =>
    intro s
    have h1 := hh h (List.mem_cons_self _ _) c tbl s
    simp only [invokeSlots]
    split_ifs
    · exact h1
    · exact frame_trans h1 (ih (fun h' hm => hh h' (List.mem_cons_of_mem _ hm)) _)

theorem frame_TriggerEvent (env : Env) (henv : EnvFrame env) (t : EventType) (c : Option Nat)
    (tbl : LuaRef) (s : Server) : Frame s (TriggerEvent env t c tbl s) := by
  have h := frame_invokeSlots (env.signalMap t) (henv.1 t) c tbl s
  exact ⟨h.1, h.2⟩

theorem frame_of_clients_eq (s s' : Server) (hc : s'.m_clients = s.m_clients)
    (hn : s.nextId ≤ s'.nextId) : Frame s s' :=
  ⟨hn, hc ▸ List.forall₂_same.mpr (fun c _ => frameRel_refl c)⟩

/-- The invariant survives every operation that respects `Frame`. -/
theorem inv_of_frame {s s' : Server} (hinv : Inv s) (hf : Frame s s') : Inv s' := by
  obtain ⟨hnd, hlt, hex⟩ := hinv
  refine ⟨?_, ?_, ?_⟩
  · rw [forall₂_map_id (fun _ _ h => h.1) hf.2]
    exact hnd
  · intro b hb
    obtain ⟨a, ha, hr⟩ := forall₂_mem_right hf.2 b hb
    rw [hr.1]
    exact lt_of_lt_of_le (hlt a ha) hf.1
  · intro b1 hb1 b2 hb2 hl1 hl2 hn
    obtain ⟨a1, ha1, hr1⟩ := forall₂_mem_right hf.2 b1 hb1
    obtain ⟨a2, ha2, hr2⟩ := forall₂_mem_right hf.2 b2 hb2
    rw [hr1.1, hr2.1]
    refine hex a1 ha1 a2 ha2 ⟨hr1.2.2.2 hl1.1, ?_⟩ ⟨hr2.2.2.2 hl2.1, ?_⟩ ?_
    · rw [← hr1.2.1]; exact hl1.2
    · rw [← hr2.2.1]; exact hl2.2
    · rw [← hr1.2.2.1, ← hr2.2.2.1]; exact hn

theorem GetClientByName_loop_exact (name : String) (cs : List Client) :
    (GetClientByName_loop name true cs none = none → ∀ x ∈ cs, to_lower x.m_name ≠ name)
    ∧ ∀ k, GetClientByName_loop name true cs none = some k →
        ∃ r ∈ cs, r.id = k ∧ to_lower r.m_name = name := by
  induction cs with
  | nil =>
    refine ⟨fun _ x hx => (by cases hx), fun k h => ?_⟩
    simp [GetClientByName_loop] at h
  | cons c cs ih =>
    by_cases hc : name = to_lower c.m_name
    · refine ⟨fun h => ?_, fun k h => ?_⟩
      · simp [GetClientByName_loop, hc] at h
      · simp only [GetClientByName_loop, hc, if_true, Option.some.injEq] at h
        exact ⟨c, List.mem_cons_self _ _, h, hc.symm⟩
    · have hstep : GetClientByName_loop name true (c :: cs) none
          = GetClientByName_loop name true cs none := by
        simp [GetClientByName_loop, hc]
      rw [hstep]
      refine ⟨fun h x hx => ?_, fun k h => ?_⟩
      · rcases List.mem_cons.mp hx with rfl | hx
        · exact fun e => hc e.symm
        · exact ih.1 h x hx
      · obtain ⟨r, hr, h1, h2⟩ := ih.2 k h
        exact ⟨r, List.mem_cons_of_mem _ hr, h1, h2⟩

theorem find_of_mem (cs : List Client) (hnd : (cs.map Client.id).Nodup) {r : Client}
    (hr : r ∈ cs) : cs.find? (fun c => c.id == r.id) = some r := by
  induction cs with
  | nil => cases hr
  | cons c cs ih =>
    rw [List.map_cons, List.nodup_cons] at hnd
    rcases List.mem_cons.mp hr with rfl | hr
    · simp [List.find?]
    · have hne : c.id ≠ r.id := by
        intro e
        exact hnd.1 (e ▸ List.mem_map_of_mem Client.id hr)
      have hb : (c.id == r.id) = false := by simpa using hne
      simp only [List.find?, hb]
      exact ih hnd.2 hr

theorem getClient_of_mem {s : Server} (hnd : (s.m_clients.map Client.id).Nodup) {r : Client}
    (hr : r ∈ s.m_clients) : s.getClient r.id = some r :=
  find_of_mem s.m_clients hnd hr

theorem frame_chain (s3 : Server) (cid : Nat) (m : String) (f2 f3 f4 : Client → Client)
    (h2 : ∀ c, FrameRel c (f2 c)) (h3 : ∀ c, FrameRel c (f3 c)) (h4 : ∀ c, FrameRel c (f4 c)) :
    Frame s3 ((((BroadcastMessage m s3.incNumClients).updClient cid f2).updClient cid f3).updClient
      cid f4) :=
  frame_trans (frame_of_clients_eq s3 s3.incNumClients rfl (le_refl _))
    (frame_trans (frame_BroadcastMessage m _)
      (frame_trans (frame_updClient _ cid f2 h2)
        (frame_trans (frame_updClient _ cid f3 h3) (frame_updClient _ cid f4 h4))))

/-- The sessions after the last block of `OnAuth`, against the sessions once the
name and the `authed` flag are set. -/
theorem frame_OnAuth_login (env : Env) (cid : Nat) (name : String) (s2 s' : Server)
    (h : OnAuth_login env cid name s2 = Outcome.ok s') :
    Frame (s2.updClient cid (fun c => { c.SetName name with authed := true })) s' := by
  rw [OnAuth_login_eq] at h
  have hpre : Frame (s2.updClient cid (fun c => { c.SetName name with authed := true }))
      (beforeAddClient env cid name s2) :=
    frame_chain _ cid _ _ _ _ (fun _ => ⟨rfl, rfl, rfl, id⟩) (fun _ => ⟨rfl, rfl, rfl, id⟩)
      (fun _ => ⟨rfl, rfl, rfl, id⟩)
  cases hw : GetWorld s2 "default" with
  | none => simp [hw] at h
  | some w =>
    simp only [hw, Outcome.ok.injEq] at h
    subst h
    exact frame_trans hpre
      (frame_trans (frame_World_AddClient env "default" w cid _)
        (frame_updClient _ cid _ (fun _ => ⟨rfl, rfl, rfl, id⟩)))

/-- Naming a session and marking it authenticated keeps the invariant when no
other live session has the name. -/
theorem inv_set_name (s2 : Server) (cid : Nat) (name : String) (hinv : Inv s2)
    (hfree : ∀ b ∈ s2.m_clients, b.id ≠ cid → b.live → to_lower b.m_name ≠ to_lower name) :
    Inv (s2.updClient cid (fun c => { c.SetName name with authed := true })) := by
  obtain ⟨hnd, hlt, hex⟩ := hinv
  have hmem : ∀ b ∈ (s2.updClient cid (fun c => { c.SetName name with authed := true })).m_clients,
      ∃ a ∈ s2.m_clients, b.id = a.id ∧ (a.id ≠ cid → b = a) ∧ (a.id = cid → b.m_name = name) := by
    intro b hb
    simp only [Server.updClient, List.mem_map] at hb
    obtain ⟨a, ha, rfl⟩ := hb
    refine ⟨a, ha, ?_, ?_, ?_⟩
    · split_ifs <;> rfl
    · intro hne; simp [hne]
    · intro he; simp [he, Client.SetName]
  refine ⟨?_, ?_, ?_⟩
  · have : ((s2.updClient cid (fun c => { c.SetName name with authed := true })).m_clients.map
        Client.id) = s2.m_clients.map Client.id := by
      simp only [Server.updClient, List.map_map]
      apply List.map_congr_left
      intro c _
      simp only [Function.comp]
      split_ifs <;> rfl
    rw [this]
    exact hnd
  · intro b hb
    obtain ⟨a, ha, hid, -⟩ := hmem b hb
    rw [hid]
    exact hlt a ha
  · intro b1 hb1 b2 hb2 hl1 hl2 hn
    obtain ⟨a1, ha1, hid1, hne1, he1⟩ := hmem b1 hb1
    obtain ⟨a2, ha2, hid2, hne2, he2⟩ := hmem b2 hb2
    by_cases h1 : a1.id = cid <;> by_cases h2 : a2.id = cid
    · rw [hid1, hid2, h1, h2]
    · exfalso
      have e2 := hne2 h2
      subst e2
      refine hfree b2 ha2 h2 hl2 ?_
      rw [← hn, he1 h1]
    · exfalso
      have e1 := hne1 h1
      subst e1
      refine hfree b1 ha1 h1 hl1 ?_
      rw [hn, he2 h2]
    · have e1 := hne1 h1
      have e2 := hne2 h2
      subst e1
      subst e2
      exact hex b1 ha1 b2 ha2 hl1 hl2 hn

/-- The last block of `OnAuth` keeps the invariant when no other live session
has the name. -/
theorem inv_OnAuth_login (env : Env) (cid : Nat) (name : String) (s2 s' : Server)
    (hinv : Inv s2)
    (hfree : ∀ b ∈ s2.m_clients, b.id ≠ cid → b.live → to_lower b.m_name ≠ to_lower name)
    (h : OnAuth_login env cid name s2 = Outcome.ok s') : Inv s' :=
  inv_of_frame (inv_set_name s2 cid name hinv hfree) (frame_OnAuth_login env cid name s2 s' h)

/-- `OnAuth` keeps the invariant when the login replaces a live session or
nobody. -/
theorem inv_OnAuth (env : Env) (henv : EnvFrame env) (cid : Nat) (clientAuth : cauthp)
    (s0 s' : Server) (hinv : Inv s0) (hguard : replacesLive env cid clientAuth s0 = true)
    (h : OnAuth env cid clientAuth s0 = Outcome.ok s') : Inv s' := by
  unfold OnAuth at h
  cases hk : invalidKey env cid (trim_right (c_string64 clientAuth.name))
      (trim_right (c_string64 clientAuth.key)) s0 with
  | true =>
    simp only [hk, if_true, Outcome.ok.injEq] at h
    subst h
    exact inv_of_frame hinv (frame_KickClient _ _ _)
  | false =>
    simp only [hk, Bool.false_eq_true, if_false] at h
    have hinv1 := inv_of_frame hinv
      (frame_TriggerEvent env henv EventType.kOnAuth (some cid) (LuaRef.auth clientAuth) s0)
    cases hflag : GetEventFlag
        (TriggerEvent env EventType.kOnAuth (some cid) (LuaRef.auth clientAuth) s0)
        "NoDefaultCall" with
    | true =>
      simp only [hflag, if_true, Outcome.ok.injEq] at h
      subst h
      exact hinv1
    | false =>
      simp only [hflag, Bool.false_eq_true, if_false] at h
      unfold OnAuth_default at h
      cases hc : GetClientByName
          (TriggerEvent env EventType.kOnAuth (some cid) (LuaRef.auth clientAuth) s0)
          (trim_right (c_string64 clientAuth.name)) GetClientByName_exact_default with
      | none =>
        simp only [hc] at h
        split_ifs at h
        · simp only [Outcome.ok.injEq] at h
          subst h
          exact inv_of_frame hinv1 (frame_KickClient _ _ _)
        · refine inv_OnAuth_login env cid _ _ s' hinv1 ?_ h
          intro b hb _ _
          exact (GetClientByName_loop_exact _ _).1 hc b hb
      | some k =>
        simp only [hc, Option.isNone_some, Bool.and_false, Bool.false_eq_true, if_false] at h
        obtain ⟨p, hp, hpa, hpau⟩ : ∃ p, (TriggerEvent env EventType.kOnAuth (some cid)
            (LuaRef.auth clientAuth) s0).getClient k = some p
            ∧ p.active = true ∧ p.authed = true := by
          unfold replacesLive at hguard
          simp only [hk, hflag, hc, Bool.false_or] at hguard
          cases hp : (TriggerEvent env EventType.kOnAuth (some cid)
              (LuaRef.auth clientAuth) s0).getClient k with
          | none => simp [hp] at hguard
          | some p =>
            simp only [hp, Bool.and_eq_true] at hguard
            exact ⟨p, rfl, hguard.1, hguard.2⟩
        obtain ⟨r, hr, hrk, hrn⟩ := (GetClientByName_loop_exact _ _).2 k hc
        have hrp : r = p := by
          have := getClient_of_mem hinv1.1 hr
          rw [hrk, hp] at this
          exact (Option.some.inj this).symm
        subst hrp
        refine inv_OnAuth_login env cid _ _ s'
          (inv_of_frame hinv1 (frame_KickClient k _ _)) ?_ h
        intro b hb _ hbl hbn
        simp only [KickClient, Server.updClient, List.mem_map] at hb
        obtain ⟨a, ha, rfl⟩ := hb
        by_cases hak : a.id = k
        · simp [hak, Client.live] at hbl
        · simp only [hak, if_false] at hbl hbn
          have := hinv1.2.2 r hr a ha ⟨hpa, hpau⟩ hbl (hrn.trans hbn.symm)
          exact hak (this.symm.trans hrk)

theorem frameRel_IsChatMuted (c : Client) (now : Nat) : FrameRel c (c.IsChatMuted now).2 := by
  unfold Client.IsChatMuted
  split_ifs <;> exact ⟨rfl, rfl, rfl, id⟩

theorem frame_OnMessage_command (env : Env) (henv : EnvFrame env) (cid : Nat) (message : String)
    (s : Server) : Frame s (OnMessage_command env cid message s) := by
  unfold OnMessage_command
  refine frame_trans (frame_updClient s cid (fun c => c.SetChatMute env.clock 1000)
    (fun _ => ⟨rfl, rfl, rfl, id⟩)) ?_
  exact frame_trans (henv.2 _ _ _) (frame_of_clients_eq _ _ rfl (le_refl _))

theorem frame_OnMessage (env : Env) (henv : EnvFrame env) (cid : Nat) (clientMsg : cmsgp)
    (s s1 : Server) (h : OnMessage env cid clientMsg s = Outcome.ok s1) : Frame s s1 := by
  unfold OnMessage at h
  cases hc : s.getClient cid with
  | none =>
    simp only [hc, Outcome.ok.injEq] at h
    subst h
    exact frame_refl s
  | some client =>
    simp only [hc] at h
    have hm : Frame s (s.updClient cid (fun c => (c.IsChatMuted env.clock).2)) :=
      frame_updClient s cid _ (fun c => frameRel_IsChatMuted c _)
    cases hmuted : (client.IsChatMuted env.clock).1 with
    | true =>
      simp only [hmuted, if_true, Outcome.ok.injEq] at h
      subst h
      exact hm
    | false =>
      simp only [hmuted, Bool.false_eq_true, if_false] at h
      cases hd : (trim_right (c_string64 clientMsg.msg)).data with
      | nil => simp [hd] at h
      | cons first rest =>
        simp only [hd] at h
        by_cases hf : first = Char.ofNat 47
        · simp only [hf, if_true, Outcome.ok.injEq] at h
          subst h
          exact frame_trans hm (frame_OnMessage_command env henv cid _ _)
        · simp only [hf, if_false, Outcome.ok.injEq] at h
          subst h
          exact frame_trans hm (frame_BroadcastMessage _ _)

theorem frame_onWorldOf (op : World → Client → WorldEffect) (cid : Nat) (s s1 : Server)
    (h : onWorldOf op cid s = Outcome.ok s1) : Frame s s1 := by
  unfold onWorldOf at h
  cases hc : s.getClient cid with
  | none =>
    simp only [hc, Outcome.ok.injEq] at h
    subst h
    exact frame_refl s
  | some c =>
    simp only [hc] at h
    cases hw : GetWorld s c.m_worldName with
    | none => simp [hw] at h
    | some w =>
      simp only [hw, Outcome.ok.injEq] at h
      subst h
      exact frame_applyWorldEffect _ _ _

/-- `HandlePacket` keeps the invariant when a login it makes replaces a live
session or nobody. -/
theorem inv_HandlePacket (env : Env) (henv : EnvFrame env) (cid opcode : Nat) (s s' : Server)
    (hinv : Inv s) (hguard : loginGuard env cid opcode s = true)
    (h : HandlePacket env cid opcode s = Outcome.ok s') : Inv s' := by
  unfold HandlePacket at h
  cases hc : s.getClient cid with
  | none =>
    simp only [hc, Outcome.ok.injEq] at h
    subst h
    exact hinv
  | some client =>
    simp only [hc] at h
    cases hau : client.authed with
    | false =>
      simp only [hau, Bool.not_false, if_true] at h
      by_cases hop : opcode = CAUTH
      · simp only [hop, if_true] at h
        cases hr : cauthp.Read client.stream with
        | none =>
          simp only [hr, Outcome.ok.injEq] at h
          subst h
          exact hinv
        | some r =>
          obtain ⟨clientAuth, st⟩ := r
          simp only [hr] at h
          exact inv_OnAuth env henv cid clientAuth
            (s.updClient cid (fun x => { x with stream := st })) s'
            (inv_of_frame hinv (frame_updClient s cid _ (fun _ => ⟨rfl, rfl, rfl, id⟩)))
            (by simpa [loginGuard, hc, hau, hop, hr] using hguard) h
      · simp only [hop, if_false, Outcome.ok.injEq] at h
        subst h
        exact inv_of_frame hinv
          (frame_updClient s cid _ (fun _ => ⟨rfl, rfl, rfl, fun h => by simp at h⟩))
    | true =>
      simp only [hau, Bool.not_true, Bool.false_eq_true, if_false] at h
      have hst : ∀ st : ClientStream,
          Frame s (s.updClient cid (fun c => { c with stream := st })) :=
        fun st => frame_updClient s cid _ (fun _ => ⟨rfl, rfl, rfl, id⟩)
      split_ifs at h
      · cases hr : cmsgp.Read client.stream with
        | none =>
          simp only [hr, Outcome.ok.injEq] at h
          subst h
          exact hinv
        | some r =>
          obtain ⟨clientMsg, st⟩ := r
          simp only [hr] at h
          cases hm : OnMessage env cid clientMsg (s.updClient cid (fun c => { c with stream := st }))
            with
          | fault f s1 => simp [hm] at h
          | ok s1 =>
            simp only [hm, Outcome.ok.injEq] at h
            subst h
            exact inv_of_frame hinv (frame_trans (hst st)
              (frame_trans (frame_OnMessage env henv cid clientMsg _ s1 hm)
                (frame_TriggerEvent env henv _ _ _ _)))
      · cases hr : cposp.Read client.stream with
        | none =>
          simp only [hr, Outcome.ok.injEq] at h
          subst h
          exact hinv
        | some r =>
          obtain ⟨clientPos, st⟩ := r
          simp only [hr] at h
          exact inv_of_frame hinv (frame_trans (hst st)
            (frame_trans (frame_TriggerEvent env henv _ _ _ _) (frame_onWorldOf _ cid _ s' h)))
      · cases hr : cblockp.Read client.stream with
        | none =>
          simp only [hr, Outcome.ok.injEq] at h
          subst h
          exact hinv
        | some r =>
          obtain ⟨clientBlock, st⟩ := r
          simp only [hr] at h
          exact inv_of_frame hinv (frame_trans (hst st)
            (frame_trans (frame_TriggerEvent env henv _ _ _ _) (frame_onWorldOf _ cid _ s' h)))
      · simp only [Outcome.ok.injEq] at h
        subst h
        exact inv_of_frame hinv (frame_KickClient _ _ _)

/-- Removing sessions keeps the invariant. -/
theorem inv_of_sublist {s s' : Server} (hinv : Inv s) (hsub : s'.m_clients.Sublist s.m_clients)
    (hn : s.nextId ≤ s'.nextId) : Inv s' := by
  obtain ⟨hnd, hlt, hex⟩ := hinv
  refine ⟨hnd.sublist (hsub.map Client.id), ?_, ?_⟩
  · intro c hc
    exact lt_of_lt_of_le (hlt c (hsub.subset hc)) hn
  · intro a ha b hb
    exact hex a (hsub.subset ha) b (hsub.subset hb)

theorem inv_reap (env : Env) (i : Nat) (c : Client) (s s' : Server) (hinv : Inv s)
    (h : reap env i c s = Outcome.ok s') : Inv s' := by
  unfold reap at h
  have h1 : Inv { s with m_clients := s.m_clients.eraseIdx i } :=
    inv_of_sublist hinv (List.eraseIdx_sublist _ _) (le_refl _)
  cases hau : c.authed with
  | false =>
    simp only [hau, Bool.false_eq_true, if_false, Outcome.ok.injEq] at h
    subst h
    exact h1
  | true =>
    simp only [hau, if_true] at h
    cases hw : GetWorld s c.m_worldName with
    | none => simp [hw] at h
    | some w =>
      simp only [hw] at h
      have h3 := inv_of_frame h1 (frame_trans
        (frame_BroadcastMessage ("&ePlayer " ++ c.m_name ++ " left the game.") _)
        (frame_applyWorldEffect c.m_worldName (env.RemoveClient w c.m_pid) _))
      split_ifs at h
      · simp only [Outcome.ok.injEq] at h
        subst h
        exact inv_of_frame h3 (frame_of_clients_eq _ _ rfl (le_refl _))
      · simp only [Outcome.ok.injEq] at h
        subst h
        exact h3

theorem inv_OnConnect (ip : String) (s : Server) (hinv : Inv s) : Inv (OnConnect ip s) := by
  obtain ⟨hnd, hlt, hex⟩ := hinv
  have hmem : ∀ c ∈ (OnConnect ip s).m_clients,
      c ∈ s.m_clients ∨ (c.id = s.nextId ∧ c.authed = false) := by
    intro c hc
    simp only [OnConnect, List.mem_append, List.mem_singleton] at hc
    rcases hc with hc | rfl
    · exact Or.inl hc
    · exact Or.inr ⟨rfl, rfl⟩
  refine ⟨?_, ?_, ?_⟩
  · simp only [OnConnect, List.map_append, List.map_cons, List.map_nil]
    rw [List.nodup_append]
    refine ⟨hnd, List.nodup_singleton _, ?_⟩
    intro x hx hx'
    rw [List.mem_singleton] at hx'
    obtain ⟨c, hc, rfl⟩ := List.mem_map.mp hx
    have := hlt c hc
    simp only [Client.new] at hx'
    omega
  · intro c hc
    rcases hmem c hc with h | h
    · exact Nat.lt_succ_of_lt (hlt c h)
    · simp only [OnConnect]
      omega
  · intro a ha b hb hla hlb hn
    rcases hmem a ha with h1 | h1
    · rcases hmem b hb with h2 | h2
      · exact hex a h1 b h2 hla hlb hn
      · have := hlb.2
        rw [h2.2] at this
        cases this
    · have := hla.2
      rw [h1.2] at this
      cases this

theorem frame_worldsTick (env : Env) (ws : List (String × World)) :
    ∀ s, Frame s (worldsTick env ws s) := by
  induction ws with
  | nil => intro s; exact frame_refl s
  | cons e rest ih =>
    intro s
    simp only [worldsTick]
    cases GetWorld s e.1 with
    | none => exact ih s
    | some w => exact frame_trans (frame_applyWorldEffect _ _ _) (ih _)

/-- Every reachable state satisfies the invariant. -/
theorem inv_of_reachable (env : Env) (henv : EnvFrame env) (s : Server)
    (h : Reachable env s) : Inv s := by
  induction h with
  | init s hs =>
    refine ⟨?_, ?_, ?_⟩
    · rw [hs]; exact List.nodup_nil
    · intro c hc; rw [hs] at hc; cases hc
    · intro a ha; rw [hs] at ha; cases ha
  | connect s ip _ ih => exact inv_OnConnect ip s ih
  | poll s cid r _ ih =>
    refine inv_of_frame ih (frame_updClient s cid _ (fun c => ⟨rfl, rfl, rfl, ?_⟩))
    unfold Client.poll
    split_ifs <;> simp
  | packet s s' cid opcode _ hg hp ih => exact inv_HandlePacket env henv cid opcode s s' ih hg hp
  | process s cid writable _ ih =>
    exact inv_of_frame ih (frame_updClient s cid _ (fun _ => ⟨rfl, rfl, rfl, id⟩))
  | kick s cid reason _ ih => exact inv_of_frame ih (frame_KickClient _ _ _)
  | reap s s' i c _ _ _ hr ih => exact inv_reap env i c s s' ih hr
  | worldTick s ws _ ih => exact inv_of_frame ih (frame_worldsTick env ws s)

/-- Under the invariant at most one live session has a given name. -/
theorem live_count_le_one (s : Server) (hinv : Inv s) (N : String) :
    (s.m_clients.filter (fun c => c.active && c.authed && (c.m_name == N))).length ≤ 1 := by
  obtain ⟨hnd, -, hex⟩ := hinv
  have hsub : (s.m_clients.filter (fun c => c.active && c.authed && (c.m_name == N))).Sublist
      s.m_clients := List.filter_sublist _
  have hnd' := hnd.sublist (hsub.map Client.id)
  have hall : ∀ a ∈ s.m_clients.filter (fun c => c.active && c.authed && (c.m_name == N)),
      ∀ b ∈ s.m_clients.filter (fun c => c.active && c.authed && (c.m_name == N)),
      a.id = b.id := by
    intro a ha b hb
    rw [List.mem_filter] at ha hb
    simp only [Bool.and_eq_true, beq_iff_eq] at ha hb
    refine hex a ha.1 b hb.1 ⟨ha.2.1.1, ha.2.1.2⟩ ⟨hb.2.1.1, hb.2.1.2⟩ ?_
    rw [ha.2.2, hb.2.2]
  generalize s.m_clients.filter (fun c => c.active && c.authed && (c.m_name == N)) = l at *
  match l, hnd', hall with
  | [], _, _ => simp
  | [_], _, _ => simp
  | a :: b :: rest, hnd', hall =>
    exfalso
    have e := hall a (List.mem_cons_self _ _) b (List.mem_cons_of_mem _ (List.mem_cons_self _ _))
    simp only [List.map_cons, List.nodup_cons, List.mem_cons] at hnd'
    exact hnd'.1 (Or.inl e)

/-- The client loop of `Server::Tick` stays within the reachable states. -/
theorem reachable_Tick_loop (env : Env) (poll : Nat → PollResult) :
    ∀ (fuel i : Nat) (s s' : Server), Reachable env s →
      Tick_loop_guard env poll fuel i s = true →
      Tick_loop env poll fuel i s = Outcome.ok s' → Reachable env s' := by
  intro fuel
  induction fuel with
  | zero =>
    intro i s s' hr _ h
    simp only [Tick_loop, Outcome.ok.injEq] at h
    subst h
    exact hr
  | succ n ih =>
    intro i s s' hr hg h
    unfold Tick_loop at h
    unfold Tick_loop_guard at hg
    cases h0 : s.m_clients[i]? with
    | none =>
      simp only [h0, Outcome.ok.injEq] at h
      subst h
      exact hr
    | some c0 =>
      simp only [h0, Bool.and_eq_true] at h hg
      obtain ⟨hg1, hg2⟩ := hg
      have hr1 := Reachable.poll s c0.id (poll c0.id) hr
      cases h2 : Tick_handle env i c0.id (s.updClient c0.id (fun c => c.poll (poll c0.id))) with
      | fault f s2 => simp [h2] at h
      | ok s2 =>
        simp only [h2] at h hg2
        have hr2 : Reachable env s2 := by
          unfold Tick_handle at h2
          unfold handleGuard at hg1
          cases h1 : (s.updClient c0.id (fun c => c.poll (poll c0.id))).m_clients[i]? with
          | none =>
            simp only [h1, Outcome.ok.injEq] at h2
            subst h2
            exact hr1
          | some c1 =>
            simp only [h1] at h2 hg1
            split_ifs at h2 hg1
            · exact Reachable.packet _ _ _ _ hr1 hg1 h2
            · simp only [Outcome.ok.injEq] at h2
              subst h2
              exact hr1
        have hr3 := Reachable.process s2 c0.id (poll c0.id).writable hr2
        cases h3 : (s2.updClient c0.id
            (fun c => c.ProcessPacketsInQueue (poll c0.id).writable)).m_clients[i]? with
        | none =>
          simp only [h3, Outcome.ok.injEq] at h
          subst h
          exact hr3
        | some c =>
          simp only [h3] at h hg2
          cases hact : c.active with
          | true =>
            simp only [hact, Bool.not_true, Bool.false_eq_true, if_false] at h hg2
            exact ih _ _ _ hr3 hg2 h
          | false =>
            simp only [hact, Bool.not_false, if_true] at h hg2
            cases h4 : reap env i c (s2.updClient c0.id
                (fun c => c.ProcessPacketsInQueue (poll c0.id).writable)) with
            | fault f s4 => simp [h4] at h
            | ok s4 =>
              simp only [h4] at h hg2
              exact ih _ _ _ (Reachable.reap _ _ i c hr3 h3 hact h4) hg2 h

/-- A tick leads from a reachable state to a reachable state. -/
theorem reachable_Tick (env : Env) (inp : TickInput) (s s' : Server) (hr : Reachable env s)
    (hg : Tick_guard env inp s = true) (h : Tick env inp s = Outcome.ok s') :
    Reachable env s' := by
  unfold Tick at h
  unfold Tick_guard at hg
  have hr1 := Reachable.worldTick s s.m_worlds hr
  cases ha : inp.accept with
  | none =>
    simp only [ha] at h hg
    exact reachable_Tick_loop env inp.poll _ _ _ _ hr1 hg h
  | some ip =>
    simp only [ha] at h hg
    exact reachable_Tick_loop env inp.poll _ _ _ _ (Reachable.connect _ ip hr1) hg h

/-- A run of ticks leads from a reachable state to a reachable state. -/
theorem reachable_runTicks (env : Env) :
    ∀ (inps : List TickInput) (s s' : Server), Reachable env s →
      runTicks_guard env inps s = true → runTicks env inps s = Outcome.ok s' →
      Reachable env s' := by
  intro inps
  induction inps with
  | nil =>
    intro s s' hr _ h
    simp only [runTicks, Outcome.ok.injEq] at h
    subst h
    exact hr
  | cons inp rest ih =>
    intro s s' hr hg h
    unfold runTicks at h
    unfold runTicks_guard at hg
    rw [Bool.and_eq_true] at hg
    cases ht : Tick env inp s with
    | fault f s1 => simp [ht] at h
    | ok s1 =>
      simp only [ht] at h hg
      exact ih s1 s' (reachable_Tick env inp s s1 hr hg.1 ht) hg.2 h

/-- The concrete environment has no handler and its command handler does
nothing. -/
theorem sampleEnv_frame : EnvFrame sampleEnv :=
  ⟨fun _ _ hh => (by cases hh), fun _ _ s => frame_refl s⟩

/-- C6, amended. Assume the event handlers and the commands leave the sessions'
addresses, `authed` flags and names alone and reactivate no session
(`EnvFrame`). In every state reachable from a server with no session through
connects, polls, `HandlePacket`/`OnAuth` calls, queue processing, kicks, world
ticks and reaping, every login being one that finds under its name nobody or,
first in the list, an active authenticated session: for any name `N` at most
one session that is active has the name `N` and `authed = true`. The same holds
at the end of every tick that starts in such a state and whose logins are of
that kind. -/
theorem C6_live_exclusivity (env : Env) (henv : EnvFrame env) (s : Server)
    (h : Reachable env s) :
    (∀ N : String,
        (s.m_clients.filter (fun c => c.active && c.authed && (c.m_name == N))).length ≤ 1)
      ∧ ∀ (inp : TickInput) (s' : Server), Tick_guard env inp s = true →
          Tick env inp s = Outcome.ok s' →
          ∀ N : String,
            (s'.m_clients.filter (fun c => c.active && c.authed && (c.m_name == N))).length ≤ 1 :=
  ⟨fun N => live_count_le_one s (inv_of_reachable env henv s h) N,
    fun inp s' hg ht N =>
      live_count_le_one s' (inv_of_reachable env henv s' (reachable_Tick env inp s s' h hg ht)) N⟩

set_option maxRecDepth 100000 in
theorem C6_live_exclusivity_witness :
    (ghostState.m_clients.filter (fun c => c.active && c.authed && (c.m_name == "x"))).length ≤ 1 :=
  (C6_live_exclusivity sampleEnv sampleEnv_frame ghostState
    (reachable_runTicks sampleEnv ghostLogin (lobby 1 []) ghostState
      (Reachable.init _ rfl) (by decide) (by decide))).1 "x"

set_option maxRecDepth 100000 in
/-- C6 as worded fails on two runs from a server with no session. After the
four ticks of `ghostLogin`, whose logins all replace a live session or nobody,
the list holds two sessions with the name "x" and `authed = true`: session 1 and
session 0, which session 1's login kicked after its turn in the loop and which
stays authenticated in the list until the next tick reaps it. After the five
ticks of `tripleLogin`, in which the third login finds the kicked session 0
first, the list holds two such sessions that are both active. -/
theorem C6_two_sessions_one_name :
    (lobby 1 []).m_clients = []
    ∧ runTicks_guard sampleEnv ghostLogin (lobby 1 []) = true
    ∧ (runTicks sampleEnv ghostLogin (lobby 1 [])).returned = true
    ∧ (runTicks sampleEnv ghostLogin (lobby 1 [])).state.m_clients.map Client.summary
        = [(0, false, true, "x"), (1, true, true, "x"), (2, true, false, "")]
    ∧ ((runTicks sampleEnv ghostLogin (lobby 1 [])).state.m_clients.filter
        (fun c => c.authed && (c.m_name == "x"))).length = 2
    ∧ runTicks_guard sampleEnv tripleLogin (lobby 1 []) = false
    ∧ (runTicks sampleEnv tripleLogin (lobby 1 [])).returned = true
    ∧ (runTicks sampleEnv tripleLogin (lobby 1 [])).state.m_clients.map Client.summary
        = [(1, true, true, "x"), (2, true, true, "x")]
    ∧ ((runTicks sampleEnv tripleLogin (lobby 1 [])).state.m_clients.filter
        (fun c => c.authed && (c.m_name == "x"))).length = 2 := by
  decide

/-! ## The veto of the default path (C11) -/

theorem forall₂_find {l l' : List Client} (h : List.Forall₂ FrameRel l l') (cid : Nat) :
    ∀ c, l.find? (fun x => x.id == cid) = some c →
      ∃ c', l'.find? (fun x => x.id == cid) = some c' ∧ FrameRel c c' := by
  induction h with
  | nil => intro c hc; simp at hc
  | @cons a b l l' hab _ ih =>
    intro c hc
    by_cases ha : a.id = cid
    · have hb : b.id = cid := hab.1.trans ha
      simp only [List.find?, ha, hb, beq_self_eq_true, Option.some.injEq] at hc ⊢
      subst hc
      exact ⟨b, rfl, hab⟩
    · have hb : ¬ b.id = cid := fun e => ha (hab.1.symm.trans e)
      have ha' : (a.id == cid) = false := by simpa using ha
      have hb' : (b.id == cid) = false := by simpa using hb
      simp only [List.find?, ha', hb'] at hc ⊢
      exact ih c hc

theorem frame_getClient {s s' : Server} (hf : Frame s s') (cid : Nat) (c : Client)
    (h : s.getClient cid = some c) : ∃ c', s'.getClient cid = some c' ∧ FrameRel c c' :=
  forall₂_find hf.2 cid c h

/-- C11. For a login that passes the key check, with `s1` the state in which
the OnAuth handlers leave the server: if the flag `NoDefaultCall` reads true in
`s1`, `OnAuth` returns, and returns `s1` itself. Every session, the counter and
the worlds are as the dispatch left them, so the default path has set no name
and no `authed` flag, has not touched the counter, and has produced no
SERVER_INFO, world attach or chat line; `OnAuth` has made no kick; the event log
has grown by the OnAuth event only. When the handlers respect `Frame`, the
logging-in session is still in the list with the `authed` flag and the name it
had before the call. -/

theorem C11_OnAuth_NoDefaultCall (env : Env) (s s1 : Server) (cid : Nat) (clientAuth : cauthp)
    (hkey : invalidKey env cid (trim_right (c_string64 clientAuth.name))
      (trim_right (c_string64 clientAuth.key)) s = false)
    (hs1 : s1 = TriggerEvent env EventType.kOnAuth (some cid) (LuaRef.auth clientAuth) s)
    (hveto : GetEventFlag s1 "NoDefaultCall" = true) :
    OnAuth env cid clientAuth s = Outcome.ok s1
      ∧ (OnAuth env cid clientAuth s).state.kicks = s.kicks
      ∧ (OnAuth env cid clientAuth s).state.fired
          = s.fired ++ [(EventType.kOnAuth, some cid, LuaRef.auth clientAuth)]
      ∧ (EnvFrame env → ∀ c, s.getClient cid = some c →
          ∃ c', (OnAuth env cid clientAuth s).state.getClient cid = some c'
            ∧ c'.authed = c.authed ∧ c'.m_name = c.m_name) := by
  have hOn : OnAuth env cid clientAuth s = Outcome.ok s1 := by
    unfold OnAuth
    simp only [hkey, Bool.false_eq_true, if_false, ← hs1, hveto, if_true]
  rw [hOn]
  refine ⟨rfl, ?_, ?_, ?_⟩
  · rw [hs1]; rfl
  · rw [hs1]; rfl
  · intro henv c hc
    have hf : Frame s s1 := hs1 ▸ frame_TriggerEvent env henv _ _ _ s
    obtain ⟨c', h1, h2⟩ := frame_getClient hf cid c hc
    exact ⟨c', h1, h2.2.1, h2.2.2.1⟩

theorem C11_OnAuth_NoDefaultCall_witness :
    OnAuth vetoEnv 1 (authPacket "alice" "")
        (lobby 8 [player 0 "1.1.1.1" "alice" 0, guest 1 "8.8.8.8"])
      = Outcome.ok (TriggerEvent vetoEnv EventType.kOnAuth (some 1)
          (LuaRef.auth (authPacket "alice" ""))
          (lobby 8 [player 0 "1.1.1.1" "alice" 0, guest 1 "8.8.8.8"])) :=
  (C11_OnAuth_NoDefaultCall vetoEnv (lobby 8 [player 0 "1.1.1.1" "alice" 0, guest 1 "8.8.8.8"])
    _ 1 (authPacket "alice" "") (by decide) rfl (by decide)).1

/-! ## The kick (C12) -/

/-- C12. For every session address and reason string, `KickClient` returns the
state in which every record with that address has one more packet at the end of
its queue, `KICK` with the given reason or with "Kicked" when the reason is
empty, and `active = false`, and in which nothing else differs but the log of
kicks: the other fields of that record (`authed`, name, pid, world name), the
other sessions, the length and order of the list, `m_numClients` and the worlds
are unchanged. -/

theorem C12_KickClient_effect (cid : Nat) (reason : String) (s : Server) :
    KickClient cid reason s =
        { s with
          m_clients := s.m_clients.map (fun c =>
            if c.id = cid then
              { c with queue := c.queue ++ [Packet.KICK (if reason = "" then "Kicked" else reason)],
                       active := false }
            else c),
          kicks := s.kicks ++ [(cid, if reason = "" then "Kicked" else reason)] }
      ∧ (KickClient cid reason s).m_clients.length = s.m_clients.length
      ∧ (KickClient cid reason s).m_numClients = s.m_numClients
      ∧ (KickClient cid reason s).m_worlds = s.m_worlds
      ∧ ∀ (i : Nat) (c : Client), s.m_clients[i]? = some c →
          (KickClient cid reason s).m_clients[i]? = some
            (if c.id = cid then
              { c with queue := c.queue ++ [Packet.KICK (if reason = "" then "Kicked" else reason)],
                       active := false }
            else c) := by
  have h : KickClient cid reason s =
        { s with
          m_clients := s.m_clients.map (fun c =>
            if c.id = cid then
              { c with queue := c.queue ++ [Packet.KICK (if reason = "" then "Kicked" else reason)],
                       active := false }
            else c),
          kicks := s.kicks ++ [(cid, if reason = "" then "Kicked" else reason)] } := rfl
  refine ⟨h, ?_, rfl, rfl, ?_⟩
  · rw [h]; simp
  · intro i c hc
    rw [h]
    simp [List.getElem?_map, hc]

/-! ## Reaping (C13) -/

theorem eraseIdx_map_id (cs : List Client) (i : Nat) (g : Client → Client)
    (hg : ∀ c, (g c).id = c.id) :
    ((cs.eraseIdx i).map g).map Client.id = (cs.map Client.id).eraseIdx i := by
  induction cs generalizing i with
  | nil => simp
  | cons c cs ih =>
    cases i with
    | zero => simp [List.eraseIdx, hg]
    | succ n => simp [List.eraseIdx, hg, ih n]

/-- C13. One turn of the client loop of `Server::Tick`, for the session at
position `i`: `s3` is the state at the end of the turn (after the poll, the
call of `HandlePacket` and the queue processing) and `c` the session's record
there.

* If `c` is active the loop goes on at position `i + 1` from `s3`: nothing is
  removed.
* If `c` is inactive and unauthenticated, the reaping returns `s3` with the
  session at position `i` erased and nothing else changed (no broadcast, no
  world call, same counter), and the loop goes on at position `i` from there.
* If `c` is inactive and authenticated, and its world exists, the reaping
  returns a state `s4` from which the loop goes on at position `i`: its list is
  the list of `s3` without position `i`, in the same order, each remaining
  session having received the wrapped line "&ePlayer <name> left the game." and
  then the packets `RemoveClient` addressed to it; the world is replaced by the
  result of the one call `RemoveClient(pid)`; `m_numClients` is one less when it
  was positive and unchanged otherwise; no event is triggered and no kick made. -/

theorem C13_Tick_reaps_inactive (env : Env) (poll : Nat → PollResult) (fuel i : Nat)
    (s s2 s3 : Server) (c0 c : Client)
    (h0 : s.m_clients[i]? = some c0)
    (h2 : Tick_handle env i c0.id (s.updClient c0.id (fun x => x.poll (poll c0.id)))
      = Outcome.ok s2)
    (hs3 : s3 = s2.updClient c0.id (fun x => x.ProcessPacketsInQueue (poll c0.id).writable))
    (h3 : s3.m_clients[i]? = some c) :
    (c.active = true → Tick_loop env poll (fuel + 1) i s = Tick_loop env poll fuel (i + 1) s3)
      ∧ (c.active = false → c.authed = false →
          reap env i c s3 = Outcome.ok { s3 with m_clients := s3.m_clients.eraseIdx i }
            ∧ Tick_loop env poll (fuel + 1) i s
                = Tick_loop env poll fuel i { s3 with m_clients := s3.m_clients.eraseIdx i })
      ∧ (c.active = false → c.authed = true → ∀ w, GetWorld s3 c.m_worldName = some w →
          ∃ s4, reap env i c s3 = Outcome.ok s4
            ∧ Tick_loop env poll (fuel + 1) i s = Tick_loop env poll fuel i s4
            ∧ s4.m_clients = (s3.m_clients.eraseIdx i).map (fun x =>
                { SendWrappedMessage x ("&ePlayer " ++ c.m_name ++ " left the game.") with
                  queue := (SendWrappedMessage x
                      ("&ePlayer " ++ c.m_name ++ " left the game.")).queue
                    ++ ((env.RemoveClient w c.m_pid).sends.filter
                        (fun e => e.1 == x.id)).map Prod.snd })
            ∧ s4.m_clients.map Client.id = (s3.m_clients.map Client.id).eraseIdx i
            ∧ s4.m_worlds = setWorld c.m_worldName (env.RemoveClient w c.m_pid).world s3.m_worlds
            ∧ s4.m_numClients
                = (if 0 < s3.m_numClients then s3.m_numClients - 1 else s3.m_numClients)
            ∧ s4.fired = s3.fired ∧ s4.kicks = s3.kicks) := by
  have hloop : Tick_loop env poll (fuel + 1) i s
      = if !c.active then
          match reap env i c s3 with
          | .fault f s4 => .fault f s4
          | .ok s4 => Tick_loop env poll fuel i s4
        else Tick_loop env poll fuel (i + 1) s3 := by
    rw [Tick_loop]
    simp only [h0, h2, ← hs3, h3]
  refine ⟨fun hact => ?_, fun hact hau => ?_, fun hact hau w hw => ?_⟩
  · rw [hloop]; simp [hact]
  · have hr : reap env i c s3 = Outcome.ok { s3 with m_clients := s3.m_clients.eraseIdx i } := by
      unfold reap
      simp [hau]
    refine ⟨hr, ?_⟩
    rw [hloop, hr]; simp [hact]
  · have hm : deliver (env.RemoveClient w c.m_pid).sends
        ((s3.m_clients.eraseIdx i).map (fun x =>
          SendWrappedMessage x ("&ePlayer " ++ c.m_name ++ " left the game.")))
        = (s3.m_clients.eraseIdx i).map (fun x =>
            { SendWrappedMessage x ("&ePlayer " ++ c.m_name ++ " left the game.") with
              queue := (SendWrappedMessage x
                  ("&ePlayer " ++ c.m_name ++ " left the game.")).queue
                ++ ((env.RemoveClient w c.m_pid).sends.filter
                    (fun e => e.1 == x.id)).map Prod.snd }) := by
      rw [deliver_eq_map, List.map_map]
      apply List.map_congr_left
      intro x _
      simp [SendWrappedMessage_id]
    by_cases hpos : 0 < s3.m_numClients
    · refine ⟨(applyWorldEffect c.m_worldName (env.RemoveClient w c.m_pid)
          (BroadcastMessage ("&ePlayer " ++ c.m_name ++ " left the game.")
            { s3 with m_clients := s3.m_clients.eraseIdx i })).decNumClients, ?_, ?_, ?_, ?_, rfl, ?_,
          rfl, rfl⟩
      · unfold reap
        simp only [hau, if_true, hw]
        have : (applyWorldEffect c.m_worldName (env.RemoveClient w c.m_pid)
          (BroadcastMessage ("&ePlayer " ++ c.m_name ++ " left the game.")
            { s3 with m_clients := s3.m_clients.eraseIdx i })).m_numClients > 0 := hpos
        simp only [this, if_true]
      · rw [hloop]
        unfold reap
        have : (applyWorldEffect c.m_worldName (env.RemoveClient w c.m_pid)
          (BroadcastMessage ("&ePlayer " ++ c.m_name ++ " left the game.")
            { s3 with m_clients := s3.m_clients.eraseIdx i })).m_numClients > 0 := hpos
        simp only [hact, Bool.not_false, if_true, hau, hw, this]
      · exact hm
      · exact (congrArg (List.map Client.id) hm).trans
          (eraseIdx_map_id _ _ _ (fun _ => SendWrappedMessage_id _ _))
      · simp [hpos, Server.decNumClients, applyWorldEffect, BroadcastMessage]
    · refine ⟨applyWorldEffect c.m_worldName (env.RemoveClient w c.m_pid)
          (BroadcastMessage ("&ePlayer " ++ c.m_name ++ " left the game.")
            { s3 with m_clients := s3.m_clients.eraseIdx i }), ?_, ?_, ?_, ?_, rfl, ?_,
          rfl, rfl⟩
      · unfold reap
        simp only [hau, if_true, hw]
        have : ¬ (applyWorldEffect c.m_worldName (env.RemoveClient w c.m_pid)
          (BroadcastMessage ("&ePlayer " ++ c.m_name ++ " left the game.")
            { s3 with m_clients := s3.m_clients.eraseIdx i })).m_numClients > 0 := hpos
        simp only [this, if_false]
      · rw [hloop]
        unfold reap
        have : ¬ (applyWorldEffect c.m_worldName (env.RemoveClient w c.m_pid)
          (BroadcastMessage ("&ePlayer " ++ c.m_name ++ " left the game.")
            { s3 with m_clients := s3.m_clients.eraseIdx i })).m_numClients > 0 := hpos
        simp only [hact, Bool.not_false, if_true, hau, hw, this, if_false]
      · exact hm
      · exact (congrArg (List.map Client.id) hm).trans
          (eraseIdx_map_id _ _ _ (fun _ => SendWrappedMessage_id _ _))
      · simp [hpos, applyWorldEffect, BroadcastMessage]

set_option maxRecDepth 100000 in
theorem C13_Tick_reaps_inactive_witness :
    ∃ s4, reap sampleEnv 0 (pairAfterTurn.m_clients.getD 0 (guest 0 "")) pairAfterTurn
          = Outcome.ok s4
      ∧ s4.m_clients.map Client.id = [1]
      ∧ s4.m_numClients = 1 := by
  obtain ⟨s4, h1, -, -, h4, -, h6, -⟩ :=
    (C13_Tick_reaps_inactive sampleEnv (hangUp 0) 1 0 pairState
      (pairState.updClient 0 (fun x => x.poll (hangUp 0 0))) pairAfterTurn
      (pairState.m_clients.getD 0 (guest 0 "")) (pairAfterTurn.m_clients.getD 0 (guest 0 ""))
      (by decide) (by decide) rfl (by decide)).2.2 (by decide) (by decide)
      ((GetWorld pairState "default").getD (smallWorld "default")) (by decide)
  exact ⟨s4, h1, h4.trans (by decide), h6.trans (by decide)⟩

/-! ## Faults of subscribers (C14) -/

/-- A subscriber that throws ends the signal call: the subscribers connected
after it are not invoked. -/
theorem invokeSlots_throw (h : Handler) (rest : List Handler) (c : Option Nat) (tbl : LuaRef)
    (s : Server) (hthrow : (h c tbl s).2 = true) :
    invokeSlots (h :: rest) c tbl s = ((h c tbl s).1, true) := by
  simp [invokeSlots, hthrow]

set_option maxRecDepth 100000 in
/-- C14, evaluated on the OnMessage event with three subscribers connected in
this order: one that sets the flag "first", one that throws, one that sets the
flag "third". `TriggerEvent` returns (it is a total function and the exception
is caught), the first subscriber has run, and the third has not: its flag is
still unset. Without the throwing subscriber the third one runs. -/
theorem C14_fault_skips_later_subscribers :
    faultyEnv.signalMap EventType.kOnMessage
        = [markingHandler "first", throwingHandler, markingHandler "third"]
    ∧ (throwingHandler (some 0) (LuaRef.msg (msgPacket "hi")) soloState).2 = true
    ∧ GetEventFlag soloState "first" = false
    ∧ GetEventFlag soloState "third" = false
    ∧ GetEventFlag (TriggerEvent faultyEnv EventType.kOnMessage (some 0)
        (LuaRef.msg (msgPacket "hi")) soloState) "first" = true
    ∧ GetEventFlag (TriggerEvent faultyEnv EventType.kOnMessage (some 0)
        (LuaRef.msg (msgPacket "hi")) soloState) "third" = false
    ∧ GetEventFlag (TriggerEvent
        { faultyEnv with signalMap := fun _ => [markingHandler "first", markingHandler "third"] }
        EventType.kOnMessage (some 0) (LuaRef.msg (msgPacket "hi")) soloState) "third" = true := by
  refine ⟨rfl, rfl, ?_, ?_, ?_, ?_, ?_⟩ <;> decide

/-! ## The counter across a ghost replacement (C15) -/

/-- A write through the pointer `cid` leaves the record at another address
alone. -/
theorem getClient_updClient_ne (s : Server) (cid k : Nat) (f : Client → Client)
    (hne : k ≠ cid) (hf : ∀ c, (f c).id = c.id) :
    (s.updClient cid f).getClient k = s.getClient k := by
  have h := find_map_pres s.m_clients k (fun c => if c.id = cid then f c else c)
    (fun c => by
      dsimp only
      split_ifs
      · exact hf c
      · rfl)
  simp only [Server.getClient, Server.updClient]
  refine h.trans ?_
  cases hp : s.m_clients.find? (fun c => c.id == k) with
  | none => rfl
  | some p =>
    have hid : p.id = k := by simpa using List.find?_some hp
    have : ¬ p.id = cid := fun e => hne (hid.symm.trans e)
    simp [this]

/-- The packets a world operation delivers only extend the queues. -/
theorem getClient_deliver (sends : List (Nat × Packet)) (s s' : Server) (k : Nat)
    (hc : s'.m_clients = deliver sends s.m_clients) :
    s'.getClient k = (s.getClient k).map (fun c =>
      { c with queue := c.queue ++ (sends.filter (fun e => e.1 == c.id)).map Prod.snd }) := by
  simp only [Server.getClient, hc, deliver_eq_map]
  exact find_map_pres _ _ _ (fun _ => rfl)

/-- Replacing the world stored under a name keeps the names of the registry. -/
theorem find_setWorld (n name : String) (w : World) :
    ∀ (ws : List (String × World)) (e : String × World),
      ws.find? (fun e => e.1 == name) = some e →
      ∃ e', (setWorld n w ws).find? (fun e => e.1 == name) = some e' := by
  intro ws
  induction ws with
  | nil => intro e h; simp at h
  | cons a rest ih =>
    intro e h
    have hfst : (if a.1 = n then (a.1, w) else a).1 = a.1 := by split_ifs <;> rfl
    by_cases ha : a.1 = name
    · subst ha
      refine ⟨if a.1 = n then (a.1, w) else a, ?_⟩
      simp only [setWorld, List.map_cons, List.find?, hfst, beq_self_eq_true]
    · have hb : (a.1 == name) = false := by simpa using ha
      simp only [List.find?, hb] at h
      obtain ⟨e', he'⟩ := ih e h
      refine ⟨e', ?_⟩
      simp only [setWorld, List.map_cons, List.find?, hfst, hb]
      exact he'

/-- What the last block of `OnAuth` does to a session other than the one
logging in: packets are added to its queue and nothing else changes. -/
theorem getClient_OnAuth_login_ne (env : Env) (cid k : Nat) (name : String) (s2 s' : Server)
    (p2 : Client) (hne : k ≠ cid) (hp2 : s2.getClient k = some p2)
    (h : OnAuth_login env cid name s2 = Outcome.ok s') :
    ∃ l, s'.getClient k = some { p2 with queue := p2.queue ++ l } := by
  rw [OnAuth_login_eq] at h
  cases hw : GetWorld s2 "default" with
  | none => simp [hw] at h
  | some w =>
    simp only [hw, Outcome.ok.injEq] at h
    subst h
    obtain ⟨l1, hl1⟩ := SendWrappedMessage_eq p2 ("&e" ++ name ++ " joined the game")
    have hb : (beforeAddClient env cid name s2).getClient k
        = some { p2 with queue := p2.queue ++ l1 } := by
      unfold beforeAddClient
      rw [getClient_updClient_ne, getClient_updClient_ne, getClient_updClient_ne,
        getClient_BroadcastMessage, getClient_incNumClients,
        getClient_updClient_ne, hp2, Option.map_some', hl1]
      all_goals first | exact hne | (intro _; rfl)
    rw [getClient_updClient_ne (World_AddClient env "default" w cid
      (beforeAddClient env cid name s2)) cid k
      (fun c => SendMessage (SendMessage c "https://github.com/vexyl/MCHawk")
        "&eTry /goto freebuild to get started.") hne (fun _ => rfl)]
    unfold World_AddClient
    cases hc : (beforeAddClient env cid name s2).getClient cid with
    | none =>
      simp only []
      exact ⟨l1, hb⟩
    | some c =>
      simp only []
      rw [getClient_deliver (env.AddClient w c).sends
        (((beforeAddClient env cid name s2).updClient cid
          (fun x => { x with m_pid := (env.AddClient w c).pid }))) _ k rfl,
        getClient_updClient_ne (beforeAddClient env cid name s2) cid k
          (fun x => { x with m_pid := (env.AddClient w c).pid }) hne (fun _ => rfl), hb]
      refine ⟨l1 ++ ((env.AddClient w c).sends.filter (fun e => e.1 == p2.id)).map Prod.snd, ?_⟩
      simp

/-- C15, amended. A login that passes the key check and is not vetoed, on a
server with a world "default" and a counter between 0 and 2147483646, with
handlers that leave the counter alone, such that under the login name
`GetClientByName` finds a session `k` other than the one logging in that is
active and authenticated and whose world exists. `OnAuth` returns; it has
kicked `k` with "Logged in from somewhere else" and made no other kick; the new
session is authenticated; and `m_numClients` is one more than before the call.
The replaced session is still in the list, inactive and authenticated, with
its name, world name and pid, and the KICK in its queue; its reaping, from the
state `OnAuth` returns, returns a state whose counter equals the counter before
the call. -/
theorem C15_ghost_replacement_count (env : Env) (s s1 : Server) (cid k : Nat)
    (clientAuth : cauthp) (c p : Client) (w wp : World)
    (hkey : invalidKey env cid (trim_right (c_string64 clientAuth.name))
      (trim_right (c_string64 clientAuth.key)) s = false)
    (hs1 : s1 = TriggerEvent env EventType.kOnAuth (some cid) (LuaRef.auth clientAuth) s)
    (hcount : s1.m_numClients = s.m_numClients)
    (hrange : 0 ≤ s.m_numClients ∧ s.m_numClients < 2147483647)
    (hveto : GetEventFlag s1 "NoDefaultCall" = false)
    (hfound : GetClientByName s1 (trim_right (c_string64 clientAuth.name))
      GetClientByName_exact_default = some k)
    (hne : k ≠ cid)
    (hp : s1.getClient k = some p)
    (hlive : p.active = true ∧ p.authed = true)
    (hworld : GetWorld s1 "default" = some w)
    (hwp : GetWorld s1 p.m_worldName = some wp)
    (hc : s1.getClient cid = some c) :
    ∃ (s' s'' : Server) (i : Nat) (g c' : Client),
      OnAuth env cid clientAuth s = Outcome.ok s'
        ∧ s'.m_numClients = s.m_numClients + 1
        ∧ s'.kicks = s.kicks ++ [(k, "Logged in from somewhere else")]
        ∧ s'.getClient cid = some c' ∧ c'.authed = true
        ∧ s'.m_clients[i]? = some g
        ∧ g.id = k ∧ g.active = false ∧ g.authed = true ∧ g.m_name = p.m_name
        ∧ g.m_worldName = p.m_worldName ∧ g.m_pid = p.m_pid
        ∧ (∃ l, g.queue = p.queue ++ Packet.KICK "Logged in from somewhere else" :: l)
        ∧ reap env i g s' = Outcome.ok s''
        ∧ s''.m_numClients = s.m_numClients := by
  have hOn : OnAuth env cid clientAuth s
      = OnAuth_login env cid (trim_right (c_string64 clientAuth.name))
          (KickClient k "Logged in from somewhere else" s1) := by
    unfold OnAuth
    simp only [hkey, Bool.false_eq_true, if_false, ← hs1, hveto]
    unfold OnAuth_default
    simp only [hfound, Option.isNone_some, Bool.and_false, Bool.false_eq_true, if_false]
  have hpid : p.id = k := (getClient_mem hp).2
  have hc2 := getClient_KickClient k "Logged in from somewhere else" s1 cid
  rw [hc, Option.map_some'] at hc2
  have hp2 : (KickClient k "Logged in from somewhere else" s1).getClient k
      = some { p with queue := p.queue ++ [Packet.KICK "Logged in from somewhere else"],
                      active := false } := by
    rw [getClient_KickClient, hp]
    simp [hpid, SendKick, Client.QueuePacket]
  obtain ⟨s', cPre, c', l0, h1, h2, -, -, -, -, -, -, hw', hc', -, hau', -⟩ := OnAuth_login_spec env cid
    (trim_right (c_string64 clientAuth.name))
    (KickClient k "Logged in from somewhere else" s1) _ w hworld hc2
  have hk := (OnAuth_login_logs env cid (trim_right (c_string64 clientAuth.name))
    (KickClient k "Logged in from somewhere else" s1)).2
  rw [h1] at hk
  have hn : s'.m_numClients = s.m_numClients + 1 := by
    rw [h2, KickClient_numClients, hcount]
  obtain ⟨l, hg⟩ := getClient_OnAuth_login_ne env cid k _ _ s' _ hne hp2 h1
  obtain ⟨i, hi⟩ := List.getElem?_of_mem (getClient_mem hg).1
  obtain ⟨wg, hwg⟩ : ∃ wg, GetWorld s' p.m_worldName = some wg := by
    unfold GetWorld at hwp ⊢
    rw [hw', KickClient_worlds]
    cases hf : s1.m_worlds.find? (fun e => e.1 == p.m_worldName) with
    | none => simp [hf] at hwp
    | some e =>
      obtain ⟨e', he'⟩ := find_setWorld "default" p.m_worldName _ s1.m_worlds e hf
      exact ⟨e'.2, by rw [he']; rfl⟩
  have hpos' : (applyWorldEffect p.m_worldName (env.RemoveClient wg p.m_pid)
      (BroadcastMessage ("&ePlayer " ++ p.m_name ++ " left the game.")
        { s' with m_clients := s'.m_clients.eraseIdx i })).m_numClients > 0 := by
    show s'.m_numClients > 0
    omega
  refine ⟨s', (applyWorldEffect p.m_worldName (env.RemoveClient wg p.m_pid)
      (BroadcastMessage ("&ePlayer " ++ p.m_name ++ " left the game.")
        { s' with m_clients := s'.m_clients.eraseIdx i })).decNumClients, i,
    { p with queue := p.queue ++ [Packet.KICK "Logged in from somewhere else"] ++ l,
             active := false }, c',
    hOn.trans h1, hn, ?_, hc', hau', ?_, hpid, rfl, hlive.2, rfl, rfl, rfl, ?_, ?_, ?_⟩
  · have : s'.kicks = (KickClient k "Logged in from somewhere else" s1).kicks := hk
    rw [this, KickClient_kicks _ _ _ (by decide), hs1, TriggerEvent_kicks]
  · exact hi
  · exact ⟨l, by simp⟩
  · unfold reap
    simp only [hlive.2, if_true, hwg, hpos']
  · show s'.m_numClients - 1 = s.m_numClients
    omega

theorem TriggerEvent_sampleEnv (t : EventType) (c : Option Nat) (tbl : LuaRef) (s : Server) :
    (TriggerEvent sampleEnv t c tbl s).m_numClients = s.m_numClients := rfl

set_option maxRecDepth 100000 in
theorem C15_ghost_replacement_count_witness :
    ∃ (s' s'' : Server) (i : Nat) (g : Client),
      OnAuth sampleEnv 1 (authPacket "x" "") ghostBefore = Outcome.ok s'
        ∧ s'.m_numClients = ghostBefore.m_numClients + 1
        ∧ s'.m_clients[i]? = some g ∧ g.id = 0 ∧ g.active = false ∧ g.authed = true
        ∧ reap sampleEnv i g s' = Outcome.ok s''
        ∧ s''.m_numClients = ghostBefore.m_numClients := by
  obtain ⟨s', s'', i, g, -, h1, h2, -, -, -, h3, h4, h5, h6, -, -, -, -, h7, h8⟩ :=
    C15_ghost_replacement_count sampleEnv ghostBefore
      (TriggerEvent sampleEnv EventType.kOnAuth (some 1) (LuaRef.auth (authPacket "x" ""))
        ghostBefore)
      1 0 (authPacket "x" "") (ghostBefore.m_clients.getD 1 (guest 1 ""))
      (ghostBefore.m_clients.getD 0 (guest 0 ""))
      ((GetWorld ghostBefore "default").getD (smallWorld "default"))
      ((GetWorld ghostBefore "default").getD (smallWorld "default"))
      (by decide) rfl (TriggerEvent_sampleEnv _ _ _ _) (by decide) (by decide) (by decide)
      (by decide) (by decide) (by decide) (by decide) (by decide) (by decide)
  exact ⟨s', s'', i, g, h1, h2, h3, h4, h5, h6, h7, h8⟩

set_option maxRecDepth 100000 in
/-- C15 as worded fails. After the first three ticks of `ghostLogin` session 0
is authenticated as "x" and the counter is 1. The login of session 1 as "x"
returns with session 0 kicked, both sessions authenticated, and the counter at
2, not 1. The counter is still 2 at the end of the tick in which that login
happens (the fourth tick of `ghostLogin`). -/
theorem C15_count_grows_on_replacement :
    (runTicks sampleEnv (ghostLogin.take 3) (lobby 8 [])).returned = true
    ∧ ghostBefore.m_clients.map Client.summary
        = [(0, true, true, "x"), (1, true, false, ""), (2, true, false, "")]
    ∧ ghostBefore.m_numClients = 1
    ∧ (OnAuth sampleEnv 1 (authPacket "x" "") ghostBefore).returned = true
    ∧ (OnAuth sampleEnv 1 (authPacket "x" "") ghostBefore).state.m_clients.map Client.summary
        = [(0, false, true, "x"), (1, true, true, "x"), (2, true, false, "")]
    ∧ (OnAuth sampleEnv 1 (authPacket "x" "") ghostBefore).state.kicks
        = [(0, "Logged in from somewhere else")]
    ∧ (OnAuth sampleEnv 1 (authPacket "x" "") ghostBefore).state.m_numClients = 2
    ∧ (runTicks sampleEnv ghostLogin (lobby 8 [])).returned = true
    ∧ (runTicks sampleEnv ghostLogin (lobby 8 [])).state.m_numClients = 2 := by
  decide

/-! ## Who is kicked by a login (C16) -/

set_option maxRecDepth 100000 in
/-- C16, evaluated on two states reached by ticks from a server with no
session, with an AUTH packet whose name field is all 0x20 padding. With one
connected session, its login kicks the logging-in session itself with "Logged
in from somewhere else". With two connected sessions, the login of session 1
kicks session 0, which is unauthenticated. -/
theorem C16_kicks_unauthenticated_and_self :
    (runTicks sampleEnv oneConnect (lobby 8 [])).returned = true
    ∧ (runTicks sampleEnv oneConnect (lobby 8 [])).state.m_clients.map Client.summary
        = [(0, true, false, "")]
    ∧ (OnAuth sampleEnv 0 (authPacket "" "")
        (runTicks sampleEnv oneConnect (lobby 8 [])).state).returned = true
    ∧ (OnAuth sampleEnv 0 (authPacket "" "")
        (runTicks sampleEnv oneConnect (lobby 8 [])).state).state.kicks
        = [(0, "Logged in from somewhere else")]
    ∧ (OnAuth sampleEnv 0 (authPacket "" "")
        (runTicks sampleEnv oneConnect (lobby 8 [])).state).state.m_clients.map Client.kickReasons
        = [["Logged in from somewhere else"]]
    ∧ (runTicks sampleEnv twoConnects (lobby 8 [])).returned = true
    ∧ (runTicks sampleEnv twoConnects (lobby 8 [])).state.m_clients.map Client.summary
        = [(0, true, false, ""), (1, true, false, "")]
    ∧ (OnAuth sampleEnv 1 (authPacket "" "")
        (runTicks sampleEnv twoConnects (lobby 8 [])).state).returned = true
    ∧ (OnAuth sampleEnv 1 (authPacket "" "")
        (runTicks sampleEnv twoConnects (lobby 8 [])).state).state.kicks
        = [(0, "Logged in from somewhere else")]
    ∧ (OnAuth sampleEnv 1 (authPacket "" "")
        (runTicks sampleEnv twoConnects (lobby 8 [])).state).state.m_clients.map Client.summary
        = [(0, false, false, ""), (1, true, true, "")]
    ∧ (OnAuth sampleEnv 1 (authPacket "" "")
        (runTicks sampleEnv twoConnects (lobby 8 [])).state).state.m_clients.map Client.kickReasons
        = [["Logged in from somewhere else"], []] := by
  decide

/-! ## The colour rewrite (C17) -/

theorem color_at_ne (a : Char) (next : Option Char) (h : a ≠ Char.ofNat 37) :
    color_at a next = a := by
  unfold color_at
  cases next <;> simp [h]

theorem find_char_hit (pre rest : List Char) (a : Char) :
    find_char (pre ++ a :: rest) a pre.length = some pre.length := by
  simp [find_char, List.indexOf?, List.findIdx?_cons]

theorem find_char_skip (pre rest : List Char) (a ch : Char) (h : a ≠ ch) :
    find_char (pre ++ a :: rest) ch pre.length = find_char (pre ++ a :: rest) ch (pre.length + 1) := by
  have h1 : (pre ++ a :: rest).drop pre.length = a :: rest := by simp
  have h2 : (pre ++ a :: rest).drop (pre.length + 1) = rest := by
    rw [← List.drop_drop]
    simp
  have hb : (a == ch) = false := by simpa using h
  simp only [find_char, h1, h2, List.indexOf?, List.findIdx?_cons, hb, List.findIdx?_succ,
    Bool.false_eq_true, if_false, Nat.zero_add]
  generalize List.findIdx? _ rest 0 = o
  cases o with
  | none => rfl
  | some k =>
    show some (pre.length + (k + 1)) = some (pre.length + 1 + k)
    rw [Nat.add_assoc, Nat.add_comm k 1]

theorem color_loop_eq : ∀ (suf pre : List Char) (fuel : Nat), suf.length < fuel →
    color_loop fuel pre.length (pre ++ suf) = pre ++ color_pointwise suf := by
  intro suf
  induction suf with
  | nil =>
    intro pre fuel hf
    cases fuel with
    | zero => omega
    | succ f => simp [color_loop, find_char, color_pointwise, List.indexOf?]
  | cons a rest ih =>
    intro pre fuel hf
    cases fuel with
    | zero => omega
    | succ f =>
      simp only [List.length_cons] at hf
      by_cases ha : a = Char.ofNat 37
      · subst ha
        rw [color_loop, find_char_hit]
        cases rest with
        | nil => simp [color_pointwise, color_at]
        | cons b rest' =>
          have hne : ¬ pre.length = (pre ++ Char.ofNat 37 :: b :: rest').length - 1 := by
            simp only [List.length_append, List.length_cons]
            omega
          have hget : (pre ++ Char.ofNat 37 :: b :: rest').getD (pre.length + 1) (Char.ofNat 0) = b := by
            rw [List.getD_eq_getElem?_getD, List.getElem?_append_right (by omega)]
            simp
          have hset : ∀ x : Char, (pre ++ Char.ofNat 37 :: b :: rest').set pre.length x
              = (pre ++ [x]) ++ b :: rest' := by
            intro x
            simp [List.set_append_right]
          simp only [hne, if_false, hget]
          have hlen : (pre ++ [color_at (Char.ofNat 37) (some b)]).length = pre.length + 1 := by simp
          have := ih (pre ++ [color_at (Char.ofNat 37) (some b)]) f (by simpa using hf)
          rw [hlen] at this
          simp only [color_pointwise, List.head?_cons]
          by_cases hb : (48 ≤ b.toNat ∧ b.toNat ≤ 57) ∨ (97 ≤ b.toNat ∧ b.toNat ≤ 102)
          · have hat : color_at (Char.ofNat 37) (some b) = Char.ofNat 38 := by
              simp [color_at, hb]
            rw [hat] at this ⊢
            simp only [hb, if_true, hset]
            rw [this]
            simp [color_pointwise]
          · have hat : color_at (Char.ofNat 37) (some b) = Char.ofNat 37 := by
              simp [color_at, hb]
            rw [hat] at this ⊢
            simp only [hb, if_false]
            have e : pre ++ Char.ofNat 37 :: b :: rest' = (pre ++ [Char.ofNat 37]) ++ b :: rest' := by
              simp
            rw [e, this]
            simp [color_pointwise]
      · have hstep : color_loop (f + 1) pre.length (pre ++ a :: rest)
            = color_loop (f + 1) (pre.length + 1) (pre ++ a :: rest) := by
          rw [color_loop, color_loop, find_char_skip pre rest a _ ha]
        rw [hstep]
        have := ih (pre ++ [a]) (f + 1) (by omega)
        simp only [List.length_append, List.length_singleton, List.append_assoc,
          List.singleton_append] at this
        rw [this]
        simp [color_pointwise, color_at_ne a _ ha]

theorem color_pointwise_getElem? : ∀ (l : List Char) (i : Nat),
    (color_pointwise l)[i]? = (l[i]?).map (fun a => color_at a l[i + 1]?) := by
  intro l
  induction l with
  | nil => intro i; simp [color_pointwise]
  | cons a rest ih =>
    intro i
    cases i with
    | zero =>
      simp only [color_pointwise, List.getElem?_cons_zero, Option.map_some', List.getElem?_cons_succ]
      cases rest <;> simp
    | succ n =>
      simp only [color_pointwise, List.getElem?_cons_succ]
      exact ih n

theorem color_pointwise_length : ∀ l : List Char, (color_pointwise l).length = l.length := by
  intro l
  induction l with
  | nil => rfl
  | cons a rest ih => simp [color_pointwise, ih]

theorem color_codes_eq (message : String) :
    color_codes message = ⟨color_pointwise message.data⟩ := by
  unfold color_codes
  have := color_loop_eq message.data [] (message.length + 1) (Nat.lt_succ_self _)
  simp only [List.length_nil, List.nil_append] at this
  rw [this]

/-- C17. For a session that is not muted and a message that, once stripped,
is not empty and does not start with `/`: `OnMessage` returns, and what it
broadcasts is a text `out` obtained from `pre`, the stripped message with
"&e" (user type above 0) or "&7", the chat name and "&f: " in front, position
by position: `out` has the length of `pre`, and position `i` of `out` holds `&`
when `pre` holds `%` at `i` and a character in `0`-`9` or `a`-`f` at `i + 1`,
and the character of `pre` at `i` otherwise (so a trailing `%` and a `%` before
any other character stay `%`). -/

theorem C17_OnMessage_chat_colors (env : Env) (s : Server) (cid : Nat) (clientMsg : cmsgp)
    (client : Client) (first : Char) (rest : List Char) (pre : String)
    (hc : s.getClient cid = some client)
    (hmute : (client.IsChatMuted env.clock).1 = false)
    (hmsg : (trim_right (c_string64 clientMsg.msg)).data = first :: rest)
    (hfirst : first ≠ Char.ofNat 47)
    (hpre : pre = (if client.m_userType > 0 then "&e" else "&7") ++ client.m_chatName ++ "&f: "
      ++ trim_right (c_string64 clientMsg.msg)) :
    ∃ out : String,
      OnMessage env cid clientMsg s
          = Outcome.ok (BroadcastMessage out
              (s.updClient cid (fun c => (c.IsChatMuted env.clock).2)))
        ∧ out.length = pre.length
        ∧ ∀ i : Nat, out.data[i]? = (pre.data[i]?).map (fun a => color_at a pre.data[i + 1]?) := by
  refine ⟨color_codes pre, ?_, ?_, ?_⟩
  · unfold OnMessage
    simp only [hc, hmute, Bool.false_eq_true, if_false, hmsg, hfirst]
    unfold OnMessage_chat
    rw [hpre]
    split_ifs <;> rfl
  · rw [color_codes_eq]
    exact color_pointwise_length pre.data
  · intro i
    rw [color_codes_eq]
    exact color_pointwise_getElem? pre.data i

set_option maxRecDepth 100000 in
theorem C17_OnMessage_chat_colors_witness :
    ∃ out : String,
      OnMessage sampleEnv 0 (msgPacket "a %c b %G %") soloState
          = Outcome.ok (BroadcastMessage out
              (soloState.updClient 0 (fun c => (c.IsChatMuted sampleEnv.clock).2)))
        ∧ out.length = "&7x&f: a %c b %G %".length := by
  obtain ⟨out, h1, h2, -⟩ := C17_OnMessage_chat_colors sampleEnv soloState 0
    (msgPacket "a %c b %G %") (soloState.m_clients.getD 0 (guest 0 "")) (Char.ofNat 97)
    " %c b %G %".data "&7x&f: a %c b %G %" (by decide) (by decide) (by decide) (by decide)
    (by decide)
  exact ⟨out, h1, h2⟩

/-! ## The empty message (C18) -/

set_option maxRecDepth 100000 in
/-- C18, evaluated at the state two ticks reach from a server with no session:
session 0 is logged in as "x", active and not muted. A MESSAGE packet whose
text field is 64 bytes 0x20 is stripped to the empty string, and `OnMessage`
ends in the fault `std::out_of_range` of `message.at(0)`; so do `HandlePacket`
on the frame and the tick that reads it. -/
theorem C18_blank_message_faults :
    (runTicks sampleEnv soloLogin (lobby 8 [])).returned = true
    ∧ soloState.m_clients.map Client.summary = [(0, true, true, "x")]
    ∧ soloState.m_clients.map (fun c => (c.IsChatMuted sampleEnv.clock).1) = [false]
    ∧ (msgPacket "").msg = List.replicate 64 (Char.ofNat 32)
    ∧ trim_right (c_string64 (msgPacket "").msg) = ""
    ∧ (OnMessage sampleEnv 0 (msgPacket "") soloState).returned = false
    ∧ (∃ st, OnMessage sampleEnv 0 (msgPacket "") soloState = Outcome.fault Fault.out_of_range st)
    ∧ (∃ st, HandlePacket sampleEnv 0 CMSG
        (soloState.updClient 0 (fun c => c.poll (blankMessageTick.poll 0)))
          = Outcome.fault Fault.out_of_range st)
    ∧ (∃ st, Tick sampleEnv blankMessageTick soloState = Outcome.fault Fault.out_of_range st) := by
  refine ⟨by decide, by decide, by decide, by decide, by decide, by decide, ⟨_, rfl⟩, ⟨_, rfl⟩,
    ⟨_, rfl⟩⟩

/-! ## Line wrapping (C19) -/

theorem SendWrappedMessage_loop_lines (message : String) :
    ∀ (fuel pos : Nat) (c : Client), pos ≤ message.length → message.length - pos ≤ fuel →
      ∃ lines : List String,
        SendWrappedMessage_loop message message.length fuel pos c
            = { c with queue := c.queue ++ lines.map Packet.MSG }
          ∧ lines.length = (message.length - pos + 63) / 64
          ∧ (∀ l ∈ lines, 0 < l.length ∧ l.length ≤ 64)
          ∧ (∀ i, i + 1 < lines.length → (lines.getD i "").length = 64)
          ∧ (lines.map String.data).flatten = message.data.drop pos := by
  intro fuel
  induction fuel with
  | zero =>
    intro pos c hpos hf
    have hp : pos = message.length := by omega
    refine ⟨[], by simp [SendWrappedMessage_loop], by simp [hp], by simp, by simp, ?_⟩
    rw [hp]
    show [] = List.drop message.data.length message.data
    rw [List.drop_length]
  | succ n ih =>
    intro pos c hpos hf
    unfold SendWrappedMessage_loop
    by_cases hlt : pos < message.length
    · simp only [hlt, if_true]
      obtain ⟨lines, h1, h2, h3, h4, h5⟩ := ih (pos + min (message.length - pos) 64)
        (SendMessage c (substr message pos (min (message.length - pos) 64))) (by omega) (by omega)
      have hlen : (substr message pos (min (message.length - pos) 64)).length
          = min (message.length - pos) 64 := by
        simp only [substr, String.length, List.length_take, List.length_drop]
        omega
      refine ⟨substr message pos (min (message.length - pos) 64) :: lines, ?_, ?_, ?_, ?_, ?_⟩
      · rw [h1]
        simp [SendMessage, Client.QueuePacket]
      · simp only [List.length_cons, h2]
        omega
      · intro l hl
        rcases List.mem_cons.mp hl with rfl | hl
        · rw [hlen]; omega
        · exact h3 l hl
      · intro i hi
        cases i with
        | zero =>
          simp only [List.getD_cons_zero, hlen]
          simp only [List.length_cons, h2] at hi
          omega
        | succ j =>
          simp only [List.getD_cons_succ]
          apply h4
          simpa using hi
      · simp only [List.map_cons, List.flatten_cons, h5, substr]
        have : min (message.length - pos) 64 ≤ (message.data.drop pos).length := by
          simp only [List.length_drop, String.length]
          omega
        rw [← List.drop_drop]
        exact List.take_append_drop _ _
    · have hp : pos = message.length := by omega
      simp only [hlt, if_false]
      refine ⟨[], by simp, by simp [hp], by simp, by simp, ?_⟩
      rw [hp]
      show [] = List.drop message.data.length message.data
      rw [List.drop_length]

theorem SendWrappedMessage_loop_fuel (message : String) :
    ∀ (fuel fuel' pos : Nat) (c : Client), message.length - pos ≤ fuel →
      message.length - pos ≤ fuel' →
      SendWrappedMessage_loop message message.length fuel pos c
        = SendWrappedMessage_loop message message.length fuel' pos c := by
  intro fuel
  induction fuel with
  | zero =>
    intro fuel' pos c hf _
    have hp : ¬ pos < message.length := by omega
    cases fuel' with
    | zero => rfl
    | succ m => simp [SendWrappedMessage_loop, hp]
  | succ n ih =>
    intro fuel' pos c hf hf'
    by_cases hlt : pos < message.length
    · cases fuel' with
      | zero => omega
      | succ m =>
        simp only [SendWrappedMessage_loop, hlt, if_true]
        exact ih m _ _ (by omega) (by omega)
    · cases fuel' with
      | zero => simp [SendWrappedMessage_loop, hlt]
      | succ m => simp [SendWrappedMessage_loop, hlt]

/-- C19. For a message of length `n` (below 2^31, the range of the `int`
variables of the function), `SendWrappedMessage` changes the session only by
appending chat lines to its queue: `ceil(n / 64)` lines, in order, none empty
and none longer than 64, every line but the last of length 64, whose
concatenation is the message; for the empty message the session is unchanged.
The loop ends by its own test: any number of iterations from `n` on gives the
same result. -/

theorem C19_SendWrappedMessage_lines (c : Client) (message : String)
    (_hrange : message.length < 2 ^ 31) :
    ∃ lines : List String,
      SendWrappedMessage c message = { c with queue := c.queue ++ lines.map Packet.MSG }
        ∧ lines.length = (message.length + 63) / 64
        ∧ (∀ l ∈ lines, 0 < l.length ∧ l.length ≤ 64)
        ∧ (∀ i, i + 1 < lines.length → (lines.getD i "").length = 64)
        ∧ String.join lines = message
        ∧ (message = "" → SendWrappedMessage c message = c)
        ∧ ∀ fuel, message.length ≤ fuel →
            SendWrappedMessage_loop message message.length fuel 0 c = SendWrappedMessage c message := by
  obtain ⟨lines, h1, h2, h3, h4, h5⟩ :=
    SendWrappedMessage_loop_lines message message.length 0 c (Nat.zero_le _) (by omega)
  refine ⟨lines, h1, by simpa using h2, h3, h4, ?_, ?_, ?_⟩
  · rw [String.join_eq, h5]
    rfl
  · intro he
    subst he
    rfl
  · intro fuel hf
    exact SendWrappedMessage_loop_fuel message fuel message.length 0 c (by omega) (by omega)

theorem C19_SendWrappedMessage_lines_witness :
    ∃ lines : List String,
      SendWrappedMessage (guest 0 "1.1.1.1") "hello"
          = { guest 0 "1.1.1.1" with queue := (guest 0 "1.1.1.1").queue ++ lines.map Packet.MSG }
        ∧ lines.length = ("hello".length + 63) / 64
        ∧ String.join lines = "hello" := by
  obtain ⟨lines, h1, h2, -, -, h5, -⟩ :=
    C19_SendWrappedMessage_lines (guest 0 "1.1.1.1") "hello" (by decide)
  exact ⟨lines, h1, h2, h5⟩

/-! ## The counter and the authenticated sessions (C20) -/

theorem forall₂_authed {l l' : List Client} (h : List.Forall₂ FrameRel l l') :
    (l'.filter (fun c => c.authed)).length = (l.filter (fun c => c.authed)).length := by
  induction h with
  | nil => rfl
  | @cons a b l l' hab _ ih =>
    simp only [List.filter_cons, hab.2.1]
    split_ifs <;> simp [ih]

theorem cinv_of_frame {s s' : Server} (hinv : CountInv s) (hf : Frame s s')
    (hn : s'.m_numClients = s.m_numClients) : CountInv s' := by
  obtain ⟨hnd, hlt, hcnt⟩ := hinv
  refine ⟨?_, ?_, ?_⟩
  · rw [forall₂_map_id (fun _ _ h => h.1) hf.2]
    exact hnd
  · intro b hb
    obtain ⟨a, ha, hr⟩ := forall₂_mem_right hf.2 b hb
    rw [hr.1]
    exact lt_of_lt_of_le (hlt a ha) hf.1
  · rw [hn, hcnt]
    simp only [authedCount, forall₂_authed hf.2]

theorem count_invokeSlots (hs : List Handler)
    (hh : ∀ h ∈ hs, ∀ c tbl s, (h c tbl s).1.m_numClients = s.m_numClients) (c : Option Nat)
    (tbl : LuaRef) : ∀ s, (invokeSlots hs c tbl s).1.m_numClients = s.m_numClients := by
  induction hs with
  | nil => intro s; rfl
  | cons h rest ih =>
    intro s
    have h1 := hh h (List.mem_cons_self _ _) c tbl s
    simp only [invokeSlots]
    split_ifs
    · exact h1
    · exact (ih (fun h' hm => hh h' (List.mem_cons_of_mem _ hm)) _).trans h1

theorem count_TriggerEvent (env : Env) (henv : EnvCount env) (t : EventType) (c : Option Nat)
    (tbl : LuaRef) (s : Server) : (TriggerEvent env t c tbl s).m_numClients = s.m_numClients :=
  count_invokeSlots (env.signalMap t) (henv.2.1 t) c tbl s

theorem count_OnMessage (env : Env) (henv : EnvCount env) (cid : Nat) (clientMsg : cmsgp)
    (s s1 : Server) (h : OnMessage env cid clientMsg s = Outcome.ok s1) :
    s1.m_numClients = s.m_numClients := by
  unfold OnMessage at h
  cases hc : s.getClient cid with
  | none =>
    simp only [hc, Outcome.ok.injEq] at h
    subst h
    rfl
  | some client =>
    simp only [hc] at h
    cases hmuted : (client.IsChatMuted env.clock).1 with
    | true =>
      simp only [hmuted, if_true, Outcome.ok.injEq] at h
      subst h
      rfl
    | false =>
      simp only [hmuted, Bool.false_eq_true, if_false] at h
      cases hd : (trim_right (c_string64 clientMsg.msg)).data with
      | nil => simp [hd] at h
      | cons first rest =>
        simp only [hd] at h
        by_cases hf : first = Char.ofNat 47
        · simp only [hf, if_true, Outcome.ok.injEq] at h
          subst h
          exact henv.2.2 _ _ _
        · simp only [hf, if_false, Outcome.ok.injEq] at h
          subst h
          rfl

theorem count_onWorldOf (op : World → Client → WorldEffect) (cid : Nat) (s s1 : Server)
    (h : onWorldOf op cid s = Outcome.ok s1) : s1.m_numClients = s.m_numClients := by
  unfold onWorldOf at h
  cases hc : s.getClient cid with
  | none =>
    simp only [hc, Outcome.ok.injEq] at h
    subst h
    rfl
  | some c =>
    simp only [hc] at h
    cases hw : GetWorld s c.m_worldName with
    | none => simp [hw] at h
    | some w =>
      simp only [hw, Outcome.ok.injEq] at h
      subst h
      rfl

theorem count_worldsTick (env : Env) (ws : List (String × World)) :
    ∀ s, (worldsTick env ws s).m_numClients = s.m_numClients := by
  induction ws with
  | nil => intro s; rfl
  | cons e rest ih =>
    intro s
    simp only [worldsTick]
    cases GetWorld s e.1 with
    | none => exact ih s
    | some w => exact (ih _).trans rfl

/-- Marking one unauthenticated session authenticated adds one to the number of
authenticated sessions. -/
theorem authed_count_upd (cs : List Client) (cid : Nat) (f : Client → Client)
    (hnd : (cs.map Client.id).Nodup) (c : Client)
    (hc : cs.find? (fun x => x.id == cid) = some c) (hau : c.authed = false)
    (hf : ∀ x, (f x).authed = true) :
    ((cs.map (fun x => if x.id = cid then f x else x)).filter (fun x => x.authed)).length
      = (cs.filter (fun x => x.authed)).length + 1 := by
  induction cs with
  | nil => simp at hc
  | cons a cs ih =>
    rw [List.map_cons, List.nodup_cons] at hnd
    by_cases ha : a.id = cid
    · have hac : a = c := by
        simp only [List.find?, ha, beq_self_eq_true, Option.some.injEq] at hc
        exact hc
      have hrest : cs.map (fun x => if x.id = cid then f x else x) = cs := by
        conv_rhs => rw [← List.map_id cs]
        apply List.map_congr_left
        intro x hx
        have : x.id ≠ cid := by
          intro e
          exact hnd.1 (ha ▸ e ▸ List.mem_map_of_mem Client.id hx)
        simp [this]
      subst hac
      simp only [List.map_cons, ha, if_true, hrest, List.filter_cons, hf, hau,
        Bool.false_eq_true, if_false, List.length_cons]
    · have ha' : (a.id == cid) = false := by simpa using ha
      simp only [List.find?, ha'] at hc
      have := ih hnd.2 hc
      simp only [List.map_cons, ha, if_false, List.filter_cons]
      split_ifs
      · simp only [List.length_cons, this]
      · exact this

theorem count_OnAuth_login (env : Env) (cid : Nat) (name : String) (s2 s' : Server)
    (h : OnAuth_login env cid name s2 = Outcome.ok s') :
    s'.m_numClients = s2.m_numClients + 1 := by
  rw [OnAuth_login_eq] at h
  cases hw : GetWorld s2 "default" with
  | none => simp [hw] at h
  | some w =>
    simp only [hw, Outcome.ok.injEq] at h
    subst h
    simp

theorem cinv_OnAuth_login (env : Env) (cid : Nat) (name : String) (s2 s' : Server) (c2 : Client)
    (hinv : CountInv s2) (hc2 : s2.getClient cid = some c2) (hau : c2.authed = false)
    (h : OnAuth_login env cid name s2 = Outcome.ok s') : CountInv s' := by
  obtain ⟨hnd, hlt, hcnt⟩ := hinv
  have hf := frame_OnAuth_login env cid name s2 s' h
  have hn := count_OnAuth_login env cid name s2 s' h
  have hids : (s2.updClient cid (fun c => { c.SetName name with authed := true })).m_clients.map
      Client.id = s2.m_clients.map Client.id := by
    simp only [Server.updClient, List.map_map]
    apply List.map_congr_left
    intro c _
    simp only [Function.comp]
    split_ifs <;> rfl
  refine ⟨?_, ?_, ?_⟩
  · rw [forall₂_map_id (fun _ _ h => h.1) hf.2, hids]
    exact hnd
  · intro b hb
    obtain ⟨a, ha, hr⟩ := forall₂_mem_right hf.2 b hb
    rw [hr.1]
    have : a.id ∈ s2.m_clients.map Client.id := by
      rw [← hids]
      exact List.mem_map_of_mem Client.id ha
    obtain ⟨a0, ha0, e⟩ := List.mem_map.mp this
    rw [← e]
    exact lt_of_lt_of_le (hlt a0 ha0) hf.1
  · rw [hn, hcnt]
    simp only [authedCount, forall₂_authed hf.2, Server.updClient]
    rw [authed_count_upd s2.m_clients cid _ hnd c2 hc2 hau (fun _ => rfl)]
    push_cast
    rfl

theorem cinv_OnAuth (env : Env) (henv : EnvCount env) (cid : Nat) (clientAuth : cauthp)
    (s0 s' : Server) (c : Client) (hinv : CountInv s0) (hc : s0.getClient cid = some c)
    (hau : c.authed = false) (h : OnAuth env cid clientAuth s0 = Outcome.ok s') :
    CountInv s' := by
  unfold OnAuth at h
  cases hk : invalidKey env cid (trim_right (c_string64 clientAuth.name))
      (trim_right (c_string64 clientAuth.key)) s0 with
  | true =>
    simp only [hk, if_true, Outcome.ok.injEq] at h
    subst h
    exact cinv_of_frame hinv (frame_KickClient _ _ _) rfl
  | false =>
    simp only [hk, Bool.false_eq_true, if_false] at h
    have hf1 := frame_TriggerEvent env henv.1 EventType.kOnAuth (some cid)
      (LuaRef.auth clientAuth) s0
    have hinv1 := cinv_of_frame hinv hf1 (count_TriggerEvent env henv _ _ _ s0)
    obtain ⟨c1, hc1, hr1⟩ := frame_getClient hf1 cid c hc
    have hau1 : c1.authed = false := hr1.2.1.trans hau
    cases hflag : GetEventFlag
        (TriggerEvent env EventType.kOnAuth (some cid) (LuaRef.auth clientAuth) s0)
        "NoDefaultCall" with
    | true =>
      simp only [hflag, if_true, Outcome.ok.injEq] at h
      subst h
      exact hinv1
    | false =>
      simp only [hflag, Bool.false_eq_true, if_false] at h
      unfold OnAuth_default at h
      cases hcc : GetClientByName
          (TriggerEvent env EventType.kOnAuth (some cid) (LuaRef.auth clientAuth) s0)
          (trim_right (c_string64 clientAuth.name)) GetClientByName_exact_default with
      | none =>
        simp only [hcc] at h
        split_ifs at h
        · simp only [Outcome.ok.injEq] at h
          subst h
          exact cinv_of_frame hinv1 (frame_KickClient _ _ _) rfl
        · exact cinv_OnAuth_login env cid _ _ s' c1 hinv1 hc1 hau1 h
      | some k =>
        simp only [hcc, Option.isNone_some, Bool.and_false, Bool.false_eq_true, if_false] at h
        have hf2 := frame_KickClient k "Logged in from somewhere else"
          (TriggerEvent env EventType.kOnAuth (some cid) (LuaRef.auth clientAuth) s0)
        obtain ⟨c2, hc2, hr2⟩ := frame_getClient hf2 cid c1 hc1
        exact cinv_OnAuth_login env cid _ _ s' c2 (cinv_of_frame hinv1 hf2 rfl) hc2
          (hr2.2.1.trans hau1) h

theorem cinv_HandlePacket (env : Env) (henv : EnvCount env) (cid opcode : Nat) (s s' : Server)
    (hinv : CountInv s) (h : HandlePacket env cid opcode s = Outcome.ok s') : CountInv s' := by
  unfold HandlePacket at h
  cases hc : s.getClient cid with
  | none =>
    simp only [hc, Outcome.ok.injEq] at h
    subst h
    exact hinv
  | some client =>
    simp only [hc] at h
    have hst : ∀ st : ClientStream,
        Frame s (s.updClient cid (fun c => { c with stream := st })) :=
      fun st => frame_updClient s cid _ (fun _ => ⟨rfl, rfl, rfl, id⟩)
    cases hau : client.authed with
    | false =>
      simp only [hau, Bool.not_false, if_true] at h
      by_cases hop : opcode = CAUTH
      · simp only [hop, if_true] at h
        cases hr : cauthp.Read client.stream with
        | none =>
          simp only [hr, Outcome.ok.injEq] at h
          subst h
          exact hinv
        | some r =>
          obtain ⟨clientAuth, st⟩ := r
          simp only [hr] at h
          obtain ⟨c1, hc1, hr1⟩ := frame_getClient (hst st) cid client hc
          exact cinv_OnAuth env henv cid clientAuth _ s' c1 (cinv_of_frame hinv (hst st) rfl)
            hc1 (hr1.2.1.trans hau) h
      · simp only [hop, if_false, Outcome.ok.injEq] at h
        subst h
        exact cinv_of_frame hinv
          (frame_updClient s cid _ (fun _ => ⟨rfl, rfl, rfl, fun h => by simp at h⟩)) rfl
    | true =>
      simp only [hau, Bool.not_true, Bool.false_eq_true, if_false] at h
      split_ifs at h
      · cases hr : cmsgp.Read client.stream with
        | none =>
          simp only [hr, Outcome.ok.injEq] at h
          subst h
          exact hinv
        | some r =>
          obtain ⟨clientMsg, st⟩ := r
          simp only [hr] at h
          cases hm : OnMessage env cid clientMsg (s.updClient cid (fun c => { c with stream := st }))
            with
          | fault f s1 => simp [hm] at h
          | ok s1 =>
            simp only [hm, Outcome.ok.injEq] at h
            subst h
            refine cinv_of_frame hinv (frame_trans (hst st)
              (frame_trans (frame_OnMessage env henv.1 cid clientMsg _ s1 hm)
                (frame_TriggerEvent env henv.1 _ _ _ _))) ?_
            rw [count_TriggerEvent env henv, count_OnMessage env henv cid clientMsg _ s1 hm]
            rfl
      · cases hr : cposp.Read client.stream with
        | none =>
          simp only [hr, Outcome.ok.injEq] at h
          subst h
          exact hinv
        | some r =>
          obtain ⟨clientPos, st⟩ := r
          simp only [hr] at h
          refine cinv_of_frame hinv (frame_trans (hst st)
            (frame_trans (frame_TriggerEvent env henv.1 _ _ _ _) (frame_onWorldOf _ cid _ s' h))) ?_
          rw [count_onWorldOf _ cid _ s' h, count_TriggerEvent env henv]
          rfl
      · cases hr : cblockp.Read client.stream with
        | none =>
          simp only [hr, Outcome.ok.injEq] at h
          subst h
          exact hinv
        | some r =>
          obtain ⟨clientBlock, st⟩ := r
          simp only [hr] at h
          refine cinv_of_frame hinv (frame_trans (hst st)
            (frame_trans (frame_TriggerEvent env henv.1 _ _ _ _) (frame_onWorldOf _ cid _ s' h))) ?_
          rw [count_onWorldOf _ cid _ s' h, count_TriggerEvent env henv]
          rfl
      · simp only [Outcome.ok.injEq] at h
        subst h
        exact cinv_of_frame hinv (frame_KickClient _ _ _) rfl

theorem filter_eraseIdx_length (p : Client → Bool) :
    ∀ (l : List Client) (i : Nat) (c : Client), l[i]? = some c →
      ((l.eraseIdx i).filter p).length + (if p c then 1 else 0) = (l.filter p).length := by
  intro l
  induction l with
  | nil => intro i c h; simp at h
  | cons a l ih =>
    intro i c h
    cases i with
    | zero =>
      simp only [List.getElem?_cons_zero, Option.some.injEq] at h
      subst h
      simp only [List.eraseIdx_cons_zero, List.filter_cons]
      split_ifs <;> simp
    | succ n =>
      simp only [List.getElem?_cons_succ] at h
      have := ih n c h
      simp only [List.eraseIdx_cons_succ, List.filter_cons]
      by_cases hpa : p a = true
      · simp only [hpa, if_true, List.length_cons]
        omega
      · simp only [hpa, if_false]
        exact this

theorem cinv_reap (env : Env) (i : Nat) (c : Client) (s s' : Server) (hinv : CountInv s)
    (hi : s.m_clients[i]? = some c) (h : reap env i c s = Outcome.ok s') : CountInv s' := by
  obtain ⟨hnd, hlt, hcnt⟩ := hinv
  have hlen := filter_eraseIdx_length (fun x => x.authed) s.m_clients i c hi
  unfold reap at h
  cases hau : c.authed with
  | false =>
    simp only [hau, Bool.false_eq_true, if_false, Outcome.ok.injEq] at h
    subst h
    refine ⟨hnd.sublist ((List.eraseIdx_sublist _ _).map Client.id),
      fun x hx => hlt x ((List.eraseIdx_sublist _ _).subset hx), ?_⟩
    simp only [hau, Bool.false_eq_true, if_false, Nat.add_zero] at hlen
    simp only [authedCount, hlen, hcnt]
  | true =>
    simp only [hau, if_true] at h hlen
    have h1 : CountInv { s with m_clients := s.m_clients.eraseIdx i,
                                m_numClients := s.m_numClients - 1 } := by
      refine ⟨hnd.sublist ((List.eraseIdx_sublist _ _).map Client.id),
        fun x hx => hlt x ((List.eraseIdx_sublist _ _).subset hx), ?_⟩
      simp only [authedCount] at hcnt ⊢
      rw [hcnt, ← hlen]
      push_cast
      ring
    have hpos : s.m_numClients > 0 := by
      simp only [authedCount] at hcnt
      rw [hcnt, ← hlen]
      push_cast
      omega
    cases hw : GetWorld s c.m_worldName with
    | none => simp [hw] at h
    | some w =>
      simp only [hw] at h
      have hpos' : (applyWorldEffect c.m_worldName (env.RemoveClient w c.m_pid)
          (BroadcastMessage ("&ePlayer " ++ c.m_name ++ " left the game.")
            { s with m_clients := s.m_clients.eraseIdx i })).m_numClients > 0 := hpos
      simp only [hpos', if_true, Outcome.ok.injEq] at h
      subst h
      refine cinv_of_frame h1 ?_ rfl
      exact frame_trans
        (frame_BroadcastMessage ("&ePlayer " ++ c.m_name ++ " left the game.") _)
        (frame_trans (frame_applyWorldEffect c.m_worldName (env.RemoveClient w c.m_pid) _)
          (frame_of_clients_eq _ _ rfl (le_refl _)))

theorem cinv_OnConnect (ip : String) (s : Server) (hinv : CountInv s) :
    CountInv (OnConnect ip s) := by
  obtain ⟨hnd, hlt, hcnt⟩ := hinv
  refine ⟨?_, ?_, ?_⟩
  · simp only [OnConnect, List.map_append, List.map_cons, List.map_nil]
    rw [List.nodup_append]
    refine ⟨hnd, List.nodup_singleton _, ?_⟩
    intro x hx hx'
    rw [List.mem_singleton] at hx'
    obtain ⟨c, hc, rfl⟩ := List.mem_map.mp hx
    have := hlt c hc
    simp only [Client.new] at hx'
    omega
  · intro c hc
    simp only [OnConnect, List.mem_append, List.mem_singleton] at hc
    rcases hc with hc | rfl
    · exact Nat.lt_succ_of_lt (hlt c hc)
    · simp only [OnConnect, Client.new]
      omega
  · simp only [authedCount, OnConnect, List.filter_append, List.length_append] at hcnt ⊢
    rw [hcnt]
    simp [Client.new]

theorem cinv_of_steps (env : Env) (henv : EnvCount env) (s : Server) (h : Steps env s) :
    CountInv s := by
  induction h with
  | init s hs hn =>
    refine ⟨?_, ?_, ?_⟩
    · rw [hs]; exact List.nodup_nil
    · intro c hc; rw [hs] at hc; cases hc
    · simp [authedCount, hs, hn]
  | connect s ip _ ih => exact cinv_OnConnect ip s ih
  | poll s cid r _ ih =>
    refine cinv_of_frame ih (frame_updClient s cid _ (fun c => ⟨rfl, rfl, rfl, ?_⟩)) rfl
    unfold Client.poll
    split_ifs <;> simp
  | packet s s' cid opcode _ hp ih => exact cinv_HandlePacket env henv cid opcode s s' ih hp
  | process s cid writable _ ih =>
    exact cinv_of_frame ih (frame_updClient s cid _ (fun _ => ⟨rfl, rfl, rfl, id⟩)) rfl
  | kick s cid reason _ ih => exact cinv_of_frame ih (frame_KickClient _ _ _) rfl
  | reap s s' i c _ hi _ hr ih => exact cinv_reap env i c s s' ih hi hr
  | worldTick s ws _ ih =>
    exact cinv_of_frame ih (frame_worldsTick env ws s) (count_worldsTick env ws s)

theorem steps_Tick_loop (env : Env) (poll : Nat → PollResult) :
    ∀ (fuel i : Nat) (s s' : Server), Steps env s →
      Tick_loop env poll fuel i s = Outcome.ok s' → Steps env s' := by
  intro fuel
  induction fuel with
  | zero =>
    intro i s s' hr h
    simp only [Tick_loop, Outcome.ok.injEq] at h
    subst h
    exact hr
  | succ n ih =>
    intro i s s' hr h
    unfold Tick_loop at h
    cases h0 : s.m_clients[i]? with
    | none =>
      simp only [h0, Outcome.ok.injEq] at h
      subst h
      exact hr
    | some c0 =>
      simp only [h0] at h
      have hr1 := Steps.poll s c0.id (poll c0.id) hr
      cases h2 : Tick_handle env i c0.id (s.updClient c0.id (fun c => c.poll (poll c0.id))) with
      | fault f s2 => simp [h2] at h
      | ok s2 =>
        simp only [h2] at h
        have hr2 : Steps env s2 := by
          unfold Tick_handle at h2
          cases h1 : (s.updClient c0.id (fun c => c.poll (poll c0.id))).m_clients[i]? with
          | none =>
            simp only [h1, Outcome.ok.injEq] at h2
            subst h2
            exact hr1
          | some c1 =>
            simp only [h1] at h2
            split_ifs at h2
            · exact Steps.packet _ _ _ _ hr1 h2
            · simp only [Outcome.ok.injEq] at h2
              subst h2
              exact hr1
        have hr3 := Steps.process s2 c0.id (poll c0.id).writable hr2
        cases h3 : (s2.updClient c0.id
            (fun c => c.ProcessPacketsInQueue (poll c0.id).writable)).m_clients[i]? with
        | none =>
          simp only [h3, Outcome.ok.injEq] at h
          subst h
          exact hr3
        | some c =>
          simp only [h3] at h
          cases hact : c.active with
          | true =>
            simp only [hact, Bool.not_true, Bool.false_eq_true, if_false] at h
            exact ih _ _ _ hr3 h
          | false =>
            simp only [hact, Bool.not_false, if_true] at h
            cases h4 : reap env i c (s2.updClient c0.id
                (fun c => c.ProcessPacketsInQueue (poll c0.id).writable)) with
            | fault f s4 => simp [h4] at h
            | ok s4 =>
              simp only [h4] at h
              exact ih _ _ _ (Steps.reap _ _ i c hr3 h3 hact h4) h

theorem steps_Tick (env : Env) (inp : TickInput) (s s' : Server) (hr : Steps env s)
    (h : Tick env inp s = Outcome.ok s') : Steps env s' := by
  unfold Tick at h
  have hr1 := Steps.worldTick s s.m_worlds hr
  cases ha : inp.accept with
  | none =>
    simp only [ha] at h
    exact steps_Tick_loop env inp.poll _ _ _ _ hr1 h
  | some ip =>
    simp only [ha] at h
    exact steps_Tick_loop env inp.poll _ _ _ _ (Steps.connect _ ip hr1) h

theorem steps_runTicks (env : Env) :
    ∀ (inps : List TickInput) (s s' : Server), Steps env s →
      runTicks env inps s = Outcome.ok s' → Steps env s' := by
  intro inps
  induction inps with
  | nil =>
    intro s s' hr h
    simp only [runTicks, Outcome.ok.injEq] at h
    subst h
    exact hr
  | cons inp rest ih =>
    intro s s' hr h
    unfold runTicks at h
    cases ht : Tick env inp s with
    | fault f s1 => simp [ht] at h
    | ok s1 =>
      simp only [ht] at h
      exact ih s1 s' (steps_Tick env inp s s1 hr ht) h

theorem sampleEnv_count : EnvCount sampleEnv :=
  ⟨sampleEnv_frame, fun _ _ hh => (by cases hh), fun _ _ _ => rfl⟩

/-- C20. Assume the event handlers and the commands leave the sessions'
addresses and `authed` flags and the counter alone (`EnvCount`). In every state
reachable from a server with no session and `m_numClients = 0` through
connects, polls, `HandlePacket` (and with it `OnAuth`), queue processing,
`KickClient`, world ticks and the reaping of `Server::Tick`, `m_numClients` is
the number of sessions in the list whose `authed` flag is set; and so it is at
the end of every tick that starts in such a state and returns. -/

theorem C20_count_consistency (env : Env) (henv : EnvCount env) (s : Server)
    (h : Steps env s) :
    s.m_numClients = ((s.m_clients.filter (fun c => c.authed)).length : Int)
      ∧ ∀ (inp : TickInput) (s' : Server), Tick env inp s = Outcome.ok s' →
          s'.m_numClients = ((s'.m_clients.filter (fun c => c.authed)).length : Int) :=
  ⟨(cinv_of_steps env henv s h).2.2,
    fun inp s' ht => (cinv_of_steps env henv s' (steps_Tick env inp s s' h ht)).2.2⟩

set_option maxRecDepth 100000 in
theorem C20_count_consistency_witness :
    (runTicks sampleEnv tripleLogin (lobby 1 [])).state.m_numClients
      = (((runTicks sampleEnv tripleLogin (lobby 1 [])).state.m_clients.filter
          (fun c => c.authed)).length : Int) :=
  (C20_count_consistency sampleEnv sampleEnv_count
    (runTicks sampleEnv tripleLogin (lobby 1 [])).state
    (steps_runTicks sampleEnv tripleLogin (lobby 1 [])
      (runTicks sampleEnv tripleLogin (lobby 1 [])).state
      (Steps.init _ rfl rfl) (by decide))).1

/-! ## The lookup by name (C21) -/

/-- In exact mode `GetClientByName` returns the first session whose name equals
the query ignoring case, and null when there is none. -/
theorem GetClientByName_loop_exact_find (name : String) (cs : List Client) :
    GetClientByName_loop name true cs none
      = (cs.find? (fun c => to_lower c.m_name == name)).map Client.id := by
  induction cs with
  | nil => rfl
  | cons c cs ih =>
    by_cases hc : name = to_lower c.m_name
    · simp [GetClientByName_loop, List.find?, hc]
    · have hb : (to_lower c.m_name == name) = false := by
        simpa using fun e : to_lower c.m_name = name => hc e.symm
      simp only [GetClientByName_loop, hc, if_false, Bool.not_true, Bool.false_and,
        Bool.false_eq_true, List.find?, hb]
      exact ih

/-- In non-exact mode, over sessions none of which has the query as its name
ignoring case: the loop returns the candidate it holds when no session's name
starts with the query, the one session whose name does when it holds none, and
null in every other case. -/
theorem GetClientByName_loop_prefix (name : String) (cs : List Client)
    (h : ∀ x ∈ cs, to_lower x.m_name ≠ name) (acc : Option Nat) :
    GetClientByName_loop name false cs acc
      = match acc, cs.filter (fun c => find_at_zero (to_lower c.m_name) name) with
        | none, [] => none
        | none, [c] => some c.id
        | some a, [] => some a
        | _, _ => none := by
  induction cs generalizing acc with
  | nil => cases acc <;> rfl
  | cons c cs ih =>
    have hc : ¬ name = to_lower c.m_name := fun e => h c (List.mem_cons_self _ _) e.symm
    have ih' := fun acc => ih (fun x hx => h x (List.mem_cons_of_mem _ hx)) acc
    by_cases hp : find_at_zero (to_lower c.m_name) name = true
    · cases acc with
      | some a =>
        simp [GetClientByName_loop, hc, hp, List.filter_cons]
      | none =>
        simp only [GetClientByName_loop, hc, if_false, Bool.not_false, Bool.true_and, hp, if_true,
          List.filter_cons]
        rw [ih' (some c.id)]
        cases cs.filter (fun c => find_at_zero (to_lower c.m_name) name) with
        | nil => rfl
        | cons d rest => rfl
    · have hp' : find_at_zero (to_lower c.m_name) name = false := by simpa using hp
      simp only [GetClientByName_loop, hc, if_false, Bool.not_false, Bool.true_and, hp',
        Bool.false_eq_true, List.filter_cons]
      exact ih' acc

set_option maxRecDepth 100000 in
/-- C21, evaluated at the state four ticks reach from a server with no session:
sessions 0, 1 and 2 are logged in as "alpha", "alps" and "al", in this order.
In exact mode the query "al" (or "AL") returns session 2. In non-exact mode it
returns null, although session 2 has the name "al": the names of sessions 0 and
1 both start with "al", and the loop gives up at the second of them, before it
reaches session 2. The other non-exact queries behave as the claim says. -/
theorem C21_exact_match_missed :
    (runTicks sampleEnv prefixLogin (lobby 8 [])).returned = true
    ∧ prefixState.m_clients.map Client.summary
        = [(0, true, true, "alpha"), (1, true, true, "alps"), (2, true, true, "al")]
    ∧ GetClientByName prefixState "al" true = some 2
    ∧ GetClientByName prefixState "AL" true = some 2
    ∧ GetClientByName prefixState "al" false = none
    ∧ GetClientByName prefixState "alp" false = none
    ∧ GetClientByName prefixState "alph" false = some 0
    ∧ GetClientByName prefixState "alps" false = some 1 := by
  decide

/-! ## The removal of a world (C22) -/

/-- When the registry holds the name, `RemoveWorld` returns at once and removes
nothing. -/
theorem RemoveWorld_found (s : Server) (name : String) (w : World)
    (h : GetWorld s name = some w) : RemoveWorld s name = Outcome.ok s := by
  unfold GetWorld at h
  unfold RemoveWorld
  cases hf : s.m_worlds.find? (fun e => e.1 == name) with
  | none => simp [hf] at h
  | some e => rfl

/-- When the registry does not hold the name, `RemoveWorld` erases at the end
iterator. -/
theorem RemoveWorld_not_found (s : Server) (name : String)
    (h : GetWorld s name = none) : RemoveWorld s name = Outcome.fault Fault.eraseEnd s := by
  unfold GetWorld at h
  unfold RemoveWorld
  cases hf : s.m_worlds.find? (fun e => e.1 == name) with
  | none => rfl
  | some e => simp [hf] at h

set_option maxRecDepth 100000 in
/-- C22, evaluated on a registry that holds the world "default" only.
`RemoveWorld("default")` returns with the registry unchanged: `GetWorld` still
finds the world. `RemoveWorld("scrap")`, on a name the registry does not hold,
ends in the fault of `m_worlds.erase(m_worlds.end())`. -/
theorem C22_RemoveWorld_inverted :
    GetWorldNames (lobby 8 []) = ["default"]
    ∧ GetWorld (lobby 8 []) "default" = some (smallWorld "default")
    ∧ RemoveWorld (lobby 8 []) "default" = Outcome.ok (lobby 8 [])
    ∧ GetWorld (RemoveWorld (lobby 8 []) "default").state "default"
        = some (smallWorld "default")
    ∧ GetWorld (lobby 8 []) "scrap" = none
    ∧ RemoveWorld (lobby 8 []) "scrap" = Outcome.fault Fault.eraseEnd (lobby 8 [])
    ∧ (RemoveWorld (lobby 8 []) "scrap").returned = false := by
  decide

end MCHawk
